import Mathlib

/-!
# storaged: drive objects and block operations

A shallow embedding of the capability attachment code of
`src/storagedlinuxdriveobject.c` and of the block operations of
`src/storagedlinuxblock.c`, followed by theorems about them.

Conventions of the embedding:

* a C string is a `String`; a pointer that may be `NULL` is an `Option`;
* calls into code outside these two files (GLib, udev, the generated D-Bus
  skeletons, other daemon files) are arguments or fields of an environment
  record, so that every theorem holds for all behaviours of that code;
* a function with side effects returns its new state together with the list
  of the effects it performed, in program order.
-/

namespace Storaged

/-! ## Definitions -/

/-! ### GLib string helpers -/

/-- GLib test whether `s` begins with `p` (bytewise, here characterwise). -/
def g_str_starts_with (s p : String) : Bool :=
  p.data.isPrefixOf s.data

/-- Pointer arithmetic `s + n` on a C string known to have at least `n` characters. -/
def str_offset (s : String) (n : Nat) : String :=
  String.mk (s.data.drop n)

/-- GLib `g_strcmp0 (a, b) == 0`: both `NULL`, or both set and equal. -/
def g_strcmp0_eq (a b : Option String) : Bool :=
  decide (a = b)

/-! ### Capability attachment (`update_iface`) -/

/-- A registered skeleton class. The D-Bus interface name of an instance is
fixed by its class, so the class also stands for `interface_info->name`. -/
abbrev GType := Nat

/-- An instance created by `g_object_new (skeleton_type, NULL)`: its address and class. -/
structure GDBusInterface where
  addr : Nat
  skeleton_type : GType
deriving DecidableEq, Repr

/-- The effects of the capability code, in program order. -/
inductive IfaceEvent where
  /-- Call of `g_object_new (skeleton_type, NULL)`, giving the instance. -/
  | construct (i : GDBusInterface)
  /-- Call of `connect_func (object)`. -/
  | connect (t : GType)
  /-- Call of `update_func (object, uevent_action, interface)`. -/
  | update (i : GDBusInterface) (action : Option String)
  /-- Call of `g_dbus_object_skeleton_add_interface`. -/
  | add_interface (i : GDBusInterface)
  /-- Call of `g_dbus_object_skeleton_remove_interface`. -/
  | remove_interface (i : GDBusInterface)
  /-- Call of `g_object_unref` on the instance held in the interface pointer. -/
  | unref (i : GDBusInterface)
  /-- One call of `update_iface` has returned `ret`. -/
  | update_iface_return (t : GType) (ret : Bool)
  /-- Entry of `apply_configuration (object)`. -/
  | apply_configuration
  /-- Call of `storaged_linux_drive_ata_apply_configuration`. -/
  | drive_ata_apply_configuration
deriving DecidableEq, Repr

/-- A `StoragedObject` (a `GDBusObjectSkeleton`): the fields `data` of the
concrete object type that the capability callbacks read and write, the
interfaces exported on the skeleton, and the next free instance address. -/
structure StoragedObject (σ : Type) where
  data : σ
  interfaces : List GDBusInterface
  next_addr : Nat

/-- The type `StoragedObjectHasInterfaceFunc`. -/
abbrev StoragedObjectHasInterfaceFunc (σ : Type) := σ → Bool
/-- The type `StoragedObjectConnectInterfaceFunc`. -/
abbrev StoragedObjectConnectInterfaceFunc (σ : Type) := σ → σ
/-- The type `StoragedObjectUpdateInterfaceFunc`: the result and the object afterwards. -/
abbrev StoragedObjectUpdateInterfaceFunc (σ : Type) :=
  σ → Option String → GDBusInterface → Bool × σ

/-- GLib `g_dbus_object_get_interface (object, name)`. -/
def g_dbus_object_get_interface {σ : Type} (object : StoragedObject σ) (name : GType) :
    Option GDBusInterface :=
  object.interfaces.find? (fun i => i.skeleton_type == name)

/-- GLib `g_dbus_object_skeleton_remove_interface`: only the instance that is
exported under its name is removed. -/
def g_dbus_object_skeleton_remove_interface {σ : Type} (object : StoragedObject σ)
    (iface : GDBusInterface) : StoragedObject σ :=
  match g_dbus_object_get_interface object iface.skeleton_type with
  | none => object
  | some other =>
    if other = iface then
      { object with interfaces := object.interfaces.filter (fun i => i.skeleton_type != iface.skeleton_type) }
    else object

/-- GLib `g_dbus_object_skeleton_add_interface`: an interface exported under the
same name is replaced. -/
def g_dbus_object_skeleton_add_interface {σ : Type} (object : StoragedObject σ)
    (iface : GDBusInterface) : StoragedObject σ :=
  { object with
    interfaces := iface :: object.interfaces.filter (fun i => i.skeleton_type != iface.skeleton_type) }

/-- What one call of `update_iface` leaves behind. -/
structure UpdateIfaceResult (σ : Type) where
  ret : Bool
  object : StoragedObject σ
  interface_pointer : Option GDBusInterface
  events : List IfaceEvent

/-- The locals of `update_iface` after its first `if`/`else`: `add`, the object,
`*interface_pointer` and the effects so far. -/
structure UpdateIfaceAttach (σ : Type) where
  add : Bool
  object : StoragedObject σ
  interface_pointer : Option GDBusInterface
  events : List IfaceEvent

/-- First half of `update_iface`: with `has = has_func (object)`, construct and
connect an instance when there is none and `has`, drop the instance when there
is one and not `has`. -/
def update_iface_attach {σ : Type} (object : StoragedObject σ) (has : Bool)
    (connect_func : Option (StoragedObjectConnectInterfaceFunc σ))
    (skeleton_type : GType) (interface_pointer : Option GDBusInterface) :
    UpdateIfaceAttach σ :=
  match interface_pointer with
  | none =>
    if has then
      let inst : GDBusInterface := ⟨object.next_addr, skeleton_type⟩
      match connect_func with
      | some connect =>
        ⟨true, { object with next_addr := object.next_addr + 1, data := connect object.data },
          some inst, [.construct inst, .connect skeleton_type]⟩
      | none =>
        ⟨true, { object with next_addr := object.next_addr + 1 }, some inst, [.construct inst]⟩
    else ⟨false, object, none, []⟩
  | some inst =>
    if !has then
      match g_dbus_object_get_interface object inst.skeleton_type with
      | some _ =>
        ⟨false, g_dbus_object_skeleton_remove_interface object inst, none,
          [.remove_interface inst, .unref inst]⟩
      | none => ⟨false, object, none, [.unref inst]⟩
    else ⟨false, object, some inst, []⟩

/-- Second half of `update_iface`: refresh the instance when there is one, and
publish it when it was constructed in this call. -/
def update_iface_refresh {σ : Type} (s : UpdateIfaceAttach σ) (uevent_action : Option String)
    (update_func : StoragedObjectUpdateInterfaceFunc σ) (skeleton_type : GType) :
    UpdateIfaceResult σ :=
  match s.interface_pointer with
  | some inst =>
    let u := update_func s.object.data uevent_action inst
    let object3 := { s.object with data := u.2 }
    if s.add then
      ⟨u.1, g_dbus_object_skeleton_add_interface object3 inst, some inst,
        s.events ++ [.update inst uevent_action, .add_interface inst,
          .update_iface_return skeleton_type u.1]⟩
    else
      ⟨u.1, object3, some inst,
        s.events ++ [.update inst uevent_action, .update_iface_return skeleton_type u.1]⟩
  | none => ⟨false, s.object, none, s.events ++ [.update_iface_return skeleton_type false]⟩

/-- The function `update_iface` of `storagedlinuxdriveobject.c`. `has_func` and
`update_func` may be `NULL` (`none`), in which case `g_return_val_if_fail`
returns `FALSE`; `interface_pointer` is the value of `*_interface_pointer`. -/
def update_iface {σ : Type} (object : StoragedObject σ) (uevent_action : Option String)
    (has_func : Option (StoragedObjectHasInterfaceFunc σ))
    (connect_func : Option (StoragedObjectConnectInterfaceFunc σ))
    (update_func : Option (StoragedObjectUpdateInterfaceFunc σ))
    (skeleton_type : GType) (interface_pointer : Option GDBusInterface) :
    UpdateIfaceResult σ :=
  match has_func, update_func with
  | none, _ => ⟨false, object, interface_pointer, [.update_iface_return skeleton_type false]⟩
  | some _, none => ⟨false, object, interface_pointer, [.update_iface_return skeleton_type false]⟩
  | some has_func, some update_func =>
    update_iface_refresh
      (update_iface_attach object (has_func object.data) connect_func skeleton_type
        interface_pointer)
      uevent_action update_func skeleton_type

/-- The effects that create, connect, publish or unpublish a representation. -/
def IfaceEvent.isAttachOrDetach : IfaceEvent → Bool
  | .construct _ => true
  | .connect _ => true
  | .add_interface _ => true
  | .remove_interface _ => true
  | .unref _ => true
  | _ => false

/-- An object without fields, nothing exported. -/
def emptyObject : StoragedObject Unit := ⟨(), [], 0⟩

/-- A refresh function that reports a configuration change on every call. -/
def always_changed_update : StoragedObjectUpdateInterfaceFunc Unit :=
  fun d _ _ => (true, d)

/-! ### Devices -/

/-- A `GUdevDevice`: what the code reads of it. `parent_subsystems` are the
subsystems of its ancestors (for `g_udev_device_get_parent_with_subsystem`). -/
structure GUdevDevice where
  sysfs_path : String
  devtype : Option String
  name : String
  properties : List (String × String)
  sysfs_attrs : List (String × String)
  parent_subsystems : List String
deriving DecidableEq, Repr

/-- A `StoragedLinuxDevice`: the udev device and the two ATA IDENTIFY buffers. -/
structure StoragedLinuxDevice where
  udev_device : GUdevDevice
  ata_identify_device_data : Option (List Nat)
  ata_identify_packet_device_data : Option (List Nat)
deriving DecidableEq, Repr

/-- Lookup in a key/value table: the value of the first entry with the key. -/
def lookup_key (table : List (String × String)) (key : String) : Option String :=
  (table.find? (fun kv => kv.1 == key)).map (fun kv => kv.2)

/-- Udev `g_udev_device_get_property`. -/
def g_udev_device_get_property (device : GUdevDevice) (key : String) : Option String :=
  lookup_key device.properties key

/-- Udev `g_udev_device_get_sysfs_attr`. -/
def g_udev_device_get_sysfs_attr (device : GUdevDevice) (name : String) : Option String :=
  lookup_key device.sysfs_attrs name

/-- A `GUdevClient`: the devices that `g_udev_client_query_by_sysfs_path` finds. -/
structure GUdevClient where
  devices : List GUdevDevice

/-- Udev `g_udev_client_query_by_sysfs_path`. -/
def g_udev_client_query_by_sysfs_path (client : GUdevClient) (sysfs_path : String) :
    Option GUdevDevice :=
  client.devices.find? (fun d => d.sysfs_path == sysfs_path)

/-! ### Drive objects -/

/-- The fields of a drive object that capability callbacks see: the member
devices and the state `ext` kept behind the skeleton instances (their D-Bus
properties), which is all that callbacks write. -/
structure DriveData (ε : Type) where
  devices : List StoragedLinuxDevice
  ext : ε

/-- A `ModuleInterfaceEntry`: the instance and the three callbacks of a module. -/
structure ModuleInterfaceEntry (ε : Type) where
  interface : Option GDBusInterface
  has_func : Option (DriveData ε → Bool)
  connect_func : Option (DriveData ε → ε)
  update_func : Option (DriveData ε → Option String → GDBusInterface → Bool × ε)

/-- A `StoragedModuleInterfaceInfo` as registered by a module. -/
structure StoragedModuleInterfaceInfo (ε : Type) where
  has_func : Option (DriveData ε → Bool)
  connect_func : Option (DriveData ε → ε)
  update_func : Option (DriveData ε → Option String → GDBusInterface → Bool × ε)
  skeleton_type : GType

/-- A `StoragedLinuxDriveObject`. The member list `devices` is
`parent_instance.data.devices`; `module_ifaces` is the hash table keyed by
skeleton class, `none` while it is `NULL`. -/
structure StoragedLinuxDriveObject (ε : Type) where
  parent_instance : StoragedObject (DriveData ε)
  iface_drive : Option GDBusInterface
  iface_drive_ata : Option GDBusInterface
  module_ifaces : Option (List (GType × ModuleInterfaceEntry ε))

/-- The member list `object->devices`. -/
def StoragedLinuxDriveObject.devices {ε : Type} (object : StoragedLinuxDriveObject ε) :
    List StoragedLinuxDevice :=
  object.parent_instance.data.devices

/-- The code outside `storagedlinuxdriveobject.c` that the drive object calls. -/
structure DriveEnv (ε : Type) where
  STORAGED_TYPE_LINUX_DRIVE : GType
  STORAGED_TYPE_LINUX_DRIVE_ATA : GType
  storaged_linux_drive_update : DriveData ε → GDBusInterface → Bool × ε
  storaged_linux_drive_ata_update : DriveData ε → GDBusInterface → Bool × ε
  storaged_module_manager_get_modules_available : Bool
  storaged_module_manager_get_drive_object_iface_infos : List (StoragedModuleInterfaceInfo ε)
  storaged_drive_dup_configuration : ε → Option (List (String × String))
  storaged_linux_drive_ata_apply_configuration :
    ε → StoragedLinuxDevice → List (String × String) → ε

/-- A callback that writes only the skeleton state, as a callback on the object data. -/
def lift_connect {ε : Type} (f : DriveData ε → ε) : StoragedObjectConnectInterfaceFunc (DriveData ε) :=
  fun d => { d with ext := f d }

/-- A refresh callback that writes only the skeleton state, as a callback on the object data. -/
def lift_update {ε : Type} (f : DriveData ε → Option String → GDBusInterface → Bool × ε) :
    StoragedObjectUpdateInterfaceFunc (DriveData ε) :=
  fun d a i => ((f d a i).1, { d with ext := (f d a i).2 })

/-- The function `drive_check`. -/
def drive_check {ε : Type} : StoragedObjectHasInterfaceFunc (DriveData ε) :=
  fun _ => true

/-- The function `drive_connect` (empty body). -/
def drive_connect {ε : Type} : StoragedObjectConnectInterfaceFunc (DriveData ε) :=
  fun d => d

/-- The function `drive_update`. -/
def drive_update {ε : Type} (env : DriveEnv ε) : StoragedObjectUpdateInterfaceFunc (DriveData ε) :=
  lift_update (fun d _ i => env.storaged_linux_drive_update d i)

/-- The function `drive_ata_check`. -/
def drive_ata_check {ε : Type} : StoragedObjectHasInterfaceFunc (DriveData ε) :=
  fun d =>
    match d.devices with
    | [] => false
    | device :: _ =>
      device.ata_identify_device_data.isSome || device.ata_identify_packet_device_data.isSome

/-- The function `drive_ata_connect` (empty body). -/
def drive_ata_connect {ε : Type} : StoragedObjectConnectInterfaceFunc (DriveData ε) :=
  fun d => d

/-- The function `drive_ata_update`. -/
def drive_ata_update {ε : Type} (env : DriveEnv ε) :
    StoragedObjectUpdateInterfaceFunc (DriveData ε) :=
  lift_update (fun d _ i => env.storaged_linux_drive_ata_update d i)

/-- The function `find_link_for_sysfs_path`: the position of the first member
with that sysfs path. -/
def find_link_for_sysfs_path (devices : List StoragedLinuxDevice) (sysfs_path : String) :
    Option Nat :=
  match devices with
  | [] => none
  | device :: rest =>
    if device.udev_device.sysfs_path = sysfs_path then some 0
    else (find_link_for_sysfs_path rest sysfs_path).map (fun n => n + 1)

/-- GLib `g_hash_table_replace` on a table kept as an association list. -/
def g_hash_table_replace {α : Type} (table : List (GType × α)) (key : GType) (value : α) :
    List (GType × α) :=
  if table.any (fun e => e.1 == key) then
    table.map (fun e => if e.1 == key then (key, value) else e)
  else table ++ [(key, value)]

/-- The function `ensure_module_ifaces`. -/
def ensure_module_ifaces {ε : Type} (env : DriveEnv ε) (object : StoragedLinuxDriveObject ε) :
    StoragedLinuxDriveObject ε :=
  match object.module_ifaces with
  | some _ => object
  | none =>
    { object with
      module_ifaces := some
        (env.storaged_module_manager_get_drive_object_iface_infos.foldl
          (fun table ii =>
            g_hash_table_replace table ii.skeleton_type
              ⟨none, ii.has_func, ii.connect_func, ii.update_func⟩)
          []) }

/-- The function `storaged_linux_drive_object_get_device`. -/
def storaged_linux_drive_object_get_device {ε : Type} (object : StoragedLinuxDriveObject ε)
    (_get_hw : Bool) : Option StoragedLinuxDevice :=
  object.devices.head?

/-- The function `apply_configuration`. -/
def apply_configuration {ε : Type} (env : DriveEnv ε) (object : StoragedLinuxDriveObject ε) :
    StoragedLinuxDriveObject ε × List IfaceEvent :=
  match object.iface_drive with
  | none => (object, [.apply_configuration])
  | some _ =>
    match env.storaged_drive_dup_configuration object.parent_instance.data.ext with
    | none => (object, [.apply_configuration])
    | some configuration =>
      match storaged_linux_drive_object_get_device object true with
      | none => (object, [.apply_configuration])
      | some device =>
        match object.iface_drive_ata with
        | none => (object, [.apply_configuration])
        | some _ =>
          ({ object with
              parent_instance := { object.parent_instance with
                data := { object.parent_instance.data with
                  ext := env.storaged_linux_drive_ata_apply_configuration
                    object.parent_instance.data.ext device configuration } } },
            [.apply_configuration, .drive_ata_apply_configuration])

/-- First part of `storaged_linux_drive_object_uevent`: the member list after
the event. `device` is `none` when the caller passes `NULL`. -/
def uevent_update_devices (devices : List StoragedLinuxDevice) (action : Option String)
    (device : Option StoragedLinuxDevice) : List StoragedLinuxDevice :=
  let link : Option Nat :=
    match device with
    | some d => find_link_for_sysfs_path devices d.udev_device.sysfs_path
    | none => none
  if g_strcmp0_eq action (some "remove") then
    match link with
    | some n => devices.eraseIdx n
    | none => devices
  else
    match link, device with
    | some n, some d => devices.set n d
    | some _, none => devices
    | none, some d => devices ++ [d]
    | none, none => devices

/-- The result of reconciling the module entries: `conf_changed`, the object,
the table and the effects. -/
structure ModuleLoopResult (ε : Type) where
  conf_changed : Bool
  parent_instance : StoragedObject (DriveData ε)
  table : List (GType × ModuleInterfaceEntry ε)
  events : List IfaceEvent

/-- The `while (g_hash_table_iter_next ...)` loop of
`storaged_linux_drive_object_uevent` over the entries still to visit. -/
def uevent_module_loop {ε : Type} (action : Option String)
    (parent_instance : StoragedObject (DriveData ε)) (conf_changed : Bool) :
    List (GType × ModuleInterfaceEntry ε) → ModuleLoopResult ε
  | [] => ⟨conf_changed, parent_instance, [], []⟩
  | (key, entry) :: rest =>
    let r := update_iface parent_instance action entry.has_func
      (entry.connect_func.map lift_connect) (entry.update_func.map lift_update)
      key entry.interface
    let tail := uevent_module_loop action r.object (conf_changed || r.ret) rest
    ⟨tail.conf_changed, tail.parent_instance,
      (key, { entry with interface := r.interface_pointer }) :: tail.table,
      r.events ++ tail.events⟩

/-- The locals of `storaged_linux_drive_object_uevent` after some of its
`update_iface` calls: `conf_changed`, the object, the effects so far. -/
structure UeventReconciled (ε : Type) where
  conf_changed : Bool
  object : StoragedLinuxDriveObject ε
  events : List IfaceEvent

/-- The two `update_iface` calls of `storaged_linux_drive_object_uevent` for the
built-in Drive and DriveAta interfaces. -/
def uevent_reconcile_builtin {ε : Type} (env : DriveEnv ε)
    (object : StoragedLinuxDriveObject ε) (action : Option String) : UeventReconciled ε :=
  let r1 := update_iface object.parent_instance action (some drive_check) (some drive_connect)
    (some (drive_update env)) env.STORAGED_TYPE_LINUX_DRIVE object.iface_drive
  let r2 := update_iface r1.object action (some drive_ata_check) (some drive_ata_connect)
    (some (drive_ata_update env)) env.STORAGED_TYPE_LINUX_DRIVE_ATA object.iface_drive_ata
  ⟨(false || r1.ret) || r2.ret,
    { object with
      parent_instance := r2.object
      iface_drive := r1.interface_pointer
      iface_drive_ata := r2.interface_pointer },
    r1.events ++ r2.events⟩

/-- The part "Attach interfaces from modules" of `storaged_linux_drive_object_uevent`. -/
def uevent_reconcile_modules {ε : Type} (env : DriveEnv ε) (s : UeventReconciled ε)
    (action : Option String) : UeventReconciled ε :=
  if env.storaged_module_manager_get_modules_available then
    let object3 := ensure_module_ifaces env s.object
    let l := uevent_module_loop action object3.parent_instance s.conf_changed
      (object3.module_ifaces.getD [])
    ⟨l.conf_changed,
      { object3 with parent_instance := l.parent_instance, module_ifaces := some l.table },
      s.events ++ l.events⟩
  else s

/-- The function `storaged_linux_drive_object_uevent`: the object afterwards
and the effects performed. -/
def storaged_linux_drive_object_uevent {ε : Type} (env : DriveEnv ε)
    (object : StoragedLinuxDriveObject ε) (action : Option String)
    (device : Option StoragedLinuxDevice) : StoragedLinuxDriveObject ε × List IfaceEvent :=
  let object1 : StoragedLinuxDriveObject ε :=
    { object with
      parent_instance := { object.parent_instance with
        data := { object.parent_instance.data with
          devices := uevent_update_devices object.devices action device } } }
  let s := uevent_reconcile_modules env (uevent_reconcile_builtin env object1 action) action
  if s.conf_changed then
    let a := apply_configuration env s.object
    (a.1, s.events ++ a.2)
  else (s.object, s.events)

/-- The results of the `update_iface` calls recorded in a list of effects. -/
def update_iface_returns : List IfaceEvent → List (GType × Bool)
  | [] => []
  | .update_iface_return t ret :: rest => (t, ret) :: update_iface_returns rest
  | _ :: rest => update_iface_returns rest

/-! ### Drive identity (`storaged_linux_drive_object_should_include_device`) -/

/-- GLib `g_ascii_tolower`. -/
def g_ascii_tolower (c : Char) : Char :=
  if 65 ≤ c.toNat ∧ c.toNat ≤ 90 then Char.ofNat (c.toNat + 32) else c

/-- GLib `g_ascii_strcasecmp (a, b) == 0`. -/
def g_ascii_strcasecmp_eq (a b : String) : Bool :=
  a.data.map g_ascii_tolower == b.data.map g_ascii_tolower

/-- The C test `s != NULL && strlen (s) > 0`. -/
def str_nonempty (s : Option String) : Bool :=
  match s with
  | some v => v.data.length > 0
  | none => false

/-- The function `is_wwn_black_listed`. -/
def is_wwn_black_listed (wwn : String) : Bool :=
  let wwn1 :=
    if g_str_starts_with wwn "0x" || g_str_starts_with wwn "0X" then str_offset wwn 2 else wwn
  if g_ascii_strcasecmp_eq wwn1 "50f0000000000000" then true else false

/-- The function `check_for_vpd`. -/
def check_for_vpd (device : GUdevDevice) : Option String :=
  let serial := g_udev_device_get_property device "ID_SERIAL"
  let wwn := g_udev_device_get_property device "ID_WWN_WITH_EXTENSION"
  let path := g_udev_device_get_property device "ID_PATH"
  if str_nonempty wwn && !(is_wwn_black_listed (wwn.getD "")) then
    if str_nonempty serial then some ((wwn.getD "") ++ "_" ++ (serial.getD ""))
    else wwn
  else if str_nonempty serial then serial
  else if str_nonempty path then path
  else none

/-- The `for` loop over the slaves of a multipath device in
`storaged_linux_drive_object_should_include_device`: the identity of the first
slave that udev knows and that has one. -/
def should_include_device_slaves (client : GUdevClient) : List String → Option String
  | [] => none
  | slave_path :: rest =>
    match g_udev_client_query_by_sysfs_path client slave_path with
    | some slave =>
      match check_for_vpd slave with
      | some vpd => some vpd
      | none => should_include_device_slaves client rest
    | none => should_include_device_slaves client rest

/-- The function `storaged_linux_drive_object_should_include_device`: the
return value and what is stored in `*out_vpd` (`none` when nothing is stored).
`resolve_links` is `storaged_daemon_util_resolve_links`; `want_out_vpd` says
whether `out_vpd` is not `NULL`. -/
def storaged_linux_drive_object_should_include_device
    (resolve_links : String → String → List String) (client : GUdevClient)
    (device : StoragedLinuxDevice) (want_out_vpd : Bool) : Bool × Option String :=
  if !(g_strcmp0_eq device.udev_device.devtype (some "disk")) then (false, none)
  else
    let vpd : Option String :=
      match check_for_vpd device.udev_device with
      | some v => some v
      | none =>
        let name := device.udev_device.name
        if g_str_starts_with name "fd" then some ("pcfloppy_" ++ name)
        else if g_str_starts_with name "vd" then some name
        else
          let vendor := g_udev_device_get_property device.udev_device "ID_VENDOR"
          let model := g_udev_device_get_property device.udev_device "ID_MODEL"
          if g_str_starts_with name "sd" && vendor.isSome && g_strcmp0_eq vendor (some "VMware")
              && model.isSome && g_str_starts_with (model.getD "") "Virtual" then some name
          else if device.udev_device.parent_subsystems.contains "firewire" then some name
          else
            let dm_name := g_udev_device_get_sysfs_attr device.udev_device "dm/name"
            if dm_name.isSome && g_str_starts_with (dm_name.getD "") "mpath" then
              should_include_device_slaves client
                (resolve_links device.udev_device.sysfs_path "slaves")
            else none
    match vpd with
    | some v => (true, if want_out_vpd then some v else none)
    | none => (false, none)

/-- The floppy fallback in the words of the claim: a device named fd... is
identified as pcfloppy_ followed by its name. -/
def floppy_identity (device : GUdevDevice) : Option String :=
  if g_str_starts_with device.name "fd" then some ("pcfloppy_" ++ device.name) else none

/-- The virtio fallback in the words of the claim: a device named vd... is
identified by its name. -/
def virtio_identity (device : GUdevDevice) : Option String :=
  if g_str_starts_with device.name "vd" then some device.name else none

/-- The VMware fallback in the words of the claim: an sd... device of vendor
VMware whose model begins with Virtual is identified by its name. -/
def vmware_identity (device : GUdevDevice) : Option String :=
  if g_str_starts_with device.name "sd"
      ∧ g_udev_device_get_property device "ID_VENDOR" = some "VMware"
      ∧ (∃ model, g_udev_device_get_property device "ID_MODEL" = some model
          ∧ g_str_starts_with model "Virtual" = true) then some device.name
  else none

/-- The firewire fallback in the words of the claim: a device below a firewire
parent is identified by its name. -/
def firewire_identity (device : GUdevDevice) : Option String :=
  if "firewire" ∈ device.parent_subsystems then some device.name else none

/-- The multipath fallback in the words of the claim: a device-mapper device
named mpath... is identified by the first of its slaves that udev knows and
that check_for_vpd identifies. -/
def multipath_identity (resolve_links : String → String → List String) (client : GUdevClient)
    (device : GUdevDevice) : Option String :=
  if (∃ dm_name, g_udev_device_get_sysfs_attr device "dm/name" = some dm_name
        ∧ g_str_starts_with dm_name "mpath" = true) then
    ((resolve_links device.sysfs_path "slaves").filterMap
      (fun slave_path => g_udev_client_query_by_sysfs_path client slave_path)).findSome?
        check_for_vpd
  else none

/-- The identity of a disk in the words of the claim: what the first of
check_for_vpd and the floppy, virtio, VMware, firewire and multipath
fallbacks derives. -/
def derivable_identity (resolve_links : String → String → List String) (client : GUdevClient)
    (device : GUdevDevice) : Option String :=
  [check_for_vpd, floppy_identity, virtio_identity, vmware_identity, firewire_identity,
    multipath_identity resolve_links client].findSome? (fun rule => rule device)

/-! ### Block objects: configuration lookup (`find_fstab_entries_for_device`) -/

/-- A `StoragedFstabEntry`: one record of the mount table. -/
structure StoragedFstabEntry where
  fsname : String
  dir : String
  fstype : String
  opts : String
  freq : Int
  passno : Int
deriving DecidableEq, Repr

/-- The properties of the `StoragedBlock` interface that the code reads; a
getter that returns `NULL` is `none`. `configuration` is the list of
`(type, details)` items of the Configuration property. -/
structure StoragedBlock where
  device : Option String := none
  symlinks : Option (List String) := none
  id_label : Option String := none
  id_uuid : Option String := none
  crypto_backing_device : Option String := none
  configuration : List (String × List (String × String)) := []
  hint_system : Bool := false
  drive : Option String := none
  preferred_device : Option String := none
  id_type : Option String := none
deriving DecidableEq, Repr

/-- The local pointers `device`, `label`, `uuid`, `partuuid`, `partlabel` of the
loop body of `find_fstab_entries_for_device`. -/
structure FsnameKeys where
  device : Option String := none
  label : Option String := none
  uuid : Option String := none
  partuuid : Option String := none
  partlabel : Option String := none
deriving DecidableEq, Repr

/-- The `if`/`else if` chain on the beginning of `fsname` in
`find_fstab_entries_for_device`; `none` is "ignore non-device entries". -/
def fsname_keys (fsname : String) : Option FsnameKeys :=
  if g_str_starts_with fsname "UUID=" then some { uuid := some (str_offset fsname 5) }
  else if g_str_starts_with fsname "LABEL=" then some { label := some (str_offset fsname 6) }
  else if g_str_starts_with fsname "PARTUUID=" then
    some { partuuid := some (str_offset fsname 9) }
  else if g_str_starts_with fsname "PARTLABEL=" then
    some { partlabel := some (str_offset fsname 10) }
  else if g_str_starts_with fsname "/dev" then some { device := some fsname }
  else none

/-- One iteration of the loop of `find_fstab_entries_for_device` on the list
`ret` built so far. `object_u_dev` is the udev device of the object that
`storaged_daemon_util_dup_object (block)` returns: `none` when there is no
object, `some none` when the object has no udev device. -/
def find_fstab_entries_step (block : StoragedBlock) (object_u_dev : Option (Option GUdevDevice))
    (ret : List StoragedFstabEntry) (entry : StoragedFstabEntry) : List StoragedFstabEntry :=
  match fsname_keys entry.fsname with
  | none => ret
  | some keys =>
    match keys.device with
    | some device =>
      if g_strcmp0_eq (some device) block.device then entry :: ret
      else
        match block.symlinks with
        | some symlinks =>
          symlinks.foldl
            (fun r symlink => if g_strcmp0_eq (some device) (some symlink) then entry :: r else r)
            ret
        | none => ret
    | none =>
      if keys.label.isSome && g_strcmp0_eq keys.label block.id_label then entry :: ret
      else if keys.uuid.isSome && g_strcmp0_eq keys.uuid block.id_uuid then entry :: ret
      else if keys.partlabel.isSome || keys.partuuid.isSome then
        match object_u_dev with
        | none => ret
        | some none => ret
        | some (some u_dev) =>
          if (keys.partuuid.isSome
                && g_strcmp0_eq keys.partuuid (g_udev_device_get_property u_dev "ID_PART_ENTRY_UUID"))
              || (keys.partlabel.isSome
                && g_strcmp0_eq keys.partlabel
                    (g_udev_device_get_property u_dev "ID_PART_ENTRY_NAME")) then
            entry :: ret
          else ret
      else ret

/-- The function `find_fstab_entries_for_device`; `entries` is what
`storaged_fstab_monitor_get_entries` returns. -/
def find_fstab_entries_for_device (block : StoragedBlock)
    (object_u_dev : Option (Option GUdevDevice)) (entries : List StoragedFstabEntry) :
    List StoragedFstabEntry :=
  entries.foldl (find_fstab_entries_step block object_u_dev) []

/-! ### Erasing a device (`erase_device`) -/

/-- The error codes of the `STORAGED_ERROR` domain that this code raises or
passes on; `OTHER` stands for every other code or domain. -/
inductive StoragedError where
  | FAILED
  | CANCELLED
  | NOT_SUPPORTED
  | DEVICE_BUSY
  | TIMED_OUT
  | NOT_AUTHORIZED
  | OTHER (code : Nat)
deriving DecidableEq, Repr

/-- A `GError`: code and message. -/
structure GError where
  code : StoragedError
  message : String
deriving DecidableEq, Repr

/-- The macro `ERASE_SIZE`. -/
def ERASE_SIZE : Nat := 1 * 1024 * 1024

/-- What one `write (fd, buf, to_write)` call gives: its return value and
whether `errno == EINTR` holds when the code tests it. -/
structure WriteOutcome where
  num_written : Int
  errno_is_EINTR : Bool
deriving DecidableEq, Repr

/-- The system and daemon calls of `erase_device`. `write calls to_write` is
the outcome of the write call number `calls` (from 0) asking for `to_write`
bytes; `is_cancelled checks` is what `g_cancellable_is_cancelled` returns the
time number `checks` (from 0) it is asked. -/
structure EraseEnv where
  erase_ata_device : Bool → Except GError Unit
  open_succeeds : Bool
  blkgetsize64 : Option Nat
  write : Nat → Nat → WriteOutcome
  is_cancelled : Nat → Bool

/-- The effects of `erase_device`, in program order. The progress signal, which
depends on the monotonic clock only, is left out. -/
inductive EraseEvent where
  /-- Call of `erase_ata_device` with the flag `enhanced`. -/
  | erase_ata (enhanced : Bool)
  /-- Call of `open (device_file, O_WRONLY | O_SYNC | O_EXCL)`. -/
  | open_device
  /-- Call of `storaged_daemon_launch_simple_job`. -/
  | launch_job
  /-- Call of `ioctl (fd, BLKGETSIZE64, &size)`. -/
  | ioctl_size
  /-- Call of `write (fd, buf, to_write)`. -/
  | write (to_write : Nat)
  /-- Call of `g_cancellable_is_cancelled`, with its result. -/
  | is_cancelled (result : Bool)
  /-- Call of `storaged_simple_job_complete` with the success flag. -/
  | job_complete (success : Bool)
  /-- Call of `close (fd)`. -/
  | close_device
deriving DecidableEq, Repr

/-- Where the `while (pos < size)` loop of `erase_device` ends: `local_error`,
the final `pos`, and the effects. -/
structure EraseLoopResult where
  local_error : Option GError
  pos : Nat
  events : List EraseEvent
deriving DecidableEq, Repr

/-- The `while (pos < size)` loop of `erase_device`, from the loop head with
the given `pos`, after `calls` write calls and `checks` cancellation checks.
Every write call uses one unit of `fuel`; `none` means the fuel ran out. -/
def erase_loop (env : EraseEnv) (size : Nat) :
    Nat → Nat → Nat → Nat → Option EraseLoopResult
  | fuel, pos, calls, checks =>
    if pos < size then
      match fuel with
      | 0 => none
      | fuel + 1 =>
        let to_write := min (size - pos) ERASE_SIZE
        let w := env.write calls to_write
        if w.num_written == -1 || w.num_written == 0 then
          if w.errno_is_EINTR then
            -- goto again: pos and to_write are unchanged
            (erase_loop env size fuel pos (calls + 1) checks).map
              (fun r => { r with events := .write to_write :: r.events })
          else
            some ⟨some ⟨.FAILED, "Error writing bytes to device"⟩, pos, [.write to_write]⟩
        else
          let pos1 := (pos + w.num_written.toNat) % 2 ^ 64
          if env.is_cancelled checks then
            some ⟨some ⟨.CANCELLED, "Job was canceled"⟩, pos1,
              [.write to_write, .is_cancelled true]⟩
          else
            (erase_loop env size fuel pos1 (calls + 1) (checks + 1)).map
              (fun r => { r with events := .write to_write :: .is_cancelled false :: r.events })
    else some ⟨none, pos, []⟩

/-- What `erase_device` leaves behind: the return value, `*error`, the number
of bytes written (the final `pos`), and the effects. -/
structure EraseResult where
  ret : Bool
  error : Option GError
  pos : Nat
  events : List EraseEvent
deriving DecidableEq, Repr

/-- The function `erase_device`; `none` means the write loop ran out of fuel. -/
def erase_device (env : EraseEnv) (erase_type : Option String) (fuel : Nat) :
    Option EraseResult :=
  if g_strcmp0_eq erase_type (some "ata-secure-erase") then
    match env.erase_ata_device false with
    | .ok _ => some ⟨true, none, 0, [.erase_ata false]⟩
    | .error e => some ⟨false, some e, 0, [.erase_ata false]⟩
  else if g_strcmp0_eq erase_type (some "ata-secure-erase-enhanced") then
    match env.erase_ata_device true with
    | .ok _ => some ⟨true, none, 0, [.erase_ata true]⟩
    | .error e => some ⟨false, some e, 0, [.erase_ata true]⟩
  else if !(g_strcmp0_eq erase_type (some "zero")) then
    some ⟨false, some ⟨.FAILED, "Unknown or unsupported erase type"⟩, 0, []⟩
  else if !env.open_succeeds then
    some ⟨false, some ⟨.FAILED, "Error opening device"⟩, 0, [.open_device]⟩
  else
    match env.blkgetsize64 with
    | none =>
      some ⟨false, some ⟨.FAILED, "Error doing BLKGETSIZE64 iotctl"⟩, 0,
        [.open_device, .launch_job, .ioctl_size, .job_complete false, .close_device]⟩
    | some size =>
      match erase_loop env size fuel 0 0 0 with
      | none => none
      | some l =>
        match l.local_error with
        | some e =>
          some ⟨false, some e, l.pos,
            [.open_device, .launch_job, .ioctl_size] ++ l.events
              ++ [.job_complete false, .close_device]⟩
        | none =>
          some ⟨true, none, l.pos,
            [.open_device, .launch_job, .ioctl_size] ++ l.events
              ++ [.job_complete true, .close_device]⟩

/-- The sizes asked of the write calls recorded in a list of effects, in order. -/
def erase_writes : List EraseEvent → List Nat
  | [] => []
  | .write n :: rest => n :: erase_writes rest
  | _ :: rest => erase_writes rest

/-- An environment for examples: a device of `size` bytes on which every write
call writes at most `short` bytes and the job is never cancelled. -/
def short_write_env (size short : Nat) : EraseEnv :=
  { erase_ata_device := fun _ => .ok ()
    open_succeeds := true
    blkgetsize64 := some size
    write := fun _ n => ⟨(min n short : Nat), false⟩
    is_cancelled := fun _ => false }

/-- An environment for examples: a device of `size` bytes on which every write
call is complete and the job reads as cancelled from check number `k` on. -/
def cancel_env (size k : Nat) : EraseEnv :=
  { erase_ata_device := fun _ => .ok ()
    open_succeeds := true
    blkgetsize64 := some size
    write := fun _ n => ⟨(n : Nat), false⟩
    is_cancelled := fun c => decide (k ≤ c) }

/-! ### Block objects: teardown (`walk_block`, `storaged_linux_block_teardown`) -/

/-- One item of a configuration: its type ("fstab", "crypttab") and details. -/
abbrev ConfigurationItem := String × List (String × String)

/-- The `StoragedPartition` interface: what the code reads of it. -/
structure StoragedPartition where
  table : String
  is_container : Bool := false
  is_contained : Bool := false
  offset : Nat := 1
  type_ : String := ""
deriving DecidableEq, Repr

/-- The `StoragedPartitionTable` interface. -/
structure StoragedPartitionTable where
  type_ : String
deriving DecidableEq, Repr

/-- The `StoragedEncrypted` interface. -/
structure StoragedEncrypted where
  child_configuration : List ConfigurationItem := []
deriving DecidableEq, Repr

/-- The `StoragedFilesystem` interface. -/
structure StoragedFilesystem where
  mount_points : List String := []
deriving DecidableEq, Repr

/-- An object exported by the daemon with the interfaces that it carries. An
interface pointer in the C code is the object that owns the interface.
`is_linux_block_object` is the type test `STORAGED_IS_LINUX_BLOCK_OBJECT`. -/
structure DaemonObject where
  object_path : String
  block : Option StoragedBlock := none
  partition : Option StoragedPartition := none
  partition_table : Option StoragedPartitionTable := none
  encrypted : Option StoragedEncrypted := none
  filesystem : Option StoragedFilesystem := none
  is_linux_block_object : Bool := true
deriving DecidableEq, Repr

/-- The objects of the daemon, as `storaged_daemon_get_objects` lists them. -/
structure StoragedDaemon where
  objects : List DaemonObject

/-- Daemon `storaged_daemon_find_object`. -/
def storaged_daemon_find_object (daemon : StoragedDaemon) (object_path : String) :
    Option DaemonObject :=
  daemon.objects.find? (fun o => o.object_path == object_path)

/-- The function `peek_partition_table`: the object that carries the table of
the partition, when it has the table interface. -/
def peek_partition_table (daemon : StoragedDaemon) (partition : StoragedPartition) :
    Option DaemonObject :=
  match storaged_daemon_find_object daemon partition.table with
  | some object => if object.partition_table.isSome then some object else none
  | none => none

/-- The function `get_partitions`: the objects, in daemon order, whose
partition names the object of the table as its table. -/
def get_partitions (daemon : StoragedDaemon) (table_object : DaemonObject) : List DaemonObject :=
  daemon.objects.filter (fun object =>
    match object.partition with
    | some partition => partition.table == table_object.object_path
    | none => false)

/-- The function `get_cleartext_block`: the first object whose block names the
object of `block` as its crypto backing device. -/
def get_cleartext_block (daemon : StoragedDaemon) (object : Option DaemonObject) :
    Option DaemonObject :=
  match object with
  | none => none
  | some o =>
    daemon.objects.find? (fun iter_object =>
      match iter_object.block with
      | some iter_block => g_strcmp0_eq iter_block.crypto_backing_device (some o.object_path)
      | none => false)

/-- What a walk or a walker leaves behind: `none` in `error` is the return
value `TRUE`; the state of the system; the effects. -/
structure WalkResult (ω ε : Type) where
  error : Option GError
  state : ω
  events : List ε

/-- The type `BlockWalker`: called with the object of the block (`none` when
the block is on no object) and `is_leaf`. -/
abbrev BlockWalker (ω ε : Type) :=
  StoragedDaemon → Option DaemonObject → Bool → ω → WalkResult ω ε

/-- The partitions that `walk_block` recurses into: those of the table of the
object (of the table that holds it, for an extended partition) that have a
block and are logical exactly when the object is an extended partition. -/
def walk_block_partitions (daemon : StoragedDaemon) (object : Option DaemonObject) :
    List DaemonObject :=
  match object with
  | none => []
  | some o =>
    let container : Bool :=
      match o.partition with
      | some partition => partition.is_container
      | none => false
    let table : Option DaemonObject :=
      if container then
        match o.partition with
        | some partition => peek_partition_table daemon partition
        | none => none
      else if o.partition_table.isSome then some o else none
    match table with
    | none => []
    | some table_object =>
      (get_partitions daemon table_object).filter (fun p =>
        p.block.isSome &&
          (match p.partition with
           | some partition => (!container) == (!partition.is_contained)
           | none => false))

/-- The `for` loop of `walk_block` over the partitions to recurse into, with
`recurse` standing for the recursive call; `none` means the fuel ran out. -/
def walk_block_children {ω ε : Type}
    (recurse : Option DaemonObject → ω → Option (WalkResult ω ε)) :
    List DaemonObject → ω → Option (WalkResult ω ε)
  | [], st => some ⟨none, st, []⟩
  | b :: rest, st =>
    match recurse (some b) st with
    | none => none
    | some r =>
      match r.error with
      | some e => some ⟨some e, r.state, r.events⟩
      | none =>
        (walk_block_children recurse rest r.state).map
          (fun t => { t with events := r.events ++ t.events })

/-- The function `walk_block` on the block of `object`. Every level of the
recursion uses one unit of `fuel`; `none` means the fuel ran out. -/
def walk_block {ω ε : Type} (daemon : StoragedDaemon) (walker : BlockWalker ω ε) :
    Nat → Option DaemonObject → ω → Option (WalkResult ω ε)
  | 0, _, _ => none
  | fuel + 1, object, st =>
    let partitions := walk_block_partitions daemon object
    match walk_block_children (fun o s => walk_block daemon walker fuel o s) partitions st with
    | none => none
    | some r1 =>
      match r1.error with
      | some e => some ⟨some e, r1.state, r1.events⟩
      | none =>
        let cleartext := get_cleartext_block daemon object
        let r2 : Option (WalkResult ω ε) :=
          match cleartext with
          | some c => walk_block daemon walker fuel (some c) r1.state
          | none => some ⟨none, r1.state, []⟩
        match r2 with
        | none => none
        | some r2 =>
          match r2.error with
          | some e => some ⟨some e, r2.state, r1.events ++ r2.events⟩
          | none =>
            let is_leaf := partitions.isEmpty && cleartext.isNone
            let w := walker daemon object is_leaf r2.state
            some ⟨w.error, w.state, r1.events ++ r2.events ++ w.events⟩

/-- The effects of a teardown, in program order. -/
inductive TeardownEvent where
  /-- Entry of `teardown_block_walker` for the object at the path. -/
  | walker (object_path : Option String) (is_leaf : Bool)
  /-- Call of `storaged_linux_encrypted_lock` on the object at the path. -/
  | encrypted_lock (object_path : String)
  /-- Call of `add_remove_fstab_entry (NULL, details, NULL, error)`. -/
  | remove_fstab_entry (details : List (String × String))
  /-- Call of `add_remove_crypttab_entry (NULL, details, NULL, error)`. -/
  | remove_crypttab_entry (details : List (String × String))
deriving DecidableEq, Repr

/-- The functions that a teardown calls and that change the system state `ω`:
locking an encrypted device and removing one fstab or crypttab record. -/
structure TeardownEnv (ω : Type) where
  storaged_linux_encrypted_lock : DaemonObject → ω → Except GError ω
  remove_fstab_entry : List (String × String) → ω → Except GError ω
  remove_crypttab_entry : List (String × String) → ω → Except GError ω

/-- The function `storaged_linux_remove_configuration`. -/
def storaged_linux_remove_configuration {ω : Type} (env : TeardownEnv ω) :
    List ConfigurationItem → ω → WalkResult ω TeardownEvent
  | [], st => ⟨none, st, []⟩
  | (item_type, details) :: rest, st =>
    if item_type = "fstab" then
      match env.remove_fstab_entry details st with
      | .error e => ⟨some e, st, [.remove_fstab_entry details]⟩
      | .ok st1 =>
        let r := storaged_linux_remove_configuration env rest st1
        { r with events := .remove_fstab_entry details :: r.events }
    else if item_type = "crypttab" then
      match env.remove_crypttab_entry details st with
      | .error e => ⟨some e, st, [.remove_crypttab_entry details]⟩
      | .ok st1 =>
        let r := storaged_linux_remove_configuration env rest st1
        { r with events := .remove_crypttab_entry details :: r.events }
    else storaged_linux_remove_configuration env rest st

/-- The function `teardown_block_walker`. -/
def teardown_block_walker {ω : Type} (env : TeardownEnv ω) : BlockWalker ω TeardownEvent :=
  fun daemon object is_leaf st =>
    let enter : TeardownEvent := .walker (object.map (fun o => o.object_path)) is_leaf
    let block_configuration : List ConfigurationItem :=
      match object with
      | some o =>
        match o.block with
        | some b => b.configuration
        | none => []
      | none => []
    let last (st1 : ω) (events : List TeardownEvent) : WalkResult ω TeardownEvent :=
      let r := storaged_linux_remove_configuration env block_configuration st1
      { r with events := events ++ r.events }
    match object with
    | none => last st [enter]
    | some o =>
      match o.encrypted with
      | none => last st [enter]
      | some enc =>
        match get_cleartext_block daemon object with
        | some _ =>
          match env.storaged_linux_encrypted_lock o st with
          | .error e => ⟨some e, st, [enter, .encrypted_lock o.object_path]⟩
          | .ok st1 => last st1 [enter, .encrypted_lock o.object_path]
        | none =>
          let r := storaged_linux_remove_configuration env enc.child_configuration st
          match r.error with
          | some e => ⟨some e, r.state, enter :: r.events⟩
          | none => last r.state (enter :: r.events)

/-- The function `storaged_linux_block_teardown` on the block of `object`. -/
def storaged_linux_block_teardown {ω : Type} (env : TeardownEnv ω) (daemon : StoragedDaemon)
    (object : DaemonObject) (st : ω) (fuel : Nat) : Option (WalkResult ω TeardownEvent) :=
  walk_block daemon (teardown_block_walker env) fuel (some object) st

/-- An environment for examples in which every lock and removal succeeds. -/
def teardown_env_ok : TeardownEnv Unit :=
  { storaged_linux_encrypted_lock := fun _ _ => .ok ()
    remove_fstab_entry := fun _ _ => .ok ()
    remove_crypttab_entry := fun _ _ => .ok () }

/-- A disk /dev/sda with a partition table. -/
def sda_object (disk_conf : List ConfigurationItem) : DaemonObject :=
  { object_path := "/block_devices/sda"
    block := some { device := some "/dev/sda", configuration := disk_conf }
    partition_table := some ⟨"gpt"⟩ }

/-- A partition /dev/sda1 with a filesystem mounted at the given mount points. -/
def sda1_object (mount_points : List String) (fs_conf : List ConfigurationItem) : DaemonObject :=
  { object_path := "/block_devices/sda1"
    block := some { device := some "/dev/sda1", configuration := fs_conf }
    partition := some { table := "/block_devices/sda" }
    filesystem := some ⟨mount_points⟩ }

/-- A partition /dev/sda2 that is encrypted. -/
def sda2_object (enc_conf child_conf : List ConfigurationItem) : DaemonObject :=
  { object_path := "/block_devices/sda2"
    block := some { device := some "/dev/sda2", configuration := enc_conf }
    partition := some { table := "/block_devices/sda" }
    encrypted := some ⟨child_conf⟩ }

/-- The disk /dev/sda with its two partitions: one with a mounted filesystem,
one encrypted and locked (no cleartext device names it as its backing device). -/
def mounted_and_locked_daemon (mount_points : List String)
    (disk_conf fs_conf enc_conf child_conf : List ConfigurationItem) : StoragedDaemon :=
  ⟨[sda_object disk_conf, sda1_object mount_points fs_conf, sda2_object enc_conf child_conf]⟩

/-- The removal calls that `storaged_linux_remove_configuration` makes for a
configuration when none of them fails. -/
def removal_events : List ConfigurationItem → List TeardownEvent
  | [] => []
  | (item_type, details) :: rest =>
    if item_type = "fstab" then .remove_fstab_entry details :: removal_events rest
    else if item_type = "crypttab" then .remove_crypttab_entry details :: removal_events rest
    else removal_events rest

/-! ### Block objects: the Format method (`storaged_linux_block_handle_format`) -/

/-- The table `partition_types_by_id`. -/
def partition_types_by_id : List (String × String × String) :=
  [("dos", "vfat", "0x0c"), ("dos", "ntfs", "0x07"), ("dos", "exfat", "0x0c"),
   ("dos", "swap", "0x82"), ("dos", "ext2", "0x83"), ("dos", "ext3", "0x83"),
   ("dos", "ext4", "0x83"), ("dos", "xfs", "0x83"), ("dos", "btrfs", "0x83"),
   ("dos", "crypto_LUKS", "0x83"),
   ("gpt", "vfat", "ebd0a0a2-b9e5-4433-87c0-68b6b72699c7"),
   ("gpt", "ntfs", "ebd0a0a2-b9e5-4433-87c0-68b6b72699c7"),
   ("gpt", "exfat", "ebd0a0a2-b9e5-4433-87c0-68b6b72699c7"),
   ("gpt", "swap", "0657fd6d-a4ab-43c4-84e5-0933c84b4f4f"),
   ("gpt", "ext2", "0fc63daf-8483-4772-8e79-3d69d8477de4"),
   ("gpt", "ext3", "0fc63daf-8483-4772-8e79-3d69d8477de4"),
   ("gpt", "ext4", "0fc63daf-8483-4772-8e79-3d69d8477de4"),
   ("gpt", "xfs", "0fc63daf-8483-4772-8e79-3d69d8477de4"),
   ("gpt", "btrfs", "0fc63daf-8483-4772-8e79-3d69d8477de4"),
   ("gpt", "crypto_LUKS", "0fc63daf-8483-4772-8e79-3d69d8477de4")]

/-- The function `determine_partition_type_for_id`. -/
def determine_partition_type_for_id (table_type id_type : String) : Option String :=
  (partition_types_by_id.find? (fun e => e.1 == table_type && e.2.1 == id_type)).map
    (fun e => e.2.2)

/-- The function `subst_str`: every occurrence of `src` in `str` replaced by `dst`. -/
def subst_str (str src dst : String) : String :=
  str.replace src dst

/-- The function `make_block_luksname`. -/
def make_block_luksname (id_uuid : Option String) : Option String :=
  match id_uuid with
  | some uuid => if uuid.data.length > 0 then some ("luks-" ++ uuid) else none
  | none => none

/-- An `FSInfo` record as `get_fs_info` returns it. -/
structure FSInfo where
  fstype : String
  command_create_fs : Option String
  supports_owners : Bool
deriving DecidableEq, Repr

/-- The options of Format after the `g_variant_lookup` calls: a boolean that is
not given stays `FALSE`, a string or list that is not given stays `NULL`. -/
structure FormatOptions where
  take_ownership : Bool := false
  encrypt_passphrase : Option String := none
  erase : Option String := none
  no_block : Bool := false
  update_partition_type : Bool := false
  config_items : Option (List ConfigurationItem) := none
  tear_down : Bool := false
  label : Option String := none
deriving DecidableEq, Repr

/-- The object a step of Format works on: the object of the block that Format
was called on, or the cleartext object of the encrypted mapping. -/
inductive FormatTarget where
  | original
  | cleartext
deriving DecidableEq, Repr

/-- The predicates that Format waits for. -/
inductive FormatWait where
  | filesystem (type : String)
  | luks_uuid
  | luks_cleartext
deriving DecidableEq, Repr

/-- The effects of Format, in program order. A `return_error` carries whether
the invocation was still present (`invocation != NULL`) when it was used. -/
inductive FormatEvent where
  | check_authorization (action_id : String)
  | inhibit_system
  | uninhibit_system
  | teardown
  | spawned_job (target : FormatTarget) (operation command_line : String)
      (input_string : Option String)
  | trigger_uevent (target : FormatTarget)
  | reread_partition_table
  | wait_for_object (target : FormatTarget) (what : FormatWait) (timeout_seconds : Nat)
  | erase_device (target : FormatTarget) (erase_type : String)
  | add_unlocked_luks
  | part_create_table (target : FormatTarget) (type : String)
  | mkdtemp
  | mount (target : FormatTarget)
  | chown
  | chmod
  | umount
  | rmdir
  | set_partition_type (partition_type : String)
  | add_fstab_entry (target : FormatTarget) (details : List (String × String))
  | add_crypttab_entry (target : FormatTarget) (details : List (String × String))
  | complete
  | return_error (code : StoragedError) (message : String) (invocation_present : Bool)
  | assertion_failed
deriving DecidableEq, Repr

/-- The cleartext object that the wait for the encrypted mapping returns: its
block interface, when it has one. -/
structure CleartextObject where
  block : Option StoragedBlock
deriving DecidableEq, Repr

/-- What Format reads and calls outside `storaged_linux_block_handle_format`;
an `Option GError` or `Option String` result is the error of a failed call. -/
structure FormatEnv where
  HAVE_LIBBLOCKDEV_PART : Bool
  block : StoragedBlock
  dup_object : Option GError
  partition : Option StoragedPartition
  find_partition_table_object : Option (Option StoragedPartitionTable)
  get_caller_uid : Except GError (Nat × Nat)
  setup_by_user : Bool
  on_user_seat : Bool
  get_fs_info : String → Option FSInfo
  check_authorization : String → Bool
  escape_and_quote : String → String
  was_partitioned : Bool
  block_teardown : Option GError
  launch_spawned_job : String → Option String → Option String
  wait_for_filesystem : FormatTarget → String → Option GError
  wait_for_luks_uuid : Option GError
  luks_id_uuid : Option String
  wait_for_luks_cleartext : Except GError CleartextObject
  erase_device : FormatTarget → String → Option GError
  bd_part_create_table : String → Option GError
  mkdtemp : Bool
  mount : Bool
  chown : Bool
  chmod : Bool
  umount : Bool
  rmdir : Bool
  partition_set_type : String → Option GError
  add_fstab_entry : List (String × String) → Option GError
  add_crypttab_entry : List (String × String) → Option GError

/-- The mutable locals of Format that matter: whether `invocation` is still
set, and the effects so far. -/
structure FormatState where
  invocation : Bool
  events : List FormatEvent
deriving DecidableEq, Repr

/-- Where a piece of Format ends: it goes on with a value, it jumps to the
label `out`, or an assertion fails. -/
inductive FormatStep (α : Type) where
  | next (a : α) (st : FormatState)
  | out (st : FormatState)
  | abort (st : FormatState)

/-- A piece of the body of Format. -/
def FormatM (α : Type) : Type := FormatState → FormatStep α

/-- Sequencing of two pieces. -/
def FormatM.bind {α β : Type} (x : FormatM α) (f : α → FormatM β) : FormatM β :=
  fun st =>
    match x st with
    | .next a st1 => f a st1
    | .out st1 => .out st1
    | .abort st1 => .abort st1

instance : Monad FormatM where
  pure a := fun st => .next a st
  bind := FormatM.bind

/-- One effect is performed. -/
def emit (e : FormatEvent) : FormatM Unit :=
  fun st => .next () { st with events := st.events ++ [e] }

/-- The statement `goto out`. -/
def goto_out {α : Type} : FormatM α :=
  fun st => .out st

/-- A failed `g_assert`. -/
def assert_fail {α : Type} : FormatM α :=
  fun st => .abort { st with events := st.events ++ [.assertion_failed] }

/-- An error reply sent through `invocation` whatever its value. -/
def return_error (code : StoragedError) (message : String) : FormatM Unit :=
  fun st => .next () { st with events := st.events ++ [.return_error code message st.invocation] }

/-- An error reply under `if (invocation != NULL)`. -/
def return_error_if_invocation (code : StoragedError) (message : String) : FormatM Unit :=
  fun st =>
    if st.invocation then
      .next () { st with events := st.events ++ [.return_error code message true] }
    else .next () st

/-- The statements `complete (complete_user_data); invocation = NULL;`. -/
def complete_early : FormatM Unit :=
  fun st => .next () { invocation := false, events := st.events ++ [.complete] }

/-- The statement `if (invocation != NULL) complete (complete_user_data);`. -/
def complete_if_invocation : FormatM Unit :=
  fun st =>
    if st.invocation then .next () { st with events := st.events ++ [.complete] }
    else .next () st

/-- What the first part of Format establishes for the later parts. -/
structure FormatContext where
  partition : Option StoragedPartition
  partition_type : Option String
  fs_info : FSInfo
  command_create_fs : String
deriving DecidableEq, Repr

/-- The choice of `action_id` in Format. -/
def format_action_id (env : FormatEnv) (options : FormatOptions) : String :=
  if g_strcmp0_eq options.erase (some "ata-secure-erase")
      || g_strcmp0_eq options.erase (some "ata-secure-erase-enhanced") then
    "org.storaged.Storaged.ata-secure-erase"
  else if !env.setup_by_user then
    if env.block.hint_system then "org.storaged.Storaged.modify-device-system"
    else if !env.on_user_seat then "org.storaged.Storaged.modify-device-other-seat"
    else "org.storaged.Storaged.modify-device"
  else "org.storaged.Storaged.modify-device"

/-- One authorization check; a denied check has sent its error reply itself. -/
def check_authorization_sync (env : FormatEnv) (action_id : String) : FormatM Unit := do
  emit (.check_authorization action_id)
  if env.check_authorization action_id then pure ()
  else do
    return_error .NOT_AUTHORIZED "Not authorized to perform operation"
    goto_out

/-- Format up to and including the authorization checks. -/
def format_authorize (env : FormatEnv) (type : String) (options : FormatOptions) :
    FormatM FormatContext := do
  match env.dup_object with
  | some e => do
    return_error e.code e.message
    goto_out
  | none => pure ()
  match env.partition with
  | some p =>
    if p.offset = 0 then do
      return_error .NOT_SUPPORTED
        "This partition cannot be modified because it contains a partition table; please reinitialize layout of the whole device."
      goto_out
    else pure ()
  | none => pure ()
  let partition : Option StoragedPartition :=
    match env.partition, env.find_partition_table_object with
    | some p, some _ => some p
    | _, _ => none
  let partition_table : Option StoragedPartitionTable :=
    match env.partition, env.find_partition_table_object with
    | some _, some t => t
    | _, _ => none
  let partition_type : Option String :=
    match partition, partition_table with
    | some _, some t =>
      if options.update_partition_type then
        determine_partition_type_for_id t.type_
          (if options.encrypt_passphrase.isSome then "crypto_LUKS" else type)
      else none
    | _, _ => none
  match env.get_caller_uid with
  | .error e => do
    return_error e.code e.message
    goto_out
  | .ok _ => pure ()
  let action_id := format_action_id env options
  match env.get_fs_info type with
  | none => do
    return_error .NOT_SUPPORTED ("Creation of file system type " ++ type ++ " is not supported")
    goto_out
  | some fs_info =>
    match fs_info.command_create_fs with
    | none => do
      return_error .NOT_SUPPORTED
        ("Creation of file system type " ++ type ++ " is not supported")
      goto_out
    | some command_create_fs => do
      check_authorization_sync env action_id
      if options.config_items.isSome || options.tear_down then
        check_authorization_sync env "org.storaged.Storaged.modify-system-configuration"
      else pure ()
      pure ⟨partition, partition_type, fs_info, command_create_fs⟩

/-- Format from the inhibit to the early completion: teardown, wipe, wait for
the device to read as empty. -/
def format_wipe (env : FormatEnv) (options : FormatOptions) : FormatM Unit := do
  emit .inhibit_system
  let escaped_device := env.escape_and_quote (env.block.device.getD "")
  if options.tear_down then do
    emit .teardown
    match env.block_teardown with
    | some e => do
      return_error e.code e.message
      goto_out
    | none => pure ()
  else pure ()
  emit (.spawned_job .original "format-erase" ("wipefs -a " ++ escaped_device) none)
  match env.launch_spawned_job ("wipefs -a " ++ escaped_device) none with
  | some error_message => do
    return_error_if_invocation .FAILED ("Error wiping device: " ++ error_message)
    goto_out
  | none => pure ()
  emit (.trigger_uevent .original)
  if env.was_partitioned then emit .reread_partition_table else pure ()
  emit (.wait_for_object .original (.filesystem "empty") 15)
  match env.wait_for_filesystem .original "empty" with
  | some e => do
    return_error_if_invocation e.code ("Error synchronizing after initial wipe: " ++ e.message)
    goto_out
  | none => pure ()
  if options.no_block then complete_early else pure ()

/-- One call of `erase_device` from Format with its error handling. -/
def format_erase (env : FormatEnv) (target : FormatTarget) (erase_type message : String) :
    FormatM Unit := do
  emit (.erase_device target erase_type)
  match env.erase_device target erase_type with
  | some e => do
    return_error_if_invocation e.code (message ++ e.message)
    goto_out
  | none => pure ()

/-- The branch `if (encrypt_passphrase != NULL)` of Format: format and open the
encrypted mapping; the result is the device of the cleartext block. -/
def format_encrypt (env : FormatEnv) (passphrase : String) : FormatM StoragedBlock := do
  let escaped_device := env.escape_and_quote (env.block.device.getD "")
  let format_command := "cryptsetup luksFormat \"" ++ escaped_device ++ "\""
  emit (.spawned_job .original "format-mkfs" format_command (some passphrase))
  match env.launch_spawned_job format_command (some passphrase) with
  | some error_message => do
    return_error_if_invocation .FAILED ("Error creating LUKS device: " ++ error_message)
    goto_out
  | none => pure ()
  emit (.wait_for_object .original .luks_uuid 30)
  match env.wait_for_luks_uuid with
  | some e => do
    return_error_if_invocation e.code ("Error waiting for LUKS UUID: " ++ e.message)
    goto_out
  | none => pure ()
  match make_block_luksname env.luks_id_uuid with
  | none => assert_fail
  | some mapped_name => do
    let open_command := "cryptsetup luksOpen \"" ++ escaped_device ++ "\" " ++ mapped_name
    emit (.spawned_job .original "format-mkfs" open_command (some passphrase))
    match env.launch_spawned_job open_command (some passphrase) with
    | some error_message => do
      return_error_if_invocation .FAILED ("Error opening LUKS device: " ++ error_message)
      goto_out
    | none => pure ()
    emit (.wait_for_object .original .luks_cleartext 30)
    match env.wait_for_luks_cleartext with
    | .error e => do
      return_error_if_invocation e.code
        ("Error waiting for LUKS cleartext device: " ++ e.message)
      goto_out
    | .ok cleartext_object =>
      match cleartext_object.block with
      | none => do
        return_error_if_invocation .FAILED "LUKS cleartext device does not have block interface"
        goto_out
      | some cleartext_block => do
        emit .add_unlocked_luks
        pure cleartext_block

/-- Format from the label check to the wait for the created type:
`block_to_mkfs` and `target` are the block and object chosen before. -/
def format_create (env : FormatEnv) (type : String) (options : FormatOptions)
    (ctx : FormatContext) (target : FormatTarget) (block_to_mkfs : StoragedBlock) :
    FormatM Unit := do
  match options.label with
  | some _ =>
    if (ctx.command_create_fs.splitOn "$LABEL").length ≤ 1 then do
      return_error_if_invocation .NOT_SUPPORTED
        ("File system type " ++ type ++ " does not support labels")
      goto_out
    else pure ()
  | none => pure ()
  if env.HAVE_LIBBLOCKDEV_PART && (type = "dos" || type = "gpt") then do
    emit (.part_create_table .original type)
    match env.bd_part_create_table type with
    | some e => do
      return_error e.code e.message
      goto_out
    | none => pure ()
  else do
    let tmp := subst_str ctx.command_create_fs "$DEVICE"
      (env.escape_and_quote (block_to_mkfs.device.getD ""))
    let command := subst_str tmp "$LABEL" (env.escape_and_quote (options.label.getD ""))
    emit (.spawned_job target "format-mkfs" command none)
    match env.launch_spawned_job command none with
    | some error_message => do
      return_error_if_invocation .FAILED ("Error creating file system: " ++ error_message)
      goto_out
    | none => pure ()
  emit (.trigger_uevent target)
  emit (.wait_for_object target (.filesystem type) 30)
  match env.wait_for_filesystem target type with
  | some e => do
    return_error_if_invocation e.code
      ("Error synchronizing after formatting with type " ++ type ++ ": " ++ e.message)
    goto_out
  | none => pure ()

/-- The branch "Change overship, if requested and supported" of Format. -/
def format_take_ownership (env : FormatEnv) (target : FormatTarget) : FormatM Unit := do
  emit .mkdtemp
  if !env.mkdtemp then do
    return_error_if_invocation .FAILED "Cannot create directory"
    goto_out
  else pure ()
  emit (.mount target)
  if !env.mount then do
    return_error_if_invocation .FAILED "Cannot mount"
    emit .rmdir
    goto_out
  else pure ()
  emit .chown
  if !env.chown then do
    return_error_if_invocation .FAILED "Cannot chown"
    emit .umount
    if !env.umount then goto_out else pure ()
    emit .rmdir
    goto_out
  else pure ()
  emit .chmod
  if !env.chmod then do
    return_error_if_invocation .FAILED "Cannot chmod"
    emit .umount
    if !env.umount then goto_out else pure ()
    emit .rmdir
    goto_out
  else pure ()
  emit .umount
  if !env.umount then do
    return_error_if_invocation .FAILED "Cannot unmount"
    emit .rmdir
    goto_out
  else pure ()
  emit .rmdir
  if !env.rmdir then do
    return_error_if_invocation .FAILED "Cannot remove directory"
    goto_out
  else pure ()

/-- The part "Set the partition type, if requested" of Format. -/
def format_set_partition_type (env : FormatEnv) (ctx : FormatContext) : FormatM Unit := do
  match ctx.partition_type, ctx.partition with
  | some partition_type, some partition =>
    if partition.type_ ≠ partition_type then do
      emit (.set_partition_type partition_type)
      match env.partition_set_type partition_type with
      | some e => do
        return_error e.code ("Error setting partition type after formatting: " ++ e.message)
        goto_out
      | none => pure ()
    else pure ()
  | _, _ => pure ()

/-- The loop "Add configuration items" of Format. -/
def format_add_config_items (env : FormatEnv) (target : FormatTarget) :
    List ConfigurationItem → FormatM Unit
  | [] => pure ()
  | (item_type, details) :: rest => do
    if item_type = "fstab" then do
      emit (.add_fstab_entry target details)
      match env.add_fstab_entry details with
      | some e => do
        return_error e.code e.message
        goto_out
      | none => pure ()
    else if item_type = "crypttab" then do
      emit (.add_crypttab_entry .original details)
      match env.add_crypttab_entry details with
      | some e => do
        return_error e.code e.message
        goto_out
      | none => pure ()
    else pure ()
    format_add_config_items env target rest

/-- The body of `storaged_linux_block_handle_format` down to the label `out`. -/
def format_body (env : FormatEnv) (type : String) (options : FormatOptions) : FormatM Unit := do
  let ctx ← format_authorize env type options
  format_wipe env options
  match options.erase, options.encrypt_passphrase with
  | some erase_type, none => format_erase env .original erase_type "Error erasing device: "
  | _, _ => pure ()
  let to_mkfs : FormatTarget × StoragedBlock ←
    match options.encrypt_passphrase with
    | some passphrase => do
      let cleartext_block ← format_encrypt env passphrase
      pure (FormatTarget.cleartext, cleartext_block)
    | none => pure (FormatTarget.original, env.block)
  match options.erase, options.encrypt_passphrase with
  | some erase_type, some _ =>
    format_erase env to_mkfs.1 erase_type "Error erasing cleartext device: "
  | _, _ => pure ()
  format_create env type options ctx to_mkfs.1 to_mkfs.2
  if options.take_ownership && ctx.fs_info.supports_owners then
    format_take_ownership env to_mkfs.1
  else pure ()
  format_set_partition_type env ctx
  match options.config_items with
  | some items => format_add_config_items env to_mkfs.1 items
  | none => pure ()
  complete_if_invocation

/-- The function `storaged_linux_block_handle_format`: the effects of one call,
in program order. At the label `out` the inhibit cookie is released. -/
def storaged_linux_block_handle_format (env : FormatEnv) (type : String)
    (options : FormatOptions) : List FormatEvent :=
  match format_body env type options ⟨true, []⟩ with
  | .next _ st => st.events ++ [.uninhibit_system]
  | .out st => st.events ++ [.uninhibit_system]
  | .abort st => st.events

/-- The calls that keep the system and udev in step with the workflow but are
no step of it: inhibit and its release, uevent triggers, partition table reread. -/
def FormatEvent.isHousekeeping : FormatEvent → Bool
  | .inhibit_system => true
  | .uninhibit_system => true
  | .trigger_uevent _ => true
  | .reread_partition_table => true
  | _ => false

/-- The steps of the workflow that are optional: teardown, erase, encryption,
ownership, partition type, configuration records. -/
def FormatEvent.isOptionalStep : FormatEvent → Bool
  | .teardown => true
  | .erase_device _ _ => true
  | .wait_for_object _ .luks_uuid _ => true
  | .wait_for_object _ .luks_cleartext _ => true
  | .add_unlocked_luks => true
  | .mkdtemp => true
  | .mount _ => true
  | .chown => true
  | .chmod => true
  | .umount => true
  | .rmdir => true
  | .set_partition_type _ => true
  | .add_fstab_entry _ _ => true
  | .add_crypttab_entry _ _ => true
  | .spawned_job _ _ _ (some _) => true
  | _ => false

/-- An environment for examples: an empty unpartitioned disk /dev/sdb on which
every step succeeds, with mkfs.ext4 as the creation command of ext4. -/
def format_env_ok : FormatEnv :=
  { HAVE_LIBBLOCKDEV_PART := true
    block := { device := some "/dev/sdb" }
    dup_object := none
    partition := none
    find_partition_table_object := none
    get_caller_uid := .ok (1000, 1000)
    setup_by_user := false
    on_user_seat := true
    get_fs_info := fun t =>
      if t = "ext4" then some ⟨"ext4", some "mkfs.ext4 -F -L $LABEL $DEVICE", true⟩
      else if t = "gpt" then some ⟨"gpt", some "parted --script $DEVICE mktable gpt", false⟩
      else none
    check_authorization := fun _ => true
    escape_and_quote := fun x => "\"" ++ x ++ "\""
    was_partitioned := false
    block_teardown := none
    launch_spawned_job := fun _ _ => none
    wait_for_filesystem := fun _ _ => none
    wait_for_luks_uuid := none
    luks_id_uuid := some "1234"
    wait_for_luks_cleartext := .ok ⟨some { device := some "/dev/dm-0" }⟩
    erase_device := fun _ _ => none
    bd_part_create_table := fun _ => none
    mkdtemp := true
    mount := true
    chown := true
    chmod := true
    umount := true
    rmdir := true
    partition_set_type := fun _ => none
    add_fstab_entry := fun _ => none
    add_crypttab_entry := fun _ => none }

/-- The state in which a piece of Format ends, however it ends. -/
def FormatStep.state {α : Type} : FormatStep α → FormatState
  | .next _ st => st
  | .out st => st
  | .abort st => st

/-- Every effect that the piece `m` performs satisfies `P`, from every state:
the effects so far are kept and only effects with `P` are appended. -/
def Only {α : Type} (P : FormatEvent → Prop) (m : FormatM α) : Prop :=
  ∀ st, ∃ l, (m st).state.events = st.events ++ l ∧ ∀ e ∈ l, P e

/-- The statement "Erase the device, if requested (but not if using encryption)"
of Format. -/
def format_erase_original (env : FormatEnv) (options : FormatOptions) : FormatM Unit :=
  match options.erase, options.encrypt_passphrase with
  | some erase_type, none => format_erase env .original erase_type "Error erasing device: "
  | _, _ => pure ()

/-- The choice of `object_to_mkfs` and `block_to_mkfs` in Format, after the
encrypted mapping has been set up when a passphrase was given. -/
def format_choose_to_mkfs (env : FormatEnv) (options : FormatOptions) :
    FormatM (FormatTarget × StoragedBlock) :=
  match options.encrypt_passphrase with
  | some passphrase => do
    let cleartext_block ← format_encrypt env passphrase
    pure (FormatTarget.cleartext, cleartext_block)
  | none => pure (FormatTarget.original, env.block)

/-- The statement "If using encryption, now erase the cleartext device (if
requested)" of Format. -/
def format_erase_cleartext (env : FormatEnv) (options : FormatOptions)
    (target : FormatTarget) : FormatM Unit :=
  match options.erase, options.encrypt_passphrase with
  | some erase_type, some _ =>
    format_erase env target erase_type "Error erasing cleartext device: "
  | _, _ => pure ()

/-- The statement "Change overship, if requested and supported" of Format. -/
def format_take_ownership_if_requested (env : FormatEnv) (options : FormatOptions)
    (ctx : FormatContext) (target : FormatTarget) : FormatM Unit :=
  if options.take_ownership && ctx.fs_info.supports_owners then
    format_take_ownership env target
  else pure ()

/-- The statement "Add configuration items" of Format. -/
def format_add_config_items_if_given (env : FormatEnv) (options : FormatOptions)
    (target : FormatTarget) : FormatM Unit :=
  match options.config_items with
  | some items => format_add_config_items env target items
  | none => pure ()

/-- The body of Format from the creation to the final completion, for the chosen
`object_to_mkfs` and `block_to_mkfs`. -/
def format_after_erase (env : FormatEnv) (type : String) (options : FormatOptions)
    (ctx : FormatContext) (to_mkfs : FormatTarget × StoragedBlock) : FormatM Unit := do
  format_create env type options ctx to_mkfs.1 to_mkfs.2
  format_take_ownership_if_requested env options ctx to_mkfs.1
  format_set_partition_type env ctx
  format_add_config_items_if_given env options to_mkfs.1
  complete_if_invocation

/-- The body of Format from the second erase to the final completion, for the
chosen `object_to_mkfs` and `block_to_mkfs`. -/
def format_finish (env : FormatEnv) (type : String) (options : FormatOptions)
    (ctx : FormatContext) (to_mkfs : FormatTarget × StoragedBlock) : FormatM Unit := do
  format_erase_cleartext env options to_mkfs.1
  format_after_erase env type options ctx to_mkfs

/-- The body of Format after the wipe. -/
def format_after_wipe (env : FormatEnv) (type : String) (options : FormatOptions)
    (ctx : FormatContext) : FormatM Unit := do
  format_erase_original env options
  let to_mkfs ← format_choose_to_mkfs env options
  format_finish env type options ctx to_mkfs

/-- The object that the steps after the encryption work on: the cleartext
object when a passphrase was given, the original object otherwise. -/
def format_target (options : FormatOptions) : FormatTarget :=
  if options.encrypt_passphrase.isSome then .cleartext else .original

/-- The command line of the job that formats the encrypted container. -/
def luks_format_command (env : FormatEnv) : String :=
  "cryptsetup luksFormat \"" ++ env.escape_and_quote (env.block.device.getD "") ++ "\""

/-- The command line of the job that opens the encrypted container. -/
def luks_open_command (env : FormatEnv) (mapped_name : String) : String :=
  "cryptsetup luksOpen \"" ++ env.escape_and_quote (env.block.device.getD "") ++ "\" "
    ++ mapped_name

/-- The effects of the authorization part of Format: checks of the chosen
action id and of the system configuration action, and error replies. -/
def in_authorize (env : FormatEnv) (options : FormatOptions) : FormatEvent → Bool
  | .check_authorization a =>
    a == format_action_id env options
      || a == "org.storaged.Storaged.modify-system-configuration"
  | .return_error _ _ _ => true
  | _ => false

/-- The effects of the wipe part of Format. -/
def in_wipe (env : FormatEnv) : FormatEvent → Bool
  | .inhibit_system => true
  | .teardown => true
  | .spawned_job t op c i =>
    t == .original && op == "format-erase"
      && c == "wipefs -a " ++ env.escape_and_quote (env.block.device.getD "") && i == none
  | .trigger_uevent t => t == .original
  | .reread_partition_table => true
  | .wait_for_object t w n => t == .original && w == .filesystem "empty" && n == 15
  | .complete => true
  | .return_error _ _ _ => true
  | _ => false

/-- The effects of one erase with its error handling. -/
def in_erase (target : FormatTarget) (erase_type : String) : FormatEvent → Bool
  | .erase_device t y => t == target && y == erase_type
  | .return_error _ _ _ => true
  | _ => false

/-- The effects of the encryption part of Format: the two jobs get the
passphrase as their input string, and their command lines are built from
the device and the mapped name. -/
def in_encrypt (env : FormatEnv) (passphrase : String) : FormatEvent → Bool
  | .spawned_job t op c i =>
    t == .original && op == "format-mkfs" && i == some passphrase
      && (c == luks_format_command env
        || (match make_block_luksname env.luks_id_uuid with
            | some mapped_name => c == luks_open_command env mapped_name
            | none => false))
  | .wait_for_object t w n =>
    t == .original && (w == .luks_uuid || w == .luks_cleartext) && n == 30
  | .add_unlocked_luks => true
  | .return_error _ _ _ => true
  | .assertion_failed => true
  | _ => false

/-- The effects of the creation part of Format on `target`. -/
def in_create (type : String) (target : FormatTarget) : FormatEvent → Bool
  | .part_create_table t y => t == .original && y == type
  | .spawned_job t op _ i => t == target && op == "format-mkfs" && i == none
  | .trigger_uevent t => t == target
  | .wait_for_object t w n => t == target && w == .filesystem type && n == 30
  | .return_error _ _ _ => true
  | _ => false

/-- The effects of the ownership part of Format on `target`. -/
def in_take_ownership (target : FormatTarget) : FormatEvent → Bool
  | .mkdtemp => true
  | .mount t => t == target
  | .chown => true
  | .chmod => true
  | .umount => true
  | .rmdir => true
  | .return_error _ _ _ => true
  | _ => false

/-- The effects of the partition type part of Format. -/
def in_set_partition_type : FormatEvent → Bool
  | .set_partition_type _ => true
  | .return_error _ _ _ => true
  | _ => false

/-- The effects of the configuration part of Format on `target`. -/
def in_config (target : FormatTarget) : FormatEvent → Bool
  | .add_fstab_entry t _ => t == target
  | .add_crypttab_entry t _ => t == .original
  | .return_error _ _ _ => true
  | _ => false

/-- The effects of Format from the creation on, for `target`. -/
def in_after_erase (type : String) (target : FormatTarget) (e : FormatEvent) : Bool :=
  in_create type target e || in_take_ownership target e || in_set_partition_type e
  || in_config target e || e == .complete

/-- The effects of Format from the second erase on, for `target`. -/
def in_finish (type : String) (options : FormatOptions) (target : FormatTarget)
    (e : FormatEvent) : Bool :=
  (match options.erase, options.encrypt_passphrase with
    | some erase_type, some _ => in_erase target erase_type e
    | _, _ => false)
  || in_after_erase type target e

/-- The effects of Format after the wipe. -/
def in_after_wipe (env : FormatEnv) (type : String) (options : FormatOptions)
    (e : FormatEvent) : Bool :=
  (match options.erase, options.encrypt_passphrase with
    | some erase_type, none => in_erase .original erase_type e
    | _, _ => false)
  || (match options.encrypt_passphrase with
    | some passphrase => in_encrypt env passphrase e
    | none => false)
  || in_finish type options (format_target options) e

/-- The effects of the body of Format. -/
def in_format (env : FormatEnv) (type : String) (options : FormatOptions)
    (e : FormatEvent) : Bool :=
  in_authorize env options e || in_wipe env e || in_after_wipe env type options e

/-- The replies to the method invocation: the success reply and error replies. -/
def FormatEvent.isReply : FormatEvent → Bool
  | .complete => true
  | .return_error _ _ _ => true
  | _ => false

/-- The compensating actions of the ownership step. -/
def FormatEvent.isCleanup : FormatEvent → Bool
  | .umount => true
  | .rmdir => true
  | _ => false

/-- The calls of `erase_device`. -/
def FormatEvent.isEraseDevice : FormatEvent → Bool
  | .erase_device _ _ => true
  | _ => false

/-- The effects of a piece that fails while the invocation is pending: no reply,
then one error reply through the invocation, then compensating actions only. -/
def error_reply_shape : List FormatEvent → Bool
  | [] => false
  | .return_error _ _ true :: post => post.all FormatEvent.isCleanup
  | e :: rest => !e.isReply && error_reply_shape rest

/-- The effects of the wipe part when every step of it succeeds. -/
def format_wipe_steps (env : FormatEnv) (options : FormatOptions) : List FormatEvent :=
  [.inhibit_system] ++ (if options.tear_down then [.teardown] else [])
    ++ [.spawned_job .original "format-erase"
          ("wipefs -a " ++ env.escape_and_quote (env.block.device.getD "")) none,
        .trigger_uevent .original]
    ++ (if env.was_partitioned then [.reread_partition_table] else [])
    ++ [.wait_for_object .original (.filesystem "empty") 15]
    ++ (if options.no_block then [.complete] else [])

/-- The effects of the encryption part when every step of it succeeds. -/
def format_encrypt_steps (env : FormatEnv) (passphrase mapped_name : String) :
    List FormatEvent :=
  [.spawned_job .original "format-mkfs" (luks_format_command env) (some passphrase),
    .wait_for_object .original .luks_uuid 30,
    .spawned_job .original "format-mkfs" (luks_open_command env mapped_name) (some passphrase),
    .wait_for_object .original .luks_cleartext 30,
    .add_unlocked_luks]

/-- The effects of the authorization part when it goes through: the check of the
chosen action id and, when configuration items or a teardown are requested, the
check of the system configuration action. -/
def format_authorize_steps (env : FormatEnv) (options : FormatOptions) : List FormatEvent :=
  [.check_authorization (format_action_id env options)]
    ++ (if options.config_items.isSome || options.tear_down then
        [.check_authorization "org.storaged.Storaged.modify-system-configuration"]
      else [])

/-- The call of `erase_device` on the original device: made when an erase mode is
requested and no passphrase is given. -/
def format_erase_original_steps (options : FormatOptions) : List FormatEvent :=
  match options.erase, options.encrypt_passphrase with
  | some erase_type, none => [.erase_device .original erase_type]
  | _, _ => []

/-- The call of `erase_device` on the object chosen for the creation: made when an
erase mode is requested and a passphrase is given. -/
def format_erase_cleartext_steps (options : FormatOptions) (target : FormatTarget) :
    List FormatEvent :=
  match options.erase, options.encrypt_passphrase with
  | some erase_type, some _ => [.erase_device target erase_type]
  | _, _ => []

/-- The object that an effect of Format is made on, when it is made on one: the
teardown, the reread of the partition table and the change of the partition
type are made on the original object (the partition is taken from it). -/
def FormatEvent.target : FormatEvent → Option FormatTarget
  | .teardown => some .original
  | .spawned_job t _ _ _ => some t
  | .trigger_uevent t => some t
  | .reread_partition_table => some .original
  | .wait_for_object t _ _ => some t
  | .erase_device t _ => some t
  | .part_create_table t _ => some t
  | .mount t => some t
  | .set_partition_type _ => some .original
  | .add_fstab_entry t _ => some t
  | .add_crypttab_entry t _ => some t
  | _ => none

/-- An effect with the input string of a job, when it has one, replaced by `input`. -/
def FormatEvent.with_input (input : String) : FormatEvent → FormatEvent
  | .spawned_job t op c (some _) => .spawned_job t op c (some input)
  | e => e

/-- A state with every effect so far changed by `g`. -/
def FormatState.map_events (g : FormatEvent → FormatEvent) (st : FormatState) : FormatState :=
  ⟨st.invocation, st.events.map g⟩

/-- The end of a piece with every effect changed by `g`. -/
def FormatStep.map_events {α : Type} (g : FormatEvent → FormatEvent) :
    FormatStep α → FormatStep α
  | .next a st => .next a (st.map_events g)
  | .out st => .out (st.map_events g)
  | .abort st => .abort (st.map_events g)

/-- The piece `m2` does what the piece `m1` does, up to the change `g` of the
effects: started in a changed state it ends as `m1` ends, with changed effects. -/
def Follows {α : Type} (g : FormatEvent → FormatEvent) (m1 m2 : FormatM α) : Prop :=
  ∀ st, m2 (st.map_events g) = (m1 st).map_events g

/-- The command line of an effect that spawns a job. -/
def FormatEvent.command_line : FormatEvent → Option String
  | .spawned_job _ _ c _ => some c
  | _ => none

/-! ### Block objects: opening the device (`handle_open_for_backup`,
`handle_open_for_restore`, `handle_open_for_benchmark`) -/

/-- The access mode `O_RDONLY` of open(2), with the value of the Linux headers
(asm-generic/fcntl.h), as the other flags below. -/
def O_RDONLY : Nat := 0o0

/-- The access mode `O_WRONLY`. -/
def O_WRONLY : Nat := 0o1

/-- The access mode `O_RDWR`. -/
def O_RDWR : Nat := 0o2

/-- The mask `O_ACCMODE` of the access mode. -/
def O_ACCMODE : Nat := 0o3

/-- The flag `O_EXCL`. -/
def O_EXCL : Nat := 0o200

/-- The flag `O_DIRECT`. -/
def O_DIRECT : Nat := 0o40000

/-- The flag `O_SYNC`. -/
def O_SYNC : Nat := 0o4010000

/-- The flag `O_CLOEXEC`. -/
def O_CLOEXEC : Nat := 0o2000000

/-- The effects of an open handler, in program order. -/
inductive OpenEvent where
  | check_authorization (action_id : String)
  | open_ (device : Option String) (flags : Nat)
  | return_error (code : StoragedError) (message : String)
  | complete (fd : Nat)
deriving DecidableEq, Repr

/-- What an open handler reads and calls: the object lookup, the block, the
authorization check, and open(2), which gives a file descriptor or fails. -/
structure OpenEnv where
  dup_object : Option GError
  block : StoragedBlock
  check_authorization : String → Bool
  open_ : Option String → Nat → Option Nat

/-- The part that the three open handlers share: object lookup, choice of the
action id, authorization check, open(2) with `open_flags`, reply. -/
def handle_open (env : OpenEnv) (open_flags : Nat) : List OpenEvent :=
  match env.dup_object with
  | some e => [.return_error e.code e.message]
  | none =>
    let action_id :=
      if env.block.hint_system then "org.storaged.Storaged.open-device-system"
      else "org.storaged.Storaged.open-device"
    if !env.check_authorization action_id then
      [.check_authorization action_id,
        .return_error .NOT_AUTHORIZED "Not authorized to perform operation"]
    else
      match env.open_ env.block.device open_flags with
      | none =>
        [.check_authorization action_id, .open_ env.block.device open_flags,
          .return_error .FAILED ("Error opening " ++ env.block.device.getD "(null)")]
      | some fd =>
        [.check_authorization action_id, .open_ env.block.device open_flags, .complete fd]

/-- The function `handle_open_for_backup`. -/
def handle_open_for_backup (env : OpenEnv) : List OpenEvent :=
  handle_open env (O_RDONLY ||| O_CLOEXEC ||| O_EXCL)

/-- The function `handle_open_for_restore`. -/
def handle_open_for_restore (env : OpenEnv) : List OpenEvent :=
  handle_open env (O_WRONLY ||| O_SYNC ||| O_CLOEXEC ||| O_EXCL)

/-- The function `handle_open_for_benchmark`; `writable` is the option of that
name, `none` when the options do not have it. -/
def handle_open_for_benchmark (env : OpenEnv) (writable : Option Bool) : List OpenEvent :=
  let opt_writable := writable.getD false
  let open_flags := if opt_writable then O_RDWR ||| O_EXCL else O_RDONLY
  let open_flags := open_flags ||| (O_DIRECT ||| O_SYNC ||| O_CLOEXEC)
  handle_open env open_flags

/-- An environment for examples: /dev/sdb, authorization granted, open(2) gives
the descriptor 7. -/
def open_env_ok : OpenEnv :=
  { dup_object := none
    block := { device := some "/dev/sdb" }
    check_authorization := fun _ => true
    open_ := fun _ _ => some 7 }

/-! ### Drive objects: the busy check (`storaged_linux_drive_object_is_not_in_use`) -/

/-- The function `is_block_unlocked`: whether some object has a block whose
crypto backing device is `crypto_object_path`. -/
def is_block_unlocked (objects : List DaemonObject) (crypto_object_path : String) : Bool :=
  match objects with
  | [] => false
  | object :: rest =>
    match object.block with
    | some block =>
      if g_strcmp0_eq block.crypto_backing_device (some crypto_object_path) then true
      else is_block_unlocked rest crypto_object_path
    | none => is_block_unlocked rest crypto_object_path

/-- The loop of `storaged_linux_drive_object_is_not_in_use` over the objects still
to visit; `objects` is the whole list. The result is the return value and the
error that is set. A getter called on a block that is `NULL` returns `NULL`. -/
def is_not_in_use_loop (drive_object_path : String) (objects : List DaemonObject) :
    List DaemonObject → Bool × Option GError
  | [] => (true, none)
  | iter_object :: rest =>
    if !iter_object.is_linux_block_object then
      is_not_in_use_loop drive_object_path objects rest
    else if !g_strcmp0_eq (iter_object.block.bind (fun b => b.drive)) (some drive_object_path) then
      is_not_in_use_loop drive_object_path objects rest
    else
      let preferred_device :=
        (iter_object.block.bind (fun b => b.preferred_device)).getD "(null)"
      let mounted :=
        match iter_object.filesystem with
        | some filesystem => decide (filesystem.mount_points.length > 0)
        | none => false
      if mounted then
        (false, some ⟨.DEVICE_BUSY, "Device " ++ preferred_device ++ " is mounted"⟩)
      else if is_block_unlocked objects iter_object.object_path then
        (false,
          some ⟨.DEVICE_BUSY, "Encrypted device " ++ preferred_device ++ " is unlocked"⟩)
      else is_not_in_use_loop drive_object_path objects rest

/-- The function `storaged_linux_drive_object_is_not_in_use` for the drive object
at `drive_object_path` and the objects that the object manager lists: the
return value and the error that is set. -/
def storaged_linux_drive_object_is_not_in_use (drive_object_path : String)
    (objects : List DaemonObject) : Bool × Option GError :=
  is_not_in_use_loop drive_object_path objects objects

/-- The condition of the busy check on one object: a block object of the drive
that is mounted or is the crypto backing device of the block of some object. -/
def is_busy_member (drive_object_path : String) (objects : List DaemonObject)
    (o : DaemonObject) : Prop :=
  o.is_linux_block_object = true
    ∧ (∃ b, o.block = some b ∧ b.drive = some drive_object_path)
    ∧ ((∃ filesystem, o.filesystem = some filesystem ∧ filesystem.mount_points ≠ [])
      ∨ ∃ o2 ∈ objects, ∃ b2, o2.block = some b2
          ∧ b2.crypto_backing_device = some o.object_path)

/-! ### Following a block device that is removed and added again
(`update_to_current_block_object`, `wait_for_filesystem`) -/

/-- A pointer to a `StoragedObject`: the address tells two objects apart, also
when they are exported at the same object path. -/
structure ObjectPtr where
  address : Nat
  object : DaemonObject
deriving DecidableEq, Repr

/-- The record `FormatWaitData`, with the two pointers dereferenced. -/
structure FormatWaitData where
  object_ptr : Option ObjectPtr
  block_ptr : Option StoragedBlock
  type : Option String
deriving DecidableEq, Repr

/-- The loop of `update_to_current_block_object` over the objects of the daemon;
`tracked` is the block `*data->block_ptr`. -/
def update_to_current_block_object_loop (data : FormatWaitData) (tracked : StoragedBlock) :
    List ObjectPtr → FormatWaitData
  | [] => data
  | object :: rest =>
    if some object.address = data.object_ptr.map (fun o => o.address) then
      update_to_current_block_object_loop data tracked rest
    else
      match object.object.block with
      | some block =>
        if g_strcmp0_eq block.device tracked.device then
          { data with object_ptr := some object, block_ptr := some block }
        else update_to_current_block_object_loop data tracked rest
      | none => update_to_current_block_object_loop data tracked rest

/-- The function `update_to_current_block_object`; `objects` is what
`storaged_daemon_get_objects` returns. -/
def update_to_current_block_object (objects : List ObjectPtr) (data : FormatWaitData) :
    FormatWaitData :=
  match data.block_ptr with
  | none => data
  | some tracked => update_to_current_block_object_loop data tracked objects

/-- The predicate `wait_for_filesystem` of the wait. The result is the object that
is returned, with the data as the call leaves it. -/
def wait_for_filesystem (objects : List ObjectPtr) (data : FormatWaitData) :
    Option ObjectPtr × FormatWaitData :=
  let data := update_to_current_block_object objects data
  match data.block_ptr with
  | none => (none, data)
  | some block =>
    let partition_table := data.object_ptr.bind (fun o => o.object.partition_table)
    let id_type := block.id_type
    if g_strcmp0_eq data.type (some "empty")
        && ((id_type = none || g_strcmp0_eq id_type (some "")) && partition_table.isNone) then
      (data.object_ptr, data)
    else if g_strcmp0_eq id_type data.type then (data.object_ptr, data)
    else
      match partition_table with
      | some table =>
        if g_strcmp0_eq (some table.type_) data.type then (data.object_ptr, data)
        else (none, data)
      | none => (none, data)

/-- An object that takes the place of the tracked one: another object, with a
block whose device is the device of the tracked block. -/
def is_readded_object (data : FormatWaitData) (tracked : StoragedBlock) (o : ObjectPtr) :
    Bool :=
  decide (some o.address ≠ data.object_ptr.map (fun p => p.address))
    && match o.object.block with
       | some block => decide (block.device = tracked.device)
       | none => false

/-! ### The life of a drive object: construction and uevents -/

/-- The `PROP_DEVICE` case of `storaged_linux_drive_object_set_property`: the
member list becomes `g_list_prepend (NULL, device)`; `none` when the assertion
`object->devices == NULL` fails. -/
def storaged_linux_drive_object_set_property_device {ε : Type}
    (object : StoragedLinuxDriveObject ε) (value : StoragedLinuxDevice) :
    Option (StoragedLinuxDriveObject ε) :=
  if object.devices.isEmpty then
    some { object with
      parent_instance := { object.parent_instance with
        data := { object.parent_instance.data with devices := [value] } } }
  else none

/-- The initial coldplug of `storaged_linux_drive_object_constructed`: the call
`storaged_linux_drive_object_uevent (object, "add", object->devices->data)`;
`none` when `object->devices` is `NULL`. -/
def storaged_linux_drive_object_constructed_coldplug {ε : Type} (env : DriveEnv ε)
    (object : StoragedLinuxDriveObject ε) :
    Option (StoragedLinuxDriveObject ε × List IfaceEvent) :=
  match object.devices with
  | device :: _ => some (storaged_linux_drive_object_uevent env object (some "add") (some device))
  | [] => none

/-- A sequence of calls of `storaged_linux_drive_object_uevent`, each with its
action and device: the object after the last call. -/
def storaged_linux_drive_object_uevents {ε : Type} (env : DriveEnv ε)
    (object : StoragedLinuxDriveObject ε) :
    List (Option String × Option StoragedLinuxDevice) → StoragedLinuxDriveObject ε
  | [] => object
  | (action, device) :: rest =>
    storaged_linux_drive_object_uevents env
      (storaged_linux_drive_object_uevent env object action device).1 rest

/-- The sysfs paths of the members of a list of devices. -/
def sysfs_paths (devices : List StoragedLinuxDevice) : List String :=
  devices.map (fun d => d.udev_device.sysfs_path)

/-! ### Escaping of fstab fields (`escape_fstab`, `unescape_fstab`)

A C string is kept as the list of its bytes; a byte `0` in the list ends the
string for the code that reads it. -/

/-- The bytes of a text (for examples in ASCII). -/
def bytes (s : String) : List Nat :=
  s.data.map Char.toNat

/-- The C string at a pointer: the bytes before the first `0`. -/
def c_str : List Nat → List Nat
  | [] => []
  | c :: rest => if c = 0 then [] else c :: c_str rest

/-- The output of `printf ("%03o", c)` for `c < 512`. -/
def printf_03o (c : Nat) : List Nat :=
  [48 + c / 64 % 8, 48 + c / 8 % 8, 48 + c % 8]

/-- The function `escape_fstab`. -/
def escape_fstab : List Nat → List Nat
  | [] => []
  | c :: rest =>
    if c = 0 then []
    else if c = 32 ∨ c = 9 ∨ c = 10 ∨ c = 92 then
      92 :: (printf_03o c ++ escape_fstab rest)
    else c :: escape_fstab rest

/-- The test `*p >= '0' && *p <= '7'`. -/
def is_octal_digit (c : Nat) : Bool :=
  decide (48 ≤ c) && decide (c ≤ 55)

/-- The step `*q = (*q * 8) + (*p - '0')` on a `gchar`, kept as a byte. -/
def octal_step (q p : Nat) : Nat :=
  (q * 8 + (p - 48)) % 256

/-- The `while (*p)` loop of `unescape_fstab`: the bytes written to `dest`
before the final `0`. Each turn of the loop reads at least one byte and takes
one unit of `fuel`. -/
def unescape_fstab_loop : Nat → List Nat → List Nat
  | 0, _ => []
  | _ + 1, [] => []
  | fuel + 1, c :: rest =>
    if c = 0 then []
    else if c = 92 then
      match rest with
      | [] => []
      | d1 :: rest1 =>
        if d1 = 0 then []
        else if is_octal_digit d1 then
          match rest1 with
          | [] => [octal_step 0 d1]
          | d2 :: rest2 =>
            if is_octal_digit d2 then
              match rest2 with
              | [] => [octal_step (octal_step 0 d1) d2]
              | d3 :: rest3 =>
                if is_octal_digit d3 then
                  octal_step (octal_step (octal_step 0 d1) d2) d3
                    :: unescape_fstab_loop fuel rest3
                else octal_step (octal_step 0 d1) d2 :: unescape_fstab_loop fuel rest2
            else octal_step 0 d1 :: unescape_fstab_loop fuel rest1
        else d1 :: unescape_fstab_loop fuel rest1
    else c :: unescape_fstab_loop fuel rest

/-- The function `unescape_fstab`: the C string in `dest`. The loop gets one
unit of fuel for each byte of the source. -/
def unescape_fstab (source : List Nat) : List Nat :=
  c_str (unescape_fstab_loop source.length source)

/-! ### The parent tag of a record (`track_parents`) -/

/-- C `strstr (haystack, needle)`: the offset of the first occurrence. -/
def strstr (haystack needle : List Nat) : Option Nat :=
  match haystack with
  | [] => if needle.isEmpty then some 0 else none
  | c :: rest =>
    if needle.isPrefixOf (c :: rest) then some 0
    else (strstr rest needle).map (fun n => n + 1)

/-- C `strchr (s, c)`: the offset of the first occurrence of the byte. -/
def strchr (s : List Nat) (c : Nat) : Option Nat :=
  match s with
  | [] => none
  | d :: rest => if d = c then some 0 else (strchr rest c).map (fun n => n + 1)

/-- The pieces of a string between the occurrences of a delimiter byte. -/
def split_on (sep : Nat) : List Nat → List (List Nat)
  | [] => [[]]
  | c :: rest =>
    if c = sep then [] :: split_on sep rest
    else
      match split_on sep rest with
      | [] => [[c]]
      | piece :: pieces => (c :: piece) :: pieces

/-- The loop "Remove old x-parent entries" of `track_parents`. The buffer is
`before ++ start`, with `start` the text at the pointer `start`. Each turn
takes one unit of fuel; `none` when the fuel runs out. -/
def track_parents_remove_loop : Nat → List Nat → List Nat → Option (List Nat)
  | 0, _, _ => none
  | fuel + 1, before, start =>
    match strstr start (bytes "x-parent=") with
    | none => some (before ++ start)
    | some i =>
      match strchr (start.drop i) 44 with
      | some j =>
        track_parents_remove_loop fuel (before ++ start.take i) ((start.drop i).drop (j + 1))
      | none =>
        track_parents_remove_loop fuel (before ++ start.take i) []

/-- The code outside the file that `track_parents` calls: the object path of the
object of the block and `storaged_daemon_get_parent_for_tracking`, which gives
the path of the parent and its identifier. -/
structure TrackParentsEnv where
  object_path : String
  storaged_daemon_get_parent_for_tracking : String → Option String × Option (List Nat)

/-- The `do ... while (path)` loop of `track_parents`. Each turn takes one unit
of fuel; `none` when the fuel runs out. -/
def track_parents_walk (env : TrackParentsEnv) :
    Nat → String → List Nat → Option (List Nat)
  | 0, _, _ => none
  | fuel + 1, path, new_options =>
    let r := env.storaged_daemon_get_parent_for_tracking path
    let new_options :=
      match r.2 with
      | some uuid =>
        if !(c_str uuid).isEmpty then
          if !new_options.isEmpty then new_options ++ bytes ",x-parent=" ++ c_str uuid
          else bytes "x-parent=" ++ c_str uuid
        else new_options
      | none => new_options
    match r.1 with
    | some parent_path => track_parents_walk env fuel parent_path new_options
    | none => some new_options

/-- The function `track_parents`; `fuel` bounds the turns of each of its loops. -/
def track_parents (env : TrackParentsEnv) (fuel : Nat) (options : List Nat) :
    Option (List Nat) :=
  match track_parents_remove_loop fuel [] (c_str options) with
  | none => none
  | some new_options => track_parents_walk env fuel env.object_path new_options

/-- An environment for examples: the object has a parent with the identifier
"U", which has no parent and no identifier. -/
def track_parents_env_example : TrackParentsEnv :=
  { object_path := "/o"
    storaged_daemon_get_parent_for_tracking := fun path =>
      if path = "/o" then (some "/p", some (bytes "U")) else (none, none) }

/-! ### The mount records file (`add_remove_fstab_entry`)

Strings are lists of bytes, as for `escape_fstab`. -/

/-- The UTF-8 bytes of a text. -/
def utf8 (s : String) : List Nat :=
  s.data.flatMap (fun c => (String.utf8EncodeChar c).map UInt8.toNat)

/-- The text shown for a byte string in a message. -/
def text (b : List Nat) : String :=
  String.mk (b.map Char.ofNat)

/-- C `isspace` in the C locale, and GLib `g_ascii_isspace`: space, and the
bytes from tab to carriage return. -/
def isspace (c : Nat) : Bool :=
  decide (c = 32) || (decide (9 ≤ c) && decide (c ≤ 13))

/-- The test for a decimal digit. -/
def isdigit (c : Nat) : Bool :=
  decide (48 ≤ c) && decide (c ≤ 57)

/-- White space is skipped, as `sscanf` does before `%s` and `%d`. -/
def skip_space : List Nat → List Nat
  | [] => []
  | c :: rest => if isspace c then skip_space rest else c :: rest

/-- The bytes that `%511s` stores, at most `width` of them, and the input left. -/
def scan_word : Nat → List Nat → List Nat × List Nat
  | 0, input => ([], input)
  | _ + 1, [] => ([], [])
  | width + 1, c :: rest =>
    if isspace c then ([], c :: rest)
    else ((c :: (scan_word width rest).1), (scan_word width rest).2)

/-- The directive `%511s` of `sscanf`: `none` when the input ends before a byte
that is not white space. -/
def scan_s (width : Nat) (input : List Nat) : Option (List Nat × List Nat) :=
  match skip_space input with
  | [] => none
  | c :: rest => some (scan_word width (c :: rest))

/-- The value of the decimal digits at the start of the input, and the input left. -/
def scan_digits : Nat → List Nat → Nat × List Nat
  | acc, [] => (acc, [])
  | acc, c :: rest =>
    if isdigit c then scan_digits (acc * 10 + (c - 48)) rest else (acc, c :: rest)

/-- The value that `%d` stores for the number read: the number is read as a
`long` (64 bit, values out of range are clamped) and stored in an `int`. -/
def to_gint (v : Int) : Int :=
  (max (-(2 : Int) ^ 63) (min v ((2 : Int) ^ 63 - 1)) + (2 : Int) ^ 31) % (2 : Int) ^ 32
    - (2 : Int) ^ 31

/-- The directive `%d` of `sscanf`: white space, a sign when there is one, and
at least one digit; `none` when the input does not start so. -/
def scan_d (input : List Nat) : Option (Int × List Nat) :=
  match skip_space input with
  | [] => none
  | c :: rest =>
    let negative := decide (c = 45)
    let body := if c = 45 ∨ c = 43 then rest else c :: rest
    match body with
    | [] => none
    | d :: _ =>
      if isdigit d then
        let r := scan_digits 0 body
        some (to_gint (if negative then -(r.1 : Int) else (r.1 : Int)), r.2)
      else none

/-- The decimal digits of a number below `10 ^ fuel`. -/
def decimal : Nat → Nat → List Nat
  | 0, _ => []
  | fuel + 1, n => if n < 10 then [48 + n] else decimal fuel (n / 10) ++ [48 + n % 10]

/-- The output of `printf ("%d", v)` for an `int`. -/
def printf_d (v : Int) : List Nat :=
  if v < 0 then 45 :: decimal 10 (-v).toNat else decimal 10 v.toNat

/-- A `struct mntent` as the code fills it. -/
structure Mntent where
  mnt_fsname : List Nat
  mnt_dir : List Nat
  mnt_type : List Nat
  mnt_opts : List Nat
  mnt_freq : Int
  mnt_passno : Int
deriving DecidableEq, Repr

/-- The dictionary of a mount record: a key that is not given is `none`. -/
structure FstabDetails where
  fsname : Option (List Nat) := none
  dir : Option (List Nat) := none
  type : Option (List Nat) := none
  opts : Option (List Nat) := none
  freq : Option Int := none
  passno : Option Int := none
  track_parents : Option Bool := none
deriving DecidableEq, Repr

/-- The call `sscanf (line, "%511s %511s %511s %511s %d %d", ...) == 6`: the six
values stored, when all six are. -/
def sscanf_fstab (line : List Nat) : Option Mntent :=
  match scan_s 511 line with
  | none => none
  | some (parsed_fsname, rest1) =>
    match scan_s 511 rest1 with
    | none => none
    | some (parsed_dir, rest2) =>
      match scan_s 511 rest2 with
      | none => none
      | some (parsed_type, rest3) =>
        match scan_s 511 rest3 with
        | none => none
        | some (parsed_opts, rest4) =>
          match scan_d rest4 with
          | none => none
          | some (parsed_freq, rest5) =>
            match scan_d rest5 with
            | none => none
            | some (parsed_passno, _) =>
              some ⟨parsed_fsname, parsed_dir, parsed_type, parsed_opts, parsed_freq,
                parsed_passno⟩

/-- GLib `g_strsplit (contents, "\n", 0)`: the empty string gives no piece. -/
def g_strsplit_lines (contents : List Nat) : List (List Nat) :=
  if (c_str contents).isEmpty then [] else split_on 10 (c_str contents)

/-- Whether a line of the file is the record to remove (`matches`). -/
def fstab_line_matches (mntent_remove : Mntent) (line : List Nat) : Bool :=
  match sscanf_fstab line with
  | some parsed =>
    decide (unescape_fstab parsed.mnt_fsname = mntent_remove.mnt_fsname)
      && decide (unescape_fstab parsed.mnt_dir = mntent_remove.mnt_dir)
      && decide (unescape_fstab parsed.mnt_type = mntent_remove.mnt_type)
      && decide (unescape_fstab parsed.mnt_opts = mntent_remove.mnt_opts)
      && decide (parsed.mnt_freq = mntent_remove.mnt_freq)
      && decide (parsed.mnt_passno = mntent_remove.mnt_passno)
  | none => false

/-- The loop of `add_remove_fstab_entry` over the lines from `lines[n]` on: the
text appended to `str` and the flag `removed` at the end. -/
def add_remove_fstab_loop (mntent_remove : Option Mntent) :
    Bool → List (List Nat) → List Nat × Bool
  | removed, [] => ([], removed)
  | removed, line :: rest =>
    if line.isEmpty && rest.isEmpty then ([], removed)
    else
      match mntent_remove with
      | some r =>
        if !removed && fstab_line_matches r line then add_remove_fstab_loop mntent_remove true rest
        else
          (line ++ 10 :: (add_remove_fstab_loop mntent_remove removed rest).1,
            (add_remove_fstab_loop mntent_remove removed rest).2)
      | none =>
        (line ++ 10 :: (add_remove_fstab_loop mntent_remove removed rest).1,
          (add_remove_fstab_loop mntent_remove removed rest).2)

/-- The function `make_block_fsname`, in bytes. -/
def make_block_fsname_bytes (block : StoragedBlock) : List Nat :=
  match block.id_uuid with
  | some uuid => if uuid ≠ "" then utf8 ("UUID=" ++ uuid) else utf8 (block.device.getD "")
  | none => utf8 (block.device.getD "")

/-- What `add_remove_fstab_entry` reads and calls outside the file: the block,
the ancestry for `track_parents`, the contents of /etc/fstab and the outcome
of writing the file. -/
structure FstabEnv where
  block : StoragedBlock
  parents : TrackParentsEnv
  g_file_get_contents : Except GError (List Nat)
  file_set_contents : List Nat → Option GError

/-- The lookups of the entry to remove in `add_remove_fstab_entry`. -/
def fstab_lookup_remove (remove : FstabDetails) : Option Mntent :=
  match remove.fsname, remove.dir, remove.type, remove.opts, remove.freq, remove.passno with
  | some fsname, some dir, some type, some opts, some freq, some passno =>
    some ⟨c_str fsname, c_str dir, c_str type, c_str opts, freq, passno⟩
  | _, _, _, _, _, _ => none

/-- The lookups of the entry to add in `add_remove_fstab_entry`, before the
test of `opts` and the tracking of parents. -/
def fstab_lookup_add (block : StoragedBlock) (add : FstabDetails) : Option Mntent :=
  let mnt_fsname :=
    match add.fsname with
    | some fsname => c_str fsname
    | none => make_block_fsname_bytes block
  match add.dir, add.type, add.opts, add.freq, add.passno with
  | some dir, some type, some opts, some freq, some passno =>
    some ⟨mnt_fsname, c_str dir, c_str type, c_str opts, freq, passno⟩
  | _, _, _, _, _ => none

/-- The text that `add_remove_fstab_entry` prints for the entry to add, before
the line feed: the output of the format "%s %s %s %s %d %d". -/
def fstab_add_line_text (mntent_add : Mntent) : List Nat :=
  escape_fstab mntent_add.mnt_fsname ++ 32 :: (escape_fstab mntent_add.mnt_dir
    ++ 32 :: (escape_fstab mntent_add.mnt_type ++ 32 :: (escape_fstab mntent_add.mnt_opts
    ++ 32 :: (printf_d mntent_add.mnt_freq ++ 32 :: printf_d mntent_add.mnt_passno))))

/-- The line that `add_remove_fstab_entry` appends for the entry to add, with
its line feed. -/
def fstab_add_line (mntent_add : Mntent) : List Nat :=
  fstab_add_line_text mntent_add ++ [10]

/-- The second half of `add_remove_fstab_entry`, from `g_file_get_contents` on:
the contents written to /etc/fstab, or the error. Here `remove != NULL` holds
exactly when `mntent_remove` is filled, and `add != NULL` exactly when
`mntent_add` is. -/
def add_remove_fstab_rewrite (env : FstabEnv) (mntent_remove mntent_add : Option Mntent) :
    Except GError (List Nat) :=
  match env.g_file_get_contents with
  | .error e => .error e
  | .ok contents =>
    let r := add_remove_fstab_loop mntent_remove false (g_strsplit_lines contents)
    if mntent_remove.isSome && !r.2 then .error ⟨.FAILED, "Didn't find entry to remove"⟩
    else
      let str :=
        match mntent_add with
        | some m => r.1 ++ fstab_add_line m
        | none => r.1
      match env.file_set_contents (c_str str) with
      | some e => .error e
      | none => .ok (c_str str)

/-- The function `add_remove_fstab_entry`: the contents written to /etc/fstab
when it returns TRUE, the error when it returns FALSE; `none` when
`track_parents` does not return within `fuel` turns of its loops. -/
def add_remove_fstab_entry (env : FstabEnv) (fuel : Nat) (remove add : Option FstabDetails) :
    Option (Except GError (List Nat)) :=
  let mntent_remove := remove.bind fstab_lookup_remove
  if remove.isSome && mntent_remove.isNone then
    some (.error ⟨.FAILED,
      "Missing fsname, dir, type, opts, freq or passno parameter in entry to remove"⟩)
  else
    match add with
    | none => some (add_remove_fstab_rewrite env mntent_remove none)
    | some a =>
      match fstab_lookup_add env.block a with
      | none =>
        some (.error ⟨.FAILED,
          "Missing dir, type, opts, freq or passno parameter in entry to add"⟩)
      | some mntent_add =>
        if mntent_add.mnt_opts.isEmpty then some (.error ⟨.FAILED, "opts must not be blank"⟩)
        else if a.track_parents = some true then
          match track_parents env.parents fuel mntent_add.mnt_opts with
          | none => none
          | some auto_opts =>
            some (add_remove_fstab_rewrite env mntent_remove
              (some { mntent_add with mnt_opts := auto_opts }))
        else some (add_remove_fstab_rewrite env mntent_remove (some mntent_add))

/-- The text of a file with the given lines: each line and a line feed. -/
def join_lines : List (List Nat) → List Nat
  | [] => []
  | line :: rest => line ++ 10 :: join_lines rest

/-- The lines that the loop of `add_remove_fstab_entry` visits: the pieces of the
split, without an empty last piece. -/
def visited_lines : List (List Nat) → List (List Nat)
  | [] => []
  | line :: rest => if line.isEmpty && rest.isEmpty then [] else line :: visited_lines rest

/-- The line sequence of a file with the given contents. -/
def file_lines (contents : List Nat) : List (List Nat) :=
  visited_lines (g_strsplit_lines contents)

/-- A field of a record that a line of the file carries unchanged: not empty, no
NUL byte, none of the white space bytes that `escape_fstab` leaves as they are
(vertical tab, form feed, carriage return), and at most 511 bytes when escaped. -/
def fstab_field_ok (s : List Nat) : Prop :=
  s ≠ [] ∧ (∀ c ∈ s, c ≠ 0 ∧ c ≠ 11 ∧ c ≠ 12 ∧ c ≠ 13) ∧ (escape_fstab s).length ≤ 511

/-- An environment for examples: /etc/fstab holds the given contents and can be
written. -/
def fstab_env_example (contents : List Nat) : FstabEnv :=
  { block := { device := some "/dev/sda1" }
    parents := track_parents_env_example
    g_file_get_contents := .ok contents
    file_set_contents := fun _ => none }

/-- A record for examples: /dev/sda1 on /mnt, ext4, defaults, 0 0. -/
def fstab_record_example : FstabDetails :=
  { fsname := some (bytes "/dev/sda1"), dir := some (bytes "/mnt"), type := some (bytes "ext4"),
    opts := some (bytes "defaults"), freq := some 0, passno := some 0 }

/-! ### The unlock records file (`add_remove_crypttab_entry`) -/

/-- The function `has_whitespace`. -/
def has_whitespace (s : List Nat) : Bool :=
  (c_str s).any isspace

/-- C `strrchr (s, c)`: the offset of the last occurrence of the byte. -/
def strrchr (s : List Nat) (c : Nat) : Option Nat :=
  match s with
  | [] => none
  | d :: rest =>
    match strrchr rest c with
    | some n => some (n + 1)
    | none => if d = c then some 0 else none

/-- The dictionary of an unlock record: a key that is not given is `none`. -/
structure CrypttabDetails where
  name : Option (List Nat) := none
  device : Option (List Nat) := none
  passphrase_path : Option (List Nat) := none
  options : Option (List Nat) := none
  passphrase_contents : Option (List Nat) := none
  track_parents : Option Bool := none
deriving DecidableEq, Repr

/-- The four strings of an unlock record as the code holds them. -/
structure CrypttabEntry where
  name : List Nat
  device : List Nat
  passphrase_path : List Nat
  options : List Nat
deriving DecidableEq, Repr

/-- The calls by which `add_remove_crypttab_entry` changes the file system, in
program order; a call is listed also when it fails. -/
inductive CrypttabEvent where
  | unlink (path : List Nat)
  | mkdir_with_parents (path : List Nat) (mode : Nat)
  | file_set_contents (filename contents : List Nat) (mode : Nat)
deriving DecidableEq, Repr

/-- What `add_remove_crypttab_entry` reads and calls outside the file. The
arrays `parsed_name` ... `parsed_options` are not initialised: `indeterminate n`
is what they hold at line `n` where `sscanf` does not write them. A call that
fails gives `false`, or the error or error text. -/
structure CrypttabEnv where
  block : StoragedBlock
  parents : TrackParentsEnv
  g_file_get_contents : Except GError (List Nat)
  indeterminate : Nat → CrypttabEntry
  unlink : List Nat → Bool
  g_mkdir_with_parents : Option String
  g_file_test_exists : List Nat → Bool
  file_set_contents : List Nat → List Nat → Option GError

/-- The call `sscanf (line, "%511s %511s %511s %511s", ...)`: its return value
(`-1` is `EOF`) and the strings stored. -/
def sscanf_crypttab (line : List Nat) : Int × List (List Nat) :=
  match scan_s 511 line with
  | none => (-1, [])
  | some (parsed_name, rest1) =>
    match scan_s 511 rest1 with
    | none => (1, [parsed_name])
    | some (parsed_device, rest2) =>
      match scan_s 511 rest2 with
      | none => (2, [parsed_name, parsed_device])
      | some (parsed_passphrase_path, rest3) =>
        match scan_s 511 rest3 with
        | none => (3, [parsed_name, parsed_device, parsed_passphrase_path])
        | some (parsed_options, _) =>
          (4, [parsed_name, parsed_device, parsed_passphrase_path, parsed_options])

/-- The entry that the loop compares with the entry to remove at line `n`, when
`num_parsed >= 2`; `num_parsed` is a `guint`, so `EOF` counts as 4294967295. -/
def crypttab_parse_line (env : CrypttabEnv) (n : Nat) (line : List Nat) :
    Option CrypttabEntry :=
  let r := sscanf_crypttab line
  let num_parsed : Nat := (r.1 % (2 : Int) ^ 32).toNat
  let parsed_name := (r.2.get? 0).getD (c_str (env.indeterminate n).name)
  let parsed_device := (r.2.get? 1).getD (c_str (env.indeterminate n).device)
  let parsed_passphrase_path :=
    (r.2.get? 2).getD (c_str (env.indeterminate n).passphrase_path)
  let parsed_options := (r.2.get? 3).getD (c_str (env.indeterminate n).options)
  if num_parsed ≥ 2 then
    some
      { name := parsed_name
        device := parsed_device
        passphrase_path :=
          if num_parsed < 3 || decide (parsed_passphrase_path = bytes "none") then []
          else parsed_passphrase_path
        options := if num_parsed < 4 then [] else parsed_options }
  else none

/-- The loop of `add_remove_crypttab_entry` over the lines from `lines[n]` on:
the text appended to `str` and the flag `removed` at the end, or the error,
and the files deleted. -/
def add_remove_crypttab_loop (env : CrypttabEnv) (entry_remove : Option CrypttabEntry) :
    Nat → Bool → List (List Nat) → Except GError (List Nat × Bool) × List CrypttabEvent
  | _, removed, [] => (.ok ([], removed), [])
  | n, removed, line :: rest =>
    if line.isEmpty && rest.isEmpty then (.ok ([], removed), [])
    else
      let keep : Except GError (List Nat × Bool) × List CrypttabEvent :=
        match add_remove_crypttab_loop env entry_remove (n + 1) removed rest with
        | (.ok r, events) => (.ok (line ++ 10 :: r.1, r.2), events)
        | (.error e, events) => (.error e, events)
      match entry_remove with
      | some r =>
        if !removed && decide (crypttab_parse_line env n line = some r) then
          if !r.passphrase_path.isEmpty && !(bytes "/dev").isPrefixOf r.passphrase_path then
            if env.unlink r.passphrase_path then
              match add_remove_crypttab_loop env entry_remove (n + 1) true rest with
              | (result, events) => (result, .unlink r.passphrase_path :: events)
            else
              (.error ⟨.FAILED,
                "Error deleting file `" ++ text r.passphrase_path ++ "' with passphrase"⟩,
                [.unlink r.passphrase_path])
          else add_remove_crypttab_loop env entry_remove (n + 1) true rest
        else keep
      | none => keep

/-- The lookups of the entry to remove in `add_remove_crypttab_entry`. -/
def crypttab_lookup_remove (remove : CrypttabDetails) : Option CrypttabEntry :=
  match remove.name, remove.device, remove.passphrase_path, remove.options with
  | some name, some device, some passphrase_path, some options =>
    some ⟨c_str name, c_str device, c_str passphrase_path, c_str options⟩
  | _, _, _, _ => none

/-- The lookups and checks of the entry to add in `add_remove_crypttab_entry`,
up to the tracking of parents: the entry and the passphrase contents. -/
def crypttab_lookup_add (block : StoragedBlock) (add : CrypttabDetails) :
    Except GError (CrypttabEntry × List Nat) :=
  let name_or_error : Except GError (List Nat) :=
    match add.name with
    | some name => .ok (c_str name)
    | none =>
      match block.id_uuid with
      | some uuid =>
        if uuid ≠ "" then .ok (utf8 ("luks-" ++ uuid))
        else .error ⟨.FAILED, "Block device has no UUID, can't determine default name"⟩
      | none => .error ⟨.FAILED, "Block device has no UUID, can't determine default name"⟩
  match name_or_error with
  | .error e => .error e
  | .ok add_name =>
    let add_device :=
      match add.device with
      | some device => c_str device
      | none => make_block_fsname_bytes block
    match add.options, add.passphrase_contents with
    | some options, some passphrase_contents =>
      let add_passphrase_path :=
        match add.passphrase_path with
        | some passphrase_path => c_str passphrase_path
        | none =>
          if (c_str passphrase_contents).isEmpty then []
          else bytes "/etc/luks-keys/" ++ add_name
      if has_whitespace add_name || has_whitespace add_device
          || has_whitespace add_passphrase_path || has_whitespace options then
        .error ⟨.FAILED,
          "One of name, device, passphrase-path or options parameter are invalid (whitespace)"⟩
      else .ok (⟨add_name, add_device, add_passphrase_path, c_str options⟩,
        c_str passphrase_contents)
    | _, _ =>
      .error ⟨.FAILED,
        "Missing passphrase-path, options or passphrase-contents parameter in entry to add"⟩

/-- The part "First write add_passphrase_content to add_passphrase_path, if
applicable" of `add_remove_crypttab_entry`: the error, when there is one, and
the calls made. `remove_passphrase_path` is `none` when there is no entry to
remove. -/
def crypttab_write_passphrase (env : CrypttabEnv) (remove_passphrase_path : Option (List Nat))
    (add_passphrase_path add_passphrase_contents : List Nat) :
    Option GError × List CrypttabEvent :=
  if add_passphrase_path.isEmpty then (none, [])
  else
    let checked : Except GError (List Nat) × List CrypttabEvent :=
      if some add_passphrase_path = remove_passphrase_path then (.ok add_passphrase_path, [])
      else if !(bytes "/etc/luks-keys/").isPrefixOf add_passphrase_path then
        (.error ⟨.FAILED,
          "Crypttab passphrase file can only be created in the /etc/luks-keys directory"⟩, [])
      else
        match env.g_mkdir_with_parents with
        | some m =>
          (.error ⟨.FAILED, "Error creating /etc/luks-keys directory: " ++ m⟩,
            [.mkdir_with_parents (bytes "/etc/luks-keys") 0o700])
        | none =>
          (.ok (bytes "/etc/luks-keys/"
              ++ add_passphrase_path.drop ((strrchr add_passphrase_path 47).getD 0 + 1)),
            [.mkdir_with_parents (bytes "/etc/luks-keys") 0o700])
    match checked with
    | (.error e, events) => (some e, events)
    | (.ok filename, events) =>
      if env.g_file_test_exists filename then
        (some ⟨.FAILED, "Refusing to overwrite existing file " ++ text filename⟩, events)
      else
        match env.file_set_contents filename add_passphrase_contents with
        | some e => (some e, events ++ [.file_set_contents filename add_passphrase_contents 0o600])
        | none => (none, events ++ [.file_set_contents filename add_passphrase_contents 0o600])

/-- The line that `add_remove_crypttab_entry` appends for the entry to add, with
its line feed. -/
def crypttab_add_line (entry : CrypttabEntry) : List Nat :=
  entry.name ++ 32 :: (entry.device ++ 32 ::
    ((if !entry.passphrase_path.isEmpty then entry.passphrase_path else bytes "none")
      ++ 32 :: (entry.options ++ [10])))

/-- The second half of `add_remove_crypttab_entry`, from `g_file_get_contents`
on. Here `remove != NULL` holds exactly when `entry_remove` is filled, and
`add != NULL` exactly when `entry_add` is. -/
def add_remove_crypttab_rewrite (env : CrypttabEnv) (entry_remove : Option CrypttabEntry)
    (entry_add : Option (CrypttabEntry × List Nat)) : Option GError × List CrypttabEvent :=
  match env.g_file_get_contents with
  | .error e => (some e, [])
  | .ok contents =>
    match add_remove_crypttab_loop env entry_remove 0 false (g_strsplit_lines contents) with
    | (.error e, events) => (some e, events)
    | (.ok r, events) =>
      if entry_remove.isSome && !r.2 then
        (some ⟨.FAILED, "Didn't find entry to remove"⟩, events)
      else
        match entry_add with
        | some (entry, add_passphrase_contents) =>
          match crypttab_write_passphrase env (entry_remove.map (fun e => e.passphrase_path))
              entry.passphrase_path add_passphrase_contents with
          | (some e, events2) => (some e, events ++ events2)
          | (none, events2) =>
            let str := c_str (r.1 ++ crypttab_add_line entry)
            (env.file_set_contents (bytes "/etc/crypttab") str,
              events ++ events2 ++ [.file_set_contents (bytes "/etc/crypttab") str 0o600])
        | none =>
          let str := c_str r.1
          (env.file_set_contents (bytes "/etc/crypttab") str,
            events ++ [.file_set_contents (bytes "/etc/crypttab") str 0o600])

/-- The function `add_remove_crypttab_entry`: the error that is set (`none` when
it returns TRUE) and the calls made on the file system; `none` when
`track_parents` does not return within `fuel` turns of its loops. -/
def add_remove_crypttab_entry (env : CrypttabEnv) (fuel : Nat)
    (remove add : Option CrypttabDetails) : Option (Option GError × List CrypttabEvent) :=
  let entry_remove := remove.bind crypttab_lookup_remove
  if remove.isSome && entry_remove.isNone then
    some (some ⟨.FAILED,
      "Missing name, device, passphrase-path, options or parameter in entry to remove"⟩, [])
  else
    match add with
    | none => some (add_remove_crypttab_rewrite env entry_remove none)
    | some a =>
      match crypttab_lookup_add env.block a with
      | .error e => some (some e, [])
      | .ok (entry, add_passphrase_contents) =>
        if a.track_parents = some true then
          match track_parents env.parents fuel entry.options with
          | none => none
          | some auto_opts =>
            some (add_remove_crypttab_rewrite env entry_remove
              (some ({ entry with options := auto_opts }, add_passphrase_contents)))
        else
          some (add_remove_crypttab_rewrite env entry_remove
            (some (entry, add_passphrase_contents)))

/-- An environment for examples: /etc/crypttab holds the given contents, no file
exists where a passphrase is to be written, and every call succeeds. -/
def crypttab_env_example (contents : List Nat) : CrypttabEnv :=
  { block := { device := some "/dev/sdb1", id_uuid := some "1234" }
    parents := track_parents_env_example
    g_file_get_contents := .ok contents
    indeterminate := fun _ => ⟨[], [], [], []⟩
    unlink := fun _ => true
    g_mkdir_with_parents := none
    g_file_test_exists := fun _ => false
    file_set_contents := fun _ _ => none }

/-! ### The Format method: after the invocation has been cleared -/

/-- GLib `g_ascii_isspace`: space, form feed, newline, carriage return,
horizontal and vertical tab. -/
def g_ascii_isspace (c : Char) : Bool :=
  c.toNat = 32 || c.toNat = 12 || c.toNat = 10 || c.toNat = 13 || c.toNat = 9 || c.toNat = 11

/-- GLib `g_strstrip`: leading and trailing white space removed. -/
def g_strstrip (s : String) : String :=
  String.mk ((s.data.dropWhile g_ascii_isspace).reverse.dropWhile g_ascii_isspace).reverse

/-- The function `strip_and_replace_with_uscore` on a string that may be `NULL`. -/
def strip_and_replace_with_uscore (s : Option String) : Option String :=
  s.map (fun v =>
    String.mk ((g_strstrip v).data.map
      (fun c => if c.toNat = 32 || c.toNat = 45 then Char.ofNat 95 else c)))

/-- The statement `if (str->str[str->len - 1] != '/') g_string_append_c (str, '_');`. -/
def append_uscore_unless_slash (str : String) : String :=
  if str.data.getLast? ≠ some (Char.ofNat 47) then str ++ "_" else str

/-- The object path that `storaged_linux_drive_object_constructed` computes
from the vendor, model and serial of the Drive interface.
`safe_append str s` is `storaged_safe_append_to_object_path (str, s)`. -/
def storaged_linux_drive_object_constructed_path (safe_append : String → String → String)
    (vendor0 model0 serial0 : Option String) : String :=
  let vendor := strip_and_replace_with_uscore vendor0
  let model := strip_and_replace_with_uscore model0
  let serial := strip_and_replace_with_uscore serial0
  let str := "/org/storaged/Storaged/drives/"
  if vendor = none ∧ model = none ∧ serial = none then str ++ "drive"
  else
    let str1 := if str_nonempty vendor then safe_append str (vendor.getD "") else str
    let str2 :=
      if str_nonempty model then
        safe_append (append_uscore_unless_slash str1) (model.getD "")
      else str1
    let str3 :=
      if str_nonempty serial then
        safe_append (append_uscore_unless_slash str2) (serial.getD "")
      else str2
    str3

/-- A device for examples: a disk at the given sysfs path with an ID_SERIAL. -/
def example_device (sysfs_path serial : String) : StoragedLinuxDevice :=
  ⟨⟨sysfs_path, some "disk", "sda", [("ID_SERIAL", serial)], [], []⟩, none, none⟩

/-- An environment for examples: no modules, updates that report no change. -/
def example_env : DriveEnv Unit :=
  { STORAGED_TYPE_LINUX_DRIVE := 1
    STORAGED_TYPE_LINUX_DRIVE_ATA := 2
    storaged_linux_drive_update := fun _ _ => (false, ())
    storaged_linux_drive_ata_update := fun _ _ => (false, ())
    storaged_module_manager_get_modules_available := false
    storaged_module_manager_get_drive_object_iface_infos := []
    storaged_drive_dup_configuration := fun _ => none
    storaged_linux_drive_ata_apply_configuration := fun _ _ _ => () }

/-- A drive object for examples with the given members and no interfaces yet. -/
def example_drive (devices : List StoragedLinuxDevice) : StoragedLinuxDriveObject Unit :=
  ⟨⟨⟨devices, ()⟩, [], 0⟩, none, none, none⟩

/-! ## Theorems -/

/-! ### Capability attachment -/

/-- After update_iface the pointer is set exactly when has_func held (shared lemma). -/
theorem update_iface_pointer_iff_has_aux {σ : Type} (object : StoragedObject σ)
    (uevent_action : Option String) (has_func : StoragedObjectHasInterfaceFunc σ)
    (connect_func : Option (StoragedObjectConnectInterfaceFunc σ))
    (update_func : StoragedObjectUpdateInterfaceFunc σ) (skeleton_type : GType)
    (interface_pointer : Option GDBusInterface) :
    (update_iface object uevent_action (some has_func) connect_func (some update_func)
      skeleton_type interface_pointer).interface_pointer.isSome = has_func object.data := by
  have h1 : (update_iface_attach object (has_func object.data) connect_func skeleton_type
      interface_pointer).interface_pointer.isSome = has_func object.data := by
    unfold update_iface_attach
    cases interface_pointer <;> cases has_func object.data <;> cases connect_func <;>
      simp <;> split <;> rfl
  have h2 : ∀ s : UpdateIfaceAttach σ,
      (update_iface_refresh s uevent_action update_func skeleton_type).interface_pointer
        = s.interface_pointer := by
    intro s
    unfold update_iface_refresh
    cases hs : s.interface_pointer
    · simp
    · simp only; split <;> rfl
  simp only [update_iface, h2, h1]

/-- C2: after a call of update_iface whose function arguments are set, the
interface pointer is non-NULL exactly when has_func returned TRUE in that
call, whatever the pointer was before. -/
theorem update_iface_pointer_iff_has {σ : Type} (object : StoragedObject σ)
    (uevent_action : Option String) (has_func : StoragedObjectHasInterfaceFunc σ)
    (connect_func : Option (StoragedObjectConnectInterfaceFunc σ))
    (update_func : StoragedObjectUpdateInterfaceFunc σ) (skeleton_type : GType)
    (interface_pointer : Option GDBusInterface) :
    (update_iface object uevent_action (some has_func) connect_func (some update_func)
      skeleton_type interface_pointer).interface_pointer.isSome = has_func object.data :=
  update_iface_pointer_iff_has_aux object uevent_action has_func connect_func update_func
    skeleton_type interface_pointer

/-- C1 (as stated, refuted): with the applicability test constantly TRUE and a
refresh function that reports a change on every call, the second of two
consecutive calls of update_iface returns TRUE. -/
theorem update_iface_second_call_may_report_change :
    let first := update_iface emptyObject (some "change") (some (fun _ => true)) none
      (some always_changed_update) 7 none
    let second := update_iface first.object (some "change") (some (fun _ => true)) none
      (some always_changed_update) 7 first.interface_pointer
    (fun _ => true) first.object.data = (fun (_ : Unit) => true) emptyObject.data ∧
      second.ret = true := by
  decide

/-- C1 (amended): when has_func gives the same result in two consecutive calls
of update_iface, the second call performs no construct, connect, publish,
unpublish or unref, leaves the interface pointer and the exported interfaces
as the first call left them, and returns FALSE when no representation is
present and otherwise the result of its own update_func call. -/
theorem update_iface_twice_idempotent {σ : Type} (object : StoragedObject σ)
    (a1 a2 : Option String) (has_func : StoragedObjectHasInterfaceFunc σ)
    (connect_func : Option (StoragedObjectConnectInterfaceFunc σ))
    (update_func : StoragedObjectUpdateInterfaceFunc σ) (skeleton_type : GType)
    (interface_pointer : Option GDBusInterface)
    (hsame : has_func (update_iface object a1 (some has_func) connect_func (some update_func)
      skeleton_type interface_pointer).object.data = has_func object.data) :
    let first := update_iface object a1 (some has_func) connect_func (some update_func)
      skeleton_type interface_pointer
    let second := update_iface first.object a2 (some has_func) connect_func (some update_func)
      skeleton_type first.interface_pointer
    (∀ e ∈ second.events, e.isAttachOrDetach = false) ∧
      second.interface_pointer = first.interface_pointer ∧
      second.object.interfaces = first.object.interfaces ∧
      second.object.next_addr = first.object.next_addr ∧
      second.ret = (match first.interface_pointer with
        | none => false
        | some inst => (update_func first.object.data a2 inst).1) ∧
      second.events = (match first.interface_pointer with
        | none => [.update_iface_return skeleton_type false]
        | some inst => [.update inst a2,
            .update_iface_return skeleton_type (update_func first.object.data a2 inst).1]) := by
  intro first second
  have hp : first.interface_pointer.isSome = has_func object.data :=
    update_iface_pointer_iff_has_aux object a1 has_func connect_func update_func
      skeleton_type interface_pointer
  have hsame2 : has_func first.object.data = has_func object.data := hsame
  cases hfp : first.interface_pointer with
  | none =>
    have hh : has_func first.object.data = false := by
      rw [hsame2, ← hp, hfp]; rfl
    simp only [second, hfp]
    simp [update_iface, update_iface_attach, update_iface_refresh, hh,
      IfaceEvent.isAttachOrDetach]
  | some inst =>
    have hh : has_func first.object.data = true := by
      rw [hsame2, ← hp, hfp]; rfl
    simp only [second, hfp]
    simp [update_iface, update_iface_attach, update_iface_refresh, hh,
      IfaceEvent.isAttachOrDetach]

/-- Witness of C1 (amended): the built-in Drive capability, reconciled twice. -/
theorem update_iface_twice_idempotent_witness :
    let first := update_iface emptyObject (some "add") (some (fun _ => true)) none
      (some always_changed_update) 7 none
    let second := update_iface first.object (some "change") (some (fun _ => true)) none
      (some always_changed_update) 7 first.interface_pointer
    (∀ e ∈ second.events, e.isAttachOrDetach = false) ∧
      second.interface_pointer = first.interface_pointer ∧
      second.object.interfaces = first.object.interfaces ∧
      second.object.next_addr = first.object.next_addr ∧
      second.ret = (match first.interface_pointer with
        | none => false
        | some inst => (always_changed_update first.object.data (some "change") inst).1) ∧
      second.events = (match first.interface_pointer with
        | none => [.update_iface_return 7 false]
        | some inst => [.update inst (some "change"),
            .update_iface_return 7
              (always_changed_update first.object.data (some "change") inst).1]) :=
  update_iface_twice_idempotent emptyObject (some "add") (some "change") (fun _ => true) none
    always_changed_update 7 none rfl

/-! ### The member list of a drive object -/

/-- The first half of update_iface keeps the member list when connect_func does. -/
theorem update_iface_attach_devices {ε : Type} (object : StoragedObject (DriveData ε))
    (has : Bool) (connect_func : Option (StoragedObjectConnectInterfaceFunc (DriveData ε)))
    (t : GType) (p : Option GDBusInterface)
    (hc : ∀ c, connect_func = some c → ∀ d, (c d).devices = d.devices) :
    (update_iface_attach object has connect_func t p).object.data.devices
      = object.data.devices := by
  unfold update_iface_attach
  cases p with
  | none =>
    cases has with
    | false => rfl
    | true =>
      cases connect_func with
      | none => rfl
      | some c => simpa using hc c rfl object.data
  | some inst =>
    cases has with
    | true => rfl
    | false =>
      simp only [Bool.not_false, if_true]
      cases hg : g_dbus_object_get_interface object inst.skeleton_type with
      | none => rfl
      | some other =>
        simp only [g_dbus_object_skeleton_remove_interface, hg]
        split <;> rfl

/-- The second half of update_iface keeps the member list when update_func does. -/
theorem update_iface_refresh_devices {ε : Type} (s : UpdateIfaceAttach (DriveData ε))
    (a : Option String) (update_func : StoragedObjectUpdateInterfaceFunc (DriveData ε))
    (t : GType) (hu : ∀ d a i, (update_func d a i).2.devices = d.devices) :
    (update_iface_refresh s a update_func t).object.data.devices = s.object.data.devices := by
  unfold update_iface_refresh
  cases hs : s.interface_pointer with
  | none => rfl
  | some inst =>
    simp only
    split
    · simpa [g_dbus_object_skeleton_add_interface] using hu s.object.data a inst
    · simpa using hu s.object.data a inst

/-- One call of update_iface keeps the member list when its callbacks do. -/
theorem update_iface_devices {ε : Type} (object : StoragedObject (DriveData ε))
    (a : Option String) (has_func : Option (StoragedObjectHasInterfaceFunc (DriveData ε)))
    (connect_func : Option (StoragedObjectConnectInterfaceFunc (DriveData ε)))
    (update_func : Option (StoragedObjectUpdateInterfaceFunc (DriveData ε)))
    (t : GType) (p : Option GDBusInterface)
    (hc : ∀ c, connect_func = some c → ∀ d, (c d).devices = d.devices)
    (hu : ∀ u, update_func = some u → ∀ d a i, (u d a i).2.devices = d.devices) :
    (update_iface object a has_func connect_func update_func t p).object.data.devices
      = object.data.devices := by
  unfold update_iface
  cases has_func with
  | none => rfl
  | some h =>
    cases update_func with
    | none => rfl
    | some u =>
      simp only
      rw [update_iface_refresh_devices _ _ _ _ (hu u rfl),
        update_iface_attach_devices _ _ _ _ _ hc]

/-- The loop over the module entries keeps the member list. -/
theorem uevent_module_loop_devices {ε : Type} (a : Option String)
    (table : List (GType × ModuleInterfaceEntry ε)) :
    ∀ (parent_instance : StoragedObject (DriveData ε)) (conf_changed : Bool),
      (uevent_module_loop a parent_instance conf_changed table).parent_instance.data.devices
        = parent_instance.data.devices := by
  induction table with
  | nil => intro p c; rfl
  | cons e rest ih =>
    intro p c
    obtain ⟨key, entry⟩ := e
    simp only [uevent_module_loop]
    rw [ih]
    apply update_iface_devices
    · intro c hc d
      cases hcf : entry.connect_func with
      | none => simp [hcf] at hc
      | some f =>
        simp only [hcf, Option.map_some', Option.some.injEq] at hc
        subst hc; rfl
    · intro u hu d a i
      cases huf : entry.update_func with
      | none => simp [huf] at hu
      | some f =>
        simp only [huf, Option.map_some', Option.some.injEq] at hu
        subst hu; rfl

/-- The function apply_configuration keeps the member list. -/
theorem apply_configuration_devices {ε : Type} (env : DriveEnv ε)
    (object : StoragedLinuxDriveObject ε) :
    (apply_configuration env object).1.devices = object.devices := by
  unfold apply_configuration
  repeat (first | rfl | split)

/-- The built-in reconciliations keep the member list. -/
theorem uevent_reconcile_builtin_devices {ε : Type} (env : DriveEnv ε)
    (object : StoragedLinuxDriveObject ε) (action : Option String) :
    (uevent_reconcile_builtin env object action).object.devices = object.devices := by
  have h1 : ∀ (o : StoragedObject (DriveData ε)) (p : Option GDBusInterface),
      (update_iface o action (some drive_check) (some drive_connect)
        (some (drive_update env)) env.STORAGED_TYPE_LINUX_DRIVE p).object.data.devices
        = o.data.devices := by
    intro o p
    apply update_iface_devices
    · intro c hc d; simp only [Option.some.injEq] at hc; subst hc; rfl
    · intro u hu d a i; simp only [Option.some.injEq] at hu; subst hu; rfl
  have h2 : ∀ (o : StoragedObject (DriveData ε)) (p : Option GDBusInterface),
      (update_iface o action (some drive_ata_check) (some drive_ata_connect)
        (some (drive_ata_update env)) env.STORAGED_TYPE_LINUX_DRIVE_ATA p).object.data.devices
        = o.data.devices := by
    intro o p
    apply update_iface_devices
    · intro c hc d; simp only [Option.some.injEq] at hc; subst hc; rfl
    · intro u hu d a i; simp only [Option.some.injEq] at hu; subst hu; rfl
  simp only [uevent_reconcile_builtin, StoragedLinuxDriveObject.devices, h2, h1]

/-- The module reconciliations keep the member list. -/
theorem uevent_reconcile_modules_devices {ε : Type} (env : DriveEnv ε)
    (s : UeventReconciled ε) (action : Option String) :
    (uevent_reconcile_modules env s action).object.devices = s.object.devices := by
  have h3 : ∀ o : StoragedLinuxDriveObject ε,
      (ensure_module_ifaces env o).parent_instance = o.parent_instance := by
    intro o; unfold ensure_module_ifaces; split <;> rfl
  unfold uevent_reconcile_modules
  split
  · simp only [StoragedLinuxDriveObject.devices, uevent_module_loop_devices, h3]
  · rfl

/-- After an event the member list is the one computed by the first part of
storaged_linux_drive_object_uevent: no capability callback changes it. -/
theorem uevent_devices {ε : Type} (env : DriveEnv ε) (object : StoragedLinuxDriveObject ε)
    (action : Option String) (device : Option StoragedLinuxDevice) :
    (storaged_linux_drive_object_uevent env object action device).1.devices
      = uevent_update_devices object.devices action device := by
  unfold storaged_linux_drive_object_uevent
  simp only
  split
  · rw [apply_configuration_devices, uevent_reconcile_modules_devices,
      uevent_reconcile_builtin_devices]
    rfl
  · rw [uevent_reconcile_modules_devices, uevent_reconcile_builtin_devices]
    rfl

/-- No member has the sysfs path exactly when find_link_for_sysfs_path finds no link. -/
theorem find_link_for_sysfs_path_none (devices : List StoragedLinuxDevice) (p : String)
    (h : ∀ m ∈ devices, m.udev_device.sysfs_path ≠ p) :
    find_link_for_sysfs_path devices p = none := by
  induction devices with
  | nil => rfl
  | cons d rest ih =>
    have hd : d.udev_device.sysfs_path ≠ p := h d (List.mem_cons_self _ _)
    have hr := ih (fun m hm => h m (List.mem_cons_of_mem _ hm))
    simp [find_link_for_sysfs_path, hd, hr]

/-- The link found is the first member with the sysfs path. -/
theorem find_link_for_sysfs_path_first (pre post : List StoragedLinuxDevice)
    (d : StoragedLinuxDevice) (p : String) (hd : d.udev_device.sysfs_path = p)
    (h : ∀ m ∈ pre, m.udev_device.sysfs_path ≠ p) :
    find_link_for_sysfs_path (pre ++ d :: post) p = some pre.length := by
  induction pre with
  | nil => simp [find_link_for_sysfs_path, hd]
  | cons x rest ih =>
    have hx : x.udev_device.sysfs_path ≠ p := h x (List.mem_cons_self _ _)
    have hr := ih (fun m hm => h m (List.mem_cons_of_mem _ hm))
    simp [find_link_for_sysfs_path, hx, hr]

/-- C8: for every member list and event device, a remove event deletes the
(first) member with the sysfs path of the device and keeps all others in
order, leaving the list unchanged when there is none; every other action
replaces that member in place, or appends the device when there is none. -/
theorem uevent_member_list {ε : Type} (env : DriveEnv ε) (object : StoragedLinuxDriveObject ε)
    (action : Option String) (device : StoragedLinuxDevice) :
    let after := (storaged_linux_drive_object_uevent env object action (some device)).1.devices
    let p := device.udev_device.sysfs_path
    (action = some "remove" →
      ((∀ m ∈ object.devices, m.udev_device.sysfs_path ≠ p) → after = object.devices) ∧
      (∀ pre d post, object.devices = pre ++ d :: post → d.udev_device.sysfs_path = p →
        (∀ m ∈ pre, m.udev_device.sysfs_path ≠ p) → after = pre ++ post)) ∧
    (action ≠ some "remove" →
      ((∀ m ∈ object.devices, m.udev_device.sysfs_path ≠ p) →
        after = object.devices ++ [device]) ∧
      (∀ pre d post, object.devices = pre ++ d :: post → d.udev_device.sysfs_path = p →
        (∀ m ∈ pre, m.udev_device.sysfs_path ≠ p) →
        after = pre ++ device :: post ∧ after.length = object.devices.length)) := by
  intro after p
  have hafter : after = uevent_update_devices object.devices action (some device) :=
    uevent_devices env object action (some device)
  refine ⟨fun ha => ⟨fun hnone => ?_, fun pre d post hl hd hpre => ?_⟩,
    fun ha => ⟨fun hnone => ?_, fun pre d post hl hd hpre => ?_⟩⟩
  · rw [hafter]
    simp [uevent_update_devices, find_link_for_sysfs_path_none _ _ hnone, ha, g_strcmp0_eq]
  · rw [hafter, hl]
    simp [uevent_update_devices, find_link_for_sysfs_path_first pre post d _ hd hpre, ha,
      g_strcmp0_eq, List.eraseIdx_append_of_length_le]
  · rw [hafter]
    simp [uevent_update_devices, find_link_for_sysfs_path_none _ _ hnone, ha, g_strcmp0_eq]
  · rw [hafter, hl]
    simp [uevent_update_devices, find_link_for_sysfs_path_first pre post d _ hd hpre, ha,
      g_strcmp0_eq]

/-- Witness of C8: on the members /sys/a, /sys/b a remove event for /sys/a
leaves /sys/b, and a change event for /sys/b replaces it in place. -/
theorem uevent_member_list_witness :
    (storaged_linux_drive_object_uevent example_env
        (example_drive [example_device "/sys/a" "1", example_device "/sys/b" "2"])
        (some "remove") (some (example_device "/sys/a" "9"))).1.devices
      = [] ++ [example_device "/sys/b" "2"] ∧
    ((storaged_linux_drive_object_uevent example_env
        (example_drive [example_device "/sys/a" "1", example_device "/sys/b" "2"])
        (some "change") (some (example_device "/sys/b" "9"))).1.devices
      = [example_device "/sys/a" "1"] ++ example_device "/sys/b" "9" :: [] ∧
     (storaged_linux_drive_object_uevent example_env
        (example_drive [example_device "/sys/a" "1", example_device "/sys/b" "2"])
        (some "change") (some (example_device "/sys/b" "9"))).1.devices.length
      = (example_drive
          [example_device "/sys/a" "1", example_device "/sys/b" "2"]).devices.length) :=
  ⟨((uevent_member_list example_env
      (example_drive [example_device "/sys/a" "1", example_device "/sys/b" "2"])
      (some "remove") (example_device "/sys/a" "9")).1 rfl).2
      [] (example_device "/sys/a" "1") [example_device "/sys/b" "2"] rfl rfl (by simp),
   ((uevent_member_list example_env
      (example_drive [example_device "/sys/a" "1", example_device "/sys/b" "2"])
      (some "change") (example_device "/sys/b" "9")).2 (by decide)).2
      [example_device "/sys/a" "1"] (example_device "/sys/b" "2") [] rfl rfl
      (by simp [example_device])⟩

/-! ### Reconciliation of all capabilities on an event -/

/-- The recorded results of two lists of effects, one after the other. -/
theorem update_iface_returns_append (l1 l2 : List IfaceEvent) :
    update_iface_returns (l1 ++ l2) = update_iface_returns l1 ++ update_iface_returns l2 := by
  induction l1 with
  | nil => rfl
  | cons e rest ih => cases e <;> simp [update_iface_returns, ih]

/-- The first half of update_iface records no result and never enters apply_configuration. -/
theorem update_iface_attach_returns {σ : Type} (object : StoragedObject σ) (has : Bool)
    (connect_func : Option (StoragedObjectConnectInterfaceFunc σ))
    (t : GType) (p : Option GDBusInterface) :
    update_iface_returns (update_iface_attach object has connect_func t p).events = [] ∧
      IfaceEvent.apply_configuration ∉
        (update_iface_attach object has connect_func t p).events := by
  unfold update_iface_attach
  cases p with
  | none => cases has <;> cases connect_func <;> simp [update_iface_returns]
  | some inst =>
    cases has with
    | true => simp [update_iface_returns]
    | false =>
      cases hg : g_dbus_object_get_interface object inst.skeleton_type <;>
        simp [hg, update_iface_returns]

/-- The second half of update_iface records exactly its return value. -/
theorem update_iface_refresh_returns {σ : Type} (s : UpdateIfaceAttach σ)
    (a : Option String) (update_func : StoragedObjectUpdateInterfaceFunc σ) (t : GType) :
    update_iface_returns (update_iface_refresh s a update_func t).events
        = update_iface_returns s.events ++ [(t, (update_iface_refresh s a update_func t).ret)] ∧
      (IfaceEvent.apply_configuration ∉ s.events →
        IfaceEvent.apply_configuration ∉ (update_iface_refresh s a update_func t).events) := by
  unfold update_iface_refresh
  cases hs : s.interface_pointer with
  | none => simp [update_iface_returns, update_iface_returns_append]
  | some inst =>
    cases hadd : s.add <;> simp [update_iface_returns, update_iface_returns_append]

/-- One call of update_iface records exactly one result, its return value, and
never enters apply_configuration. -/
theorem update_iface_returns_eq {σ : Type} (object : StoragedObject σ) (a : Option String)
    (has_func : Option (StoragedObjectHasInterfaceFunc σ))
    (connect_func : Option (StoragedObjectConnectInterfaceFunc σ))
    (update_func : Option (StoragedObjectUpdateInterfaceFunc σ))
    (t : GType) (p : Option GDBusInterface) :
    update_iface_returns (update_iface object a has_func connect_func update_func t p).events
        = [(t, (update_iface object a has_func connect_func update_func t p).ret)] ∧
      IfaceEvent.apply_configuration ∉
        (update_iface object a has_func connect_func update_func t p).events := by
  unfold update_iface
  cases has_func with
  | none => simp [update_iface_returns]
  | some h =>
    cases update_func with
    | none => simp [update_iface_returns]
    | some u =>
      simp only
      have h1 := update_iface_attach_returns object (h object.data) connect_func t p
      have h2 := update_iface_refresh_returns
        (update_iface_attach object (h object.data) connect_func t p) a u t
      exact ⟨by rw [h2.1, h1.1]; rfl, h2.2 h1.2⟩

/-- The loop over the module entries records one result per entry, in table
order, accumulates them into conf_changed and never enters apply_configuration. -/
theorem uevent_module_loop_returns {ε : Type} (a : Option String)
    (table : List (GType × ModuleInterfaceEntry ε)) :
    ∀ (parent_instance : StoragedObject (DriveData ε)) (conf_changed : Bool),
      (update_iface_returns
          (uevent_module_loop a parent_instance conf_changed table).events).map Prod.fst
        = table.map Prod.fst ∧
      (uevent_module_loop a parent_instance conf_changed table).conf_changed
        = (conf_changed || (update_iface_returns
            (uevent_module_loop a parent_instance conf_changed table).events).any
              (fun x => x.2)) ∧
      IfaceEvent.apply_configuration ∉
        (uevent_module_loop a parent_instance conf_changed table).events := by
  induction table with
  | nil => intro p c; simp [uevent_module_loop, update_iface_returns]
  | cons e rest ih =>
    intro p c
    obtain ⟨key, entry⟩ := e
    have hr := update_iface_returns_eq p a entry.has_func
      (entry.connect_func.map lift_connect) (entry.update_func.map lift_update) key
      entry.interface
    have hi := ih (update_iface p a entry.has_func (entry.connect_func.map lift_connect)
      (entry.update_func.map lift_update) key entry.interface).object
      (c || (update_iface p a entry.has_func (entry.connect_func.map lift_connect)
      (entry.update_func.map lift_update) key entry.interface).ret)
    simp only [uevent_module_loop, update_iface_returns_append, hr.1, List.map_append,
      List.map_cons, List.map_nil, hi.1, List.singleton_append, List.any_cons, hi.2.1,
      List.mem_append, not_or, Bool.or_assoc]
    exact ⟨trivial, trivial, hr.2, hi.2.2⟩

/-- The function ensure_module_ifaces builds the same table whatever the
built-in reconciliations did to the object. -/
theorem ensure_module_ifaces_builtin {ε : Type} (env : DriveEnv ε)
    (object : StoragedLinuxDriveObject ε) (action : Option String) :
    (ensure_module_ifaces env (uevent_reconcile_builtin env object action).object).module_ifaces
      = (ensure_module_ifaces env object).module_ifaces := by
  unfold ensure_module_ifaces uevent_reconcile_builtin
  simp only
  cases h : object.module_ifaces <;> simp [h]

/-- The function apply_configuration performs no update_iface call and enters exactly once. -/
theorem apply_configuration_events {ε : Type} (env : DriveEnv ε)
    (object : StoragedLinuxDriveObject ε) :
    update_iface_returns (apply_configuration env object).2 = [] ∧
      (apply_configuration env object).2.count IfaceEvent.apply_configuration = 1 := by
  unfold apply_configuration
  repeat (first | (constructor <;> rfl) | split)

/-- The reconciliations of one event: one recorded result per known capability,
conf_changed is their disjunction, and apply_configuration is not entered. -/
theorem uevent_reconcile_returns {ε : Type} (env : DriveEnv ε)
    (object : StoragedLinuxDriveObject ε) (action : Option String) :
    let s := uevent_reconcile_modules env (uevent_reconcile_builtin env object action) action
    (update_iface_returns s.events).map Prod.fst
        = env.STORAGED_TYPE_LINUX_DRIVE :: env.STORAGED_TYPE_LINUX_DRIVE_ATA ::
          (if env.storaged_module_manager_get_modules_available then
            ((ensure_module_ifaces env object).module_ifaces.getD []).map Prod.fst
           else []) ∧
      s.conf_changed = (update_iface_returns s.events).any (fun x => x.2) ∧
      IfaceEvent.apply_configuration ∉ s.events := by
  intro s
  have hb1 := update_iface_returns_eq object.parent_instance action (some drive_check)
    (some drive_connect) (some (drive_update env)) env.STORAGED_TYPE_LINUX_DRIVE
    object.iface_drive
  have hb2 := update_iface_returns_eq
    (update_iface object.parent_instance action (some drive_check)
      (some drive_connect) (some (drive_update env)) env.STORAGED_TYPE_LINUX_DRIVE
      object.iface_drive).object action (some drive_ata_check)
    (some drive_ata_connect) (some (drive_ata_update env)) env.STORAGED_TYPE_LINUX_DRIVE_ATA
    object.iface_drive_ata
  have hbr : update_iface_returns (uevent_reconcile_builtin env object action).events
      = [(env.STORAGED_TYPE_LINUX_DRIVE, (update_iface object.parent_instance action
          (some drive_check) (some drive_connect) (some (drive_update env))
          env.STORAGED_TYPE_LINUX_DRIVE object.iface_drive).ret),
        (env.STORAGED_TYPE_LINUX_DRIVE_ATA, (update_iface
          (update_iface object.parent_instance action (some drive_check)
            (some drive_connect) (some (drive_update env)) env.STORAGED_TYPE_LINUX_DRIVE
            object.iface_drive).object action (some drive_ata_check)
          (some drive_ata_connect) (some (drive_ata_update env))
          env.STORAGED_TYPE_LINUX_DRIVE_ATA object.iface_drive_ata).ret)] := by
    simp only [uevent_reconcile_builtin, update_iface_returns_append, hb1.1, hb2.1]
    rfl
  have hbc : (uevent_reconcile_builtin env object action).conf_changed
      = (update_iface_returns (uevent_reconcile_builtin env object action).events).any
          (fun x => x.2) := by
    rw [hbr]
    simp [uevent_reconcile_builtin]
  have hba : IfaceEvent.apply_configuration ∉
      (uevent_reconcile_builtin env object action).events := by
    simp only [uevent_reconcile_builtin, List.mem_append, not_or]
    exact ⟨hb1.2, hb2.2⟩
  cases hav : env.storaged_module_manager_get_modules_available with
  | false =>
    have hs : s = uevent_reconcile_builtin env object action := by
      simp only [s, uevent_reconcile_modules, hav]; rfl
    rw [hs]
    refine ⟨?_, hbc, hba⟩
    rw [hbr]; simp
  | true =>
    have hl := uevent_module_loop_returns action
      ((ensure_module_ifaces env
        (uevent_reconcile_builtin env object action).object).module_ifaces.getD [])
      (ensure_module_ifaces env (uevent_reconcile_builtin env object action).object).parent_instance
      (uevent_reconcile_builtin env object action).conf_changed
    have hse : s.events = (uevent_reconcile_builtin env object action).events ++
        (uevent_module_loop action
          (ensure_module_ifaces env
            (uevent_reconcile_builtin env object action).object).parent_instance
          (uevent_reconcile_builtin env object action).conf_changed
          ((ensure_module_ifaces env
            (uevent_reconcile_builtin env object action).object).module_ifaces.getD [])).events := by
      simp only [s, uevent_reconcile_modules, hav, if_true]
    have hsc : s.conf_changed = (uevent_module_loop action
          (ensure_module_ifaces env
            (uevent_reconcile_builtin env object action).object).parent_instance
          (uevent_reconcile_builtin env object action).conf_changed
          ((ensure_module_ifaces env
            (uevent_reconcile_builtin env object action).object).module_ifaces.getD [])).conf_changed := by
      simp only [s, uevent_reconcile_modules, hav, if_true]
    refine ⟨?_, ?_, ?_⟩
    · rw [hse, update_iface_returns_append, List.map_append, hl.1, hbr,
        ensure_module_ifaces_builtin]
      simp
    · rw [hsc, hl.2.1, hse, update_iface_returns_append, List.any_append, ← hbc]
    · rw [hse, List.mem_append, not_or]
      exact ⟨hba, hl.2.2⟩

/-- The table built by ensure_module_ifaces does not depend on the member list. -/
theorem ensure_module_ifaces_devices {ε : Type} (env : DriveEnv ε)
    (object : StoragedLinuxDriveObject ε) (parent_instance : StoragedObject (DriveData ε)) :
    (ensure_module_ifaces env { object with parent_instance := parent_instance }).module_ifaces
      = (ensure_module_ifaces env object).module_ifaces := by
  unfold ensure_module_ifaces
  cases h : object.module_ifaces <;> simp [h]

/-- C9: on every event storaged_linux_drive_object_uevent calls update_iface
once for Drive, once for DriveAta and, when modules are available, once for
every entry of the module table, in this order and whatever the earlier calls
returned; after all of them it enters apply_configuration once if at least one
call returned TRUE and not at all otherwise. -/
theorem uevent_reconciles_every_capability {ε : Type} (env : DriveEnv ε)
    (object : StoragedLinuxDriveObject ε) (action : Option String)
    (device : Option StoragedLinuxDevice) :
    let events := (storaged_linux_drive_object_uevent env object action device).2
    (update_iface_returns events).map Prod.fst
        = env.STORAGED_TYPE_LINUX_DRIVE :: env.STORAGED_TYPE_LINUX_DRIVE_ATA ::
          (if env.storaged_module_manager_get_modules_available then
            ((ensure_module_ifaces env object).module_ifaces.getD []).map Prod.fst
           else []) ∧
      ∃ pre post, events = pre ++ post ∧
        IfaceEvent.apply_configuration ∉ pre ∧
        update_iface_returns post = [] ∧
        post.count IfaceEvent.apply_configuration
          = (if (update_iface_returns events).any (fun x => x.2) then 1 else 0) := by
  intro events
  have hs := uevent_reconcile_returns env
    { object with
      parent_instance := { object.parent_instance with
        data := { object.parent_instance.data with
          devices := uevent_update_devices object.devices action device } } } action
  simp only [ensure_module_ifaces_devices] at hs
  obtain ⟨hk, hc, ha⟩ := hs
  cases hcc : (uevent_reconcile_modules env (uevent_reconcile_builtin env
      { object with
        parent_instance := { object.parent_instance with
          data := { object.parent_instance.data with
            devices := uevent_update_devices object.devices action device } } } action)
      action).conf_changed with
  | false =>
    have he : events = (uevent_reconcile_modules env (uevent_reconcile_builtin env
      { object with
        parent_instance := { object.parent_instance with
          data := { object.parent_instance.data with
            devices := uevent_update_devices object.devices action device } } } action)
      action).events := by
      simp only [events, storaged_linux_drive_object_uevent, hcc]; rfl
    rw [he]
    refine ⟨hk, _, [], (List.append_nil _).symm, ha, rfl, ?_⟩
    rw [← hc, hcc]; rfl
  | true =>
    have he : events = (uevent_reconcile_modules env (uevent_reconcile_builtin env
      { object with
        parent_instance := { object.parent_instance with
          data := { object.parent_instance.data with
            devices := uevent_update_devices object.devices action device } } } action)
      action).events ++ (apply_configuration env (uevent_reconcile_modules env
        (uevent_reconcile_builtin env
      { object with
        parent_instance := { object.parent_instance with
          data := { object.parent_instance.data with
            devices := uevent_update_devices object.devices action device } } } action)
      action).object).2 := by
      simp only [events, storaged_linux_drive_object_uevent, hcc]; rfl
    have hap := apply_configuration_events env (uevent_reconcile_modules env
        (uevent_reconcile_builtin env
      { object with
        parent_instance := { object.parent_instance with
          data := { object.parent_instance.data with
            devices := uevent_update_devices object.devices action device } } } action)
      action).object
    rw [he]
    refine ⟨?_, _, _, rfl, ha, hap.1, ?_⟩
    · rw [update_iface_returns_append, hap.1, List.append_nil]; exact hk
    · rw [update_iface_returns_append, hap.1, List.append_nil, ← hc, hcc, hap.2]; rfl

/-! ### Which devices become drive objects -/

/-- The loop over the slaves finds the identity of the first known slave that has one. -/
theorem should_include_device_slaves_eq (client : GUdevClient) (slaves : List String) :
    should_include_device_slaves client slaves
      = (slaves.filterMap
          (fun slave_path => g_udev_client_query_by_sysfs_path client slave_path)).findSome?
            check_for_vpd := by
  induction slaves with
  | nil => rfl
  | cons x rest ih =>
    simp only [should_include_device_slaves, List.filterMap_cons]
    cases hq : g_udev_client_query_by_sysfs_path client x with
    | none => simpa using ih
    | some slave =>
      cases hv : check_for_vpd slave with
      | none => simpa [List.findSome?, hv] using ih
      | some v => simp [List.findSome?, hv]

/-- C10: storaged_linux_drive_object_should_include_device returns FALSE (and
stores nothing) for every device whose devtype is not disk; for a disk it
returns TRUE exactly when an identity is derivable by check_for_vpd or by the
floppy, virtio, VMware, firewire or multipath fallback, and then stores that
identity in out_vpd when out_vpd is requested. -/
theorem should_include_device_iff_derivable (resolve_links : String → String → List String)
    (client : GUdevClient) (device : StoragedLinuxDevice) (want_out_vpd : Bool) :
    storaged_linux_drive_object_should_include_device resolve_links client device want_out_vpd
      = (if device.udev_device.devtype = some "disk" then
          match derivable_identity resolve_links client device.udev_device with
          | some identity => (true, if want_out_vpd then some identity else none)
          | none => (false, none)
         else (false, none)) := by
  unfold storaged_linux_drive_object_should_include_device
  by_cases hd : device.udev_device.devtype = some "disk"
  · simp only [g_strcmp0_eq, hd, decide_True, Bool.not_true, Bool.false_eq_true, if_false,
      if_true]
    congr 1
    simp only [derivable_identity, List.findSome?]
    cases hv : check_for_vpd device.udev_device with
    | some v => rfl
    | none =>
      simp only [floppy_identity, virtio_identity, vmware_identity, firewire_identity,
        multipath_identity]
      by_cases h1 : g_str_starts_with device.udev_device.name "fd" = true
      · simp [h1]
      · by_cases h2 : g_str_starts_with device.udev_device.name "vd" = true
        · simp [h1, h2]
        · by_cases h3 : g_str_starts_with device.udev_device.name "sd" = true
              ∧ g_udev_device_get_property device.udev_device "ID_VENDOR" = some "VMware"
              ∧ (∃ model, g_udev_device_get_property device.udev_device "ID_MODEL" = some model
                  ∧ g_str_starts_with model "Virtual" = true)
          · obtain ⟨h3a, h3b, model, h3c, h3d⟩ := h3
            simp [h1, h2, h3a, h3b, h3c, h3d]
          · have h3x : (g_str_starts_with device.udev_device.name "sd"
                && (g_udev_device_get_property device.udev_device "ID_VENDOR").isSome
                && decide (g_udev_device_get_property device.udev_device "ID_VENDOR"
                    = some "VMware")
                && (g_udev_device_get_property device.udev_device "ID_MODEL").isSome
                && g_str_starts_with
                    ((g_udev_device_get_property device.udev_device "ID_MODEL").getD "")
                    "Virtual") = false := by
              rw [Bool.eq_false_iff]
              intro hc
              simp only [Bool.and_eq_true, decide_eq_true_eq] at hc
              obtain ⟨⟨⟨⟨ha, _⟩, hb⟩, hm⟩, hp⟩ := hc
              cases hmod : g_udev_device_get_property device.udev_device "ID_MODEL" with
              | none => simp [hmod] at hm
              | some model =>
                rw [hmod] at hp
                exact h3 ⟨ha, hb, model, hmod, hp⟩
            simp only [h1, h2, h3x, h3, Bool.false_eq_true, if_false]
            by_cases h4 : "firewire" ∈ device.udev_device.parent_subsystems
            · simp [h4]
            · have h4c : device.udev_device.parent_subsystems.contains "firewire" = false := by
                simpa using h4
              simp only [h4c, h4, Bool.false_eq_true, if_false]
              cases hdm : g_udev_device_get_sysfs_attr device.udev_device "dm/name" with
              | none => simp
              | some dm_name =>
                by_cases h5 : g_str_starts_with dm_name "mpath" = true
                · simp only [h5, should_include_device_slaves_eq, Option.isSome_some,
                    Option.getD_some, Bool.and_self, if_true, Option.some.injEq,
                    exists_eq_left']
                  cases List.findSome? check_for_vpd
                    (List.filterMap (fun slave_path =>
                      g_udev_client_query_by_sysfs_path client slave_path)
                      (resolve_links device.udev_device.sysfs_path "slaves")) <;> rfl
                · simp [h5]
  · simp [g_strcmp0_eq, hd]

/-! ### Configuration record lookup -/

/-- An fsname that is UUID= followed by u is classified as a UUID key with value u. -/
theorem fsname_keys_uuid (u : String) :
    fsname_keys ("UUID=" ++ u) = some { uuid := some u } := by
  have h1 : g_str_starts_with ("UUID=" ++ u) "UUID=" = true := by
    simp [g_str_starts_with, String.data_append]
  have h2 : str_offset ("UUID=" ++ u) 5 = u := by
    simp [str_offset, String.data_append]
  simp [fsname_keys, h1, h2]

/-- The loop over the symlinks keeps the list built so far and only adds copies of the entry. -/
theorem symlinks_foldl_mem (device : String) (entry e : StoragedFstabEntry)
    (symlinks : List String) :
    ∀ ret : List StoragedFstabEntry,
      (e ∈ ret → e ∈ symlinks.foldl
        (fun r symlink => if g_strcmp0_eq (some device) (some symlink) then entry :: r else r)
        ret) ∧
      (e ∈ symlinks.foldl
        (fun r symlink => if g_strcmp0_eq (some device) (some symlink) then entry :: r else r)
        ret → e ∈ ret ∨ e = entry) := by
  induction symlinks with
  | nil => intro ret; exact ⟨fun h => h, fun h => Or.inl h⟩
  | cons x rest ih =>
    intro ret
    simp only [List.foldl_cons]
    constructor
    · intro h
      apply (ih _).1
      split
      · exact List.mem_cons_of_mem _ h
      · exact h
    · intro h
      rcases (ih _).2 h with h1 | h1
      · split at h1
        · rcases List.mem_cons.1 h1 with h2 | h2
          · exact Or.inr h2
          · exact Or.inl h2
        · exact Or.inl h1
      · exact Or.inr h1

/-- One iteration keeps the list built so far and only adds copies of its entry. -/
theorem find_fstab_entries_step_mem (block : StoragedBlock)
    (object_u_dev : Option (Option GUdevDevice)) (ret : List StoragedFstabEntry)
    (entry e : StoragedFstabEntry) :
    (e ∈ ret → e ∈ find_fstab_entries_step block object_u_dev ret entry) ∧
      (e ∈ find_fstab_entries_step block object_u_dev ret entry → e ∈ ret ∨ e = entry) := by
  have hcons : (e ∈ ret → e ∈ entry :: ret) ∧ (e ∈ entry :: ret → e ∈ ret ∨ e = entry) :=
    ⟨fun h => List.mem_cons_of_mem _ h, fun h => (List.mem_cons.1 h).symm⟩
  have hid : (e ∈ ret → e ∈ ret) ∧ (e ∈ ret → e ∈ ret ∨ e = entry) :=
    ⟨fun h => h, fun h => Or.inl h⟩
  unfold find_fstab_entries_step
  split
  · exact hid
  · split
    · split
      · exact hcons
      · split
        · exact symlinks_foldl_mem _ entry e _ ret
        · exact hid
    · split
      · exact hcons
      · split
        · exact hcons
        · split
          · split
            · exact hid
            · exact hid
            · split
              · exact hcons
              · exact hid
          · exact hid

/-- On an entry whose fsname is UUID= followed by u, one iteration adds the
entry exactly when the IdUUID of the block is u. -/
theorem find_fstab_entries_step_uuid (block : StoragedBlock)
    (object_u_dev : Option (Option GUdevDevice)) (ret : List StoragedFstabEntry)
    (entry : StoragedFstabEntry) (u : String) (hfs : entry.fsname = "UUID=" ++ u) :
    find_fstab_entries_step block object_u_dev ret entry
      = if block.id_uuid = some u then entry :: ret else ret := by
  unfold find_fstab_entries_step
  rw [hfs, fsname_keys_uuid]
  by_cases h : block.id_uuid = some u
  · simp [g_strcmp0_eq, h]
  · have h2 : ¬ (some u = block.id_uuid) := fun hc => h hc.symm
    simp [g_strcmp0_eq, h, h2]

/-- Membership in the result of the loop of find_fstab_entries_for_device, for
an entry with a UUID= fsname, started from any list built so far. -/
theorem find_fstab_entries_foldl_uuid (block : StoragedBlock)
    (object_u_dev : Option (Option GUdevDevice)) (e : StoragedFstabEntry) (u : String)
    (hfs : e.fsname = "UUID=" ++ u) (entries : List StoragedFstabEntry) :
    ∀ ret : List StoragedFstabEntry,
      (e ∈ entries.foldl (find_fstab_entries_step block object_u_dev) ret ↔
        e ∈ ret ∨ (e ∈ entries ∧ block.id_uuid = some u)) := by
  induction entries with
  | nil => intro ret; simp
  | cons x rest ih =>
    intro ret
    simp only [List.foldl_cons]
    rw [ih]
    have hs := find_fstab_entries_step_mem block object_u_dev ret x e
    constructor
    · rintro (h | ⟨h1, h2⟩)
      · rcases hs.2 h with h3 | h3
        · exact Or.inl h3
        · subst h3
          rw [find_fstab_entries_step_uuid block object_u_dev ret e u hfs] at h
          by_cases hu : block.id_uuid = some u
          · exact Or.inr ⟨List.mem_cons_self _ _, hu⟩
          · rw [if_neg hu] at h; exact Or.inl h
      · exact Or.inr ⟨List.mem_cons_of_mem _ h1, h2⟩
    · rintro (h | ⟨h1, h2⟩)
      · exact Or.inl (hs.1 h)
      · rcases List.mem_cons.1 h1 with h3 | h3
        · subst h3
          left
          rw [find_fstab_entries_step_uuid block object_u_dev ret e u hfs, if_pos h2]
          exact List.mem_cons_self _ _
        · exact Or.inr ⟨h3, h2⟩

/-- C3: for every fstab entry whose fsname is UUID= followed by u and every
block, find_fstab_entries_for_device includes the entry if and only if the
IdUUID of the block equals u exactly; the device path and the symlinks of the
block play no part. -/
theorem find_fstab_entries_uuid_iff (block : StoragedBlock)
    (object_u_dev : Option (Option GUdevDevice)) (entries : List StoragedFstabEntry)
    (e : StoragedFstabEntry) (u : String) (hfs : e.fsname = "UUID=" ++ u)
    (hmem : e ∈ entries) :
    e ∈ find_fstab_entries_for_device block object_u_dev entries ↔ block.id_uuid = some u := by
  unfold find_fstab_entries_for_device
  rw [find_fstab_entries_foldl_uuid block object_u_dev e u hfs entries []]
  simp [hmem]

/-- Witness of C3: the record UUID=ABCD is found for a block with IdUUID ABCD
whose device path and symlinks name another device. -/
theorem find_fstab_entries_uuid_iff_witness :
    (⟨"UUID=ABCD", "/mnt", "ext4", "defaults", 0, 0⟩ : StoragedFstabEntry)
        ∈ find_fstab_entries_for_device
            { device := some "/dev/sdb1", symlinks := some ["/dev/disk/by-id/x"],
              id_uuid := some "ABCD" } none
            [⟨"/dev/sda1", "/", "ext4", "defaults", 0, 1⟩,
              ⟨"UUID=ABCD", "/mnt", "ext4", "defaults", 0, 0⟩] ↔
      ({ device := some "/dev/sdb1", symlinks := some ["/dev/disk/by-id/x"],
         id_uuid := some "ABCD" } : StoragedBlock).id_uuid = some "ABCD" :=
  find_fstab_entries_uuid_iff _ none _ _ "ABCD" rfl (by simp)

/-! ### Zero erase -/

/-- C4 (as stated, refuted): on a device of 2 bytes whose write calls write one
byte each, the job is not cancelled and no write reports an error, yet
erase_device performs two write calls while ceil (2 / ERASE_SIZE) is 1. -/
theorem erase_device_short_writes_more_calls :
    (erase_device (short_write_env 2 1) (some "zero") 5).map
        (fun r => (r.ret, r.error, r.pos, erase_writes r.events))
      = some (true, none, 2, [2, 1]) ∧
    (2 + ERASE_SIZE - 1) / ERASE_SIZE = 1 := by
  decide

/-- The write loop with complete writes and no cancellation: from pos it ends
without error at pos = size after the remaining ceil ((size - pos) / ERASE_SIZE)
write calls, call number i asking for min (ERASE_SIZE, size - pos - i * ERASE_SIZE). -/
theorem erase_loop_complete_writes (env : EraseEnv) (size : Nat) (hsize : size < 2 ^ 64)
    (hw : ∀ calls n, 0 < n → n ≤ ERASE_SIZE → (env.write calls n).num_written = (n : Int))
    (hc : ∀ checks, env.is_cancelled checks = false) :
    ∀ (m fuel pos calls checks : Nat), pos ≤ size →
      (size - pos + ERASE_SIZE - 1) / ERASE_SIZE = m → m ≤ fuel →
      ∃ events, erase_loop env size fuel pos calls checks = some ⟨none, size, events⟩ ∧
        erase_writes events
          = (List.range m).map (fun i => min ERASE_SIZE (size - pos - i * ERASE_SIZE)) ∧
        (erase_writes events).sum = size - pos := by
  intro m
  induction m with
  | zero =>
    intro fuel pos calls checks hpos hm _
    have hp : pos = size := by
      simp only [ERASE_SIZE] at hm
      omega
    subst hp
    refine ⟨[], ?_, ?_, ?_⟩
    · unfold erase_loop; simp
    · rfl
    · simp [erase_writes]
  | succ m ih =>
    intro fuel pos calls checks hpos hm hfuel
    have hlt : pos < size := by
      simp only [ERASE_SIZE] at hm
      omega
    obtain ⟨fuel1, rfl⟩ : ∃ f, fuel = f + 1 := ⟨fuel - 1, by omega⟩
    have htw : 0 < min (size - pos) ERASE_SIZE := by
      simp only [ERASE_SIZE]; omega
    have hwr := hw calls (min (size - pos) ERASE_SIZE) htw (Nat.min_le_right _ _)
    have hle : min (size - pos) ERASE_SIZE ≤ size - pos := Nat.min_le_left _ _
    have hpos1 : (pos + min (size - pos) ERASE_SIZE) % 2 ^ 64
        = pos + min (size - pos) ERASE_SIZE := by
      apply Nat.mod_eq_of_lt; omega
    have hm1 : (size - (pos + min (size - pos) ERASE_SIZE) + ERASE_SIZE - 1) / ERASE_SIZE = m := by
      simp only [ERASE_SIZE] at hm ⊢
      omega
    obtain ⟨ev, hev, hwrites, hsum⟩ := ih fuel1 (pos + min (size - pos) ERASE_SIZE)
      (calls + 1) (checks + 1) (by omega) hm1 (by omega)
    refine ⟨.write (min (size - pos) ERASE_SIZE) :: .is_cancelled false :: ev, ?_, ?_, ?_⟩
    · rw [erase_loop]
      have hne1 : ¬ ((min (size - pos) ERASE_SIZE : Nat) : Int) = -1 := by omega
      have hne0 : ¬ ((min (size - pos) ERASE_SIZE : Nat) : Int) = 0 := by omega
      have hb : ((((min (size - pos) ERASE_SIZE : Nat) : Int) == -1)
          || (((min (size - pos) ERASE_SIZE : Nat) : Int) == 0)) = false := by
        rw [Bool.or_eq_false_iff]
        exact ⟨beq_false_of_ne hne1, beq_false_of_ne hne0⟩
      simp only [hlt, if_true, hwr, hb, Bool.false_eq_true,
        if_false, Int.toNat_ofNat, hpos1, hc, hev, Option.map_some']
    · simp only [erase_writes, hwrites, List.range_succ_eq_map, List.map_cons, List.map_map]
      congr 1
      · simp only [Nat.zero_mul, Nat.sub_zero]; exact Nat.min_comm _ _
      · apply List.map_congr_left
        intro i hi
        have him : i < m := List.mem_range.1 hi
        simp only [Function.comp, ERASE_SIZE] at hm1 ⊢
        omega
    · simp only [erase_writes, List.sum_cons, hsum]
      omega

/-- C4 (amended): for erase type zero on a device of every size S, when the
job is not cancelled and every write call writes all the bytes asked for,
erase_device succeeds after exactly ceil (S / ERASE_SIZE) write calls, call
number i asking for min (ERASE_SIZE, S - i * ERASE_SIZE) bytes, and the bytes
written total S. -/
theorem erase_device_zero_complete_writes (env : EraseEnv) (size fuel : Nat)
    (hopen : env.open_succeeds = true) (hioctl : env.blkgetsize64 = some size)
    (hsize : size < 2 ^ 64)
    (hw : ∀ calls n, 0 < n → n ≤ ERASE_SIZE → (env.write calls n).num_written = (n : Int))
    (hc : ∀ checks, env.is_cancelled checks = false)
    (hfuel : (size + ERASE_SIZE - 1) / ERASE_SIZE ≤ fuel) :
    ∃ r, erase_device env (some "zero") fuel = some r ∧ r.ret = true ∧ r.error = none ∧
      erase_writes r.events
        = (List.range ((size + ERASE_SIZE - 1) / ERASE_SIZE)).map
            (fun i => min ERASE_SIZE (size - i * ERASE_SIZE)) ∧
      (erase_writes r.events).length = (size + ERASE_SIZE - 1) / ERASE_SIZE ∧
      (erase_writes r.events).sum = size ∧ r.pos = size := by
  obtain ⟨ev, hev, hwrites, hsum⟩ := erase_loop_complete_writes env size hsize hw hc
    ((size + ERASE_SIZE - 1) / ERASE_SIZE) fuel 0 0 0 (Nat.zero_le _) (by simp) hfuel
  have hwr : ∀ pre post : List EraseEvent, erase_writes pre = [] → erase_writes post = [] →
      erase_writes (pre ++ ev ++ post) = erase_writes ev := by
    intro pre post h1 h2
    have happ : ∀ a b : List EraseEvent, erase_writes (a ++ b)
        = erase_writes a ++ erase_writes b := by
      intro a b
      induction a with
      | nil => rfl
      | cons e rest ih => cases e <;> simp [erase_writes, ih]
    rw [happ, happ, h1, h2]; simp
  refine ⟨⟨true, none, size, [.open_device, .launch_job, .ioctl_size] ++ ev
    ++ [.job_complete true, .close_device]⟩, ?_, rfl, rfl, ?_, ?_, ?_, rfl⟩
  · simp [erase_device, g_strcmp0_eq, hopen, hioctl, hev]
  · rw [hwr [.open_device, .launch_job, .ioctl_size] [.job_complete true, .close_device]
      rfl rfl, hwrites]
    simp
  · rw [hwr [.open_device, .launch_job, .ioctl_size] [.job_complete true, .close_device]
      rfl rfl, hwrites]
    simp
  · rw [hwr [.open_device, .launch_job, .ioctl_size] [.job_complete true, .close_device]
      rfl rfl, hsum]
    simp

/-- Witness of C4 (amended): a device of 3000000 bytes is erased by three
complete write calls. -/
theorem erase_device_zero_complete_writes_witness :
    ∃ r, erase_device (short_write_env 3000000 ERASE_SIZE) (some "zero") 3 = some r ∧
      r.ret = true ∧
      r.error = none ∧
      erase_writes r.events
        = (List.range ((3000000 + ERASE_SIZE - 1) / ERASE_SIZE)).map
            (fun i => min ERASE_SIZE (3000000 - i * ERASE_SIZE)) ∧
      (erase_writes r.events).length = (3000000 + ERASE_SIZE - 1) / ERASE_SIZE ∧
      (erase_writes r.events).sum = 3000000 ∧ r.pos = 3000000 :=
  erase_device_zero_complete_writes (short_write_env 3000000 ERASE_SIZE) 3000000 3 rfl rfl
    (by norm_num)
    (fun _ n _ hn => by simp only [short_write_env]; rw [Nat.min_eq_left hn])
    (fun _ => rfl) (by decide)

/-- The write loop when the cancellation is seen at the check after m more
successful write calls: it ends with the error Cancelled right after that
check, having made m + 1 write calls, none of them after the check. -/
theorem erase_loop_cancelled (env : EraseEnv) (size : Nat) (hsize : size < 2 ^ 64) :
    ∀ (m fuel pos calls checks : Nat), pos + m * ERASE_SIZE < size →
      (∀ j, j ≤ m → ∀ n, 0 < n → n ≤ ERASE_SIZE →
        1 ≤ (env.write (calls + j) n).num_written ∧
          (env.write (calls + j) n).num_written ≤ (n : Int)) →
      (∀ j, j < m → env.is_cancelled (checks + j) = false) →
      env.is_cancelled (checks + m) = true → m + 1 ≤ fuel →
      ∃ pos1 pre, erase_loop env size fuel pos calls checks
          = some ⟨some ⟨.CANCELLED, "Job was canceled"⟩, pos1, pre ++ [.is_cancelled true]⟩ ∧
        (erase_writes pre).length = m + 1 ∧ EraseEvent.is_cancelled true ∉ pre := by
  intro m
  induction m with
  | zero =>
    intro fuel pos calls checks hpos hw _ hcan hfuel
    obtain ⟨fuel1, rfl⟩ : ∃ f, fuel = f + 1 := ⟨fuel - 1, by omega⟩
    have hlt : pos < size := by omega
    have htw : 0 < min (size - pos) ERASE_SIZE := by
      simp only [ERASE_SIZE]; omega
    obtain ⟨h1, _⟩ := hw 0 (Nat.le_refl _) (min (size - pos) ERASE_SIZE) htw
      (Nat.min_le_right _ _)
    rw [Nat.add_zero] at h1 hcan
    have hb : (((env.write calls (min (size - pos) ERASE_SIZE)).num_written == -1)
        || ((env.write calls (min (size - pos) ERASE_SIZE)).num_written == 0)) = false := by
      rw [Bool.or_eq_false_iff]
      exact ⟨beq_false_of_ne (by omega), beq_false_of_ne (by omega)⟩
    refine ⟨(pos + (env.write calls (min (size - pos) ERASE_SIZE)).num_written.toNat) % 2 ^ 64,
      [.write (min (size - pos) ERASE_SIZE)], ?_, rfl, by simp⟩
    rw [erase_loop]
    simp only [hlt, if_true, hb, Bool.false_eq_true, if_false, hcan, List.singleton_append]
  | succ m ih =>
    intro fuel pos calls checks hpos hw hnc hcan hfuel
    obtain ⟨fuel1, rfl⟩ : ∃ f, fuel = f + 1 := ⟨fuel - 1, by omega⟩
    have hmul : (m + 1) * ERASE_SIZE = m * ERASE_SIZE + ERASE_SIZE := Nat.succ_mul _ _
    have hlt : pos < size := by omega
    have htw : 0 < min (size - pos) ERASE_SIZE := by
      simp only [ERASE_SIZE]; omega
    obtain ⟨h1, h2⟩ := hw 0 (Nat.zero_le _) (min (size - pos) ERASE_SIZE) htw
      (Nat.min_le_right _ _)
    rw [Nat.add_zero] at h1 h2
    have hnc0 : env.is_cancelled checks = false := by
      have := hnc 0 (Nat.succ_pos _)
      rwa [Nat.add_zero] at this
    have hb : (((env.write calls (min (size - pos) ERASE_SIZE)).num_written == -1)
        || ((env.write calls (min (size - pos) ERASE_SIZE)).num_written == 0)) = false := by
      rw [Bool.or_eq_false_iff]
      exact ⟨beq_false_of_ne (by omega), beq_false_of_ne (by omega)⟩
    have hle : min (size - pos) ERASE_SIZE ≤ ERASE_SIZE := Nat.min_le_right _ _
    have hle2 : min (size - pos) ERASE_SIZE ≤ size - pos := Nat.min_le_left _ _
    have hn : (env.write calls (min (size - pos) ERASE_SIZE)).num_written.toNat
        ≤ min (size - pos) ERASE_SIZE := by omega
    have hpos1 : (pos + (env.write calls (min (size - pos) ERASE_SIZE)).num_written.toNat)
        % 2 ^ 64 = pos + (env.write calls (min (size - pos) ERASE_SIZE)).num_written.toNat := by
      apply Nat.mod_eq_of_lt; omega
    obtain ⟨pos2, pre, hev, hlen, hnot⟩ := ih fuel1
      (pos + (env.write calls (min (size - pos) ERASE_SIZE)).num_written.toNat)
      (calls + 1) (checks + 1) (by omega)
      (fun j hj n hn0 hn1 => by
        have := hw (j + 1) (by omega) n hn0 hn1
        rwa [show calls + (j + 1) = calls + 1 + j by omega] at this)
      (fun j hj => by
        have := hnc (j + 1) (by omega)
        rwa [show checks + (j + 1) = checks + 1 + j by omega] at this)
      (by rwa [show checks + (m + 1) = checks + 1 + m by omega] at hcan)
      (by omega)
    refine ⟨pos2, .write (min (size - pos) ERASE_SIZE) :: .is_cancelled false :: pre,
      ?_, ?_, ?_⟩
    · rw [erase_loop]
      simp only [hlt, if_true, hb, Bool.false_eq_true, if_false, hnc0, hpos1, hev,
        Option.map_some', List.cons_append]
    · simp only [erase_writes, List.length_cons, hlen]
    · simp only [List.mem_cons, not_or]
      exact ⟨by simp, by simp, hnot⟩

/-- C5: for every k (at least one chunk), if the first k write calls of the
zero erase succeed and the job reads as cancelled for the first time at the
check that follows the k-th of them, erase_device fails with the error code
Cancelled, after exactly k write calls: the cancellation check is followed
only by the completion of the job and the close of the device. -/
theorem erase_device_cancelled_after_k_chunks (env : EraseEnv) (size fuel k : Nat)
    (hopen : env.open_succeeds = true) (hioctl : env.blkgetsize64 = some size)
    (hsize : size < 2 ^ 64) (hk : 1 ≤ k) (hchunks : (k - 1) * ERASE_SIZE < size)
    (hw : ∀ j, j < k → ∀ n, 0 < n → n ≤ ERASE_SIZE →
      1 ≤ (env.write j n).num_written ∧ (env.write j n).num_written ≤ (n : Int))
    (hnc : ∀ j, j + 1 < k → env.is_cancelled j = false)
    (hcan : env.is_cancelled (k - 1) = true) (hfuel : k ≤ fuel) :
    ∃ r pre, erase_device env (some "zero") fuel = some r ∧ r.ret = false ∧
      r.error = some ⟨.CANCELLED, "Job was canceled"⟩ ∧
      r.events = pre ++ [.is_cancelled true, .job_complete false, .close_device] ∧
      (erase_writes pre).length = k ∧ EraseEvent.is_cancelled true ∉ pre := by
  obtain ⟨pos1, pre, hev, hlen, hnot⟩ := erase_loop_cancelled env size hsize (k - 1) fuel 0 0 0
    (by omega)
    (fun j hj n hn0 hn1 => by
      have := hw j (by omega) n hn0 hn1
      rwa [show (0 : Nat) + j = j by omega])
    (fun j hj => by
      have := hnc j (by omega)
      rwa [show (0 : Nat) + j = j by omega])
    (by rwa [show (0 : Nat) + (k - 1) = k - 1 by omega]) (by omega)
  refine ⟨⟨false, some ⟨.CANCELLED, "Job was canceled"⟩, pos1,
    [.open_device, .launch_job, .ioctl_size] ++ (pre ++ [.is_cancelled true])
      ++ [.job_complete false, .close_device]⟩,
    [.open_device, .launch_job, .ioctl_size] ++ pre, ?_, rfl, rfl, by simp, ?_, ?_⟩
  · simp [erase_device, g_strcmp0_eq, hopen, hioctl, hev]
  · have : erase_writes ([.open_device, .launch_job, .ioctl_size] ++ pre) = erase_writes pre := rfl
    rw [this, hlen]; omega
  · simp only [List.cons_append, List.nil_append, List.mem_cons, not_or]
    exact ⟨by simp, by simp, by simp, hnot⟩

/-- Witness of C5: on a device of 3000000 bytes a job cancelled after two
chunks ends with Cancelled and the third chunk is not written. -/
theorem erase_device_cancelled_after_k_chunks_witness :
    ∃ r pre, erase_device (cancel_env 3000000 1) (some "zero") 5 = some r ∧ r.ret = false ∧
      r.error = some ⟨.CANCELLED, "Job was canceled"⟩ ∧
      r.events = pre ++ [.is_cancelled true, .job_complete false, .close_device] ∧
      (erase_writes pre).length = 2 ∧ EraseEvent.is_cancelled true ∉ pre :=
  erase_device_cancelled_after_k_chunks (cancel_env 3000000 1) 3000000 5 2 rfl rfl
    (by norm_num) (by decide) (by decide)
    (fun _ _ n hn0 _ => by simp only [cancel_env]; omega)
    (fun j hj => by
      have : j = 0 := by omega
      subst this; rfl)
    rfl (by decide)

/-! ### Teardown -/

/-- C6 (as stated, refuted): on a disk with one partition holding a filesystem
mounted at /mnt and one locked encrypted partition, with every removal
succeeding, storaged_linux_block_teardown returns TRUE without any error,
and it has entered the walker for the encrypted partition and removed its
child configuration. -/
theorem teardown_ignores_mounts :
    (storaged_linux_block_teardown teardown_env_ok
        (mounted_and_locked_daemon ["/mnt"] [] [("fstab", [("dir", "/mnt")])] []
          [("crypttab", [("name", "luks-x")])])
        (sda_object []) () 2).map (fun r => (r.error, r.events))
      = some (none,
          [.walker (some "/block_devices/sda1") true,
           .remove_fstab_entry [("dir", "/mnt")],
           .walker (some "/block_devices/sda2") true,
           .remove_crypttab_entry [("name", "luks-x")],
           .walker (some "/block_devices/sda") false]) := by
  decide

/-- When no removal fails, storaged_linux_remove_configuration returns TRUE
after one removal call per fstab or crypttab item, in order. -/
theorem remove_configuration_ok {ω : Type} (env : TeardownEnv ω)
    (hf : ∀ d st, ∃ st1, env.remove_fstab_entry d st = .ok st1)
    (hc : ∀ d st, ∃ st1, env.remove_crypttab_entry d st = .ok st1)
    (conf : List ConfigurationItem) :
    ∀ st, (storaged_linux_remove_configuration env conf st).error = none ∧
      (storaged_linux_remove_configuration env conf st).events = removal_events conf := by
  induction conf with
  | nil => intro st; exact ⟨rfl, rfl⟩
  | cons item rest ih =>
    intro st
    obtain ⟨item_type, details⟩ := item
    simp only [storaged_linux_remove_configuration, removal_events]
    by_cases h1 : item_type = "fstab"
    · obtain ⟨st1, hst1⟩ := hf details st
      simp only [h1, if_true, hst1]
      exact ⟨(ih st1).1, by rw [(ih st1).2]⟩
    · by_cases h2 : item_type = "crypttab"
      · obtain ⟨st1, hst1⟩ := hc details st
        subst h2
        have hne : ¬ ("crypttab" = "fstab") := by decide
        simp only [hne, if_true, if_false, hst1]
        exact ⟨(ih st1).1, by rw [(ih st1).2]⟩
      · simp only [h1, h2, if_false]
        exact ih st

/-- When no removal fails, the walker on an object without encrypted interface
removes the configuration of its block and returns TRUE. -/
theorem teardown_block_walker_plain {ω : Type} (env : TeardownEnv ω)
    (hf : ∀ d st, ∃ st1, env.remove_fstab_entry d st = .ok st1)
    (hc : ∀ d st, ∃ st1, env.remove_crypttab_entry d st = .ok st1)
    (daemon : StoragedDaemon) (o : DaemonObject) (b : StoragedBlock) (is_leaf : Bool) (st : ω)
    (hb : o.block = some b) (he : o.encrypted = none) :
    (teardown_block_walker env daemon (some o) is_leaf st).error = none ∧
      (teardown_block_walker env daemon (some o) is_leaf st).events
        = .walker (some o.object_path) is_leaf :: removal_events b.configuration := by
  have h := remove_configuration_ok env hf hc b.configuration st
  simp only [teardown_block_walker, hb, he, Option.map_some', List.singleton_append]
  exact ⟨h.1, by rw [h.2]⟩

/-- When no removal fails, the walker on a locked encrypted object removes the
child configuration, then the configuration of its block, and returns TRUE. -/
theorem teardown_block_walker_locked {ω : Type} (env : TeardownEnv ω)
    (hf : ∀ d st, ∃ st1, env.remove_fstab_entry d st = .ok st1)
    (hc : ∀ d st, ∃ st1, env.remove_crypttab_entry d st = .ok st1)
    (daemon : StoragedDaemon) (o : DaemonObject) (b : StoragedBlock) (enc : StoragedEncrypted)
    (is_leaf : Bool) (st : ω)
    (hb : o.block = some b) (he : o.encrypted = some enc)
    (hlocked : get_cleartext_block daemon (some o) = none) :
    (teardown_block_walker env daemon (some o) is_leaf st).error = none ∧
      (teardown_block_walker env daemon (some o) is_leaf st).events
        = .walker (some o.object_path) is_leaf ::
            (removal_events enc.child_configuration ++ removal_events b.configuration) := by
  have h1 := remove_configuration_ok env hf hc enc.child_configuration st
  have h2 := remove_configuration_ok env hf hc b.configuration
    (storaged_linux_remove_configuration env enc.child_configuration st).state
  simp only [teardown_block_walker, hb, he, hlocked, Option.map_some', h1.1, h1.2,
    List.cons_append]
  exact ⟨h2.1, by rw [h2.2]⟩

/-- C6 (amended): storaged_linux_block_teardown on a disk with one partition
holding a mounted filesystem and one locked encrypted partition never looks at
the mount: when no configuration removal fails it returns TRUE, having removed
in this order the configuration of the mounted partition, the child
configuration and the configuration of the locked encrypted partition, and the
configuration of the disk. -/
theorem teardown_mounted_and_locked {ω : Type} (env : TeardownEnv ω)
    (hf : ∀ d st, ∃ st1, env.remove_fstab_entry d st = .ok st1)
    (hc : ∀ d st, ∃ st1, env.remove_crypttab_entry d st = .ok st1)
    (mount_points : List String)
    (disk_conf fs_conf enc_conf child_conf : List ConfigurationItem) (st : ω) (fuel : Nat)
    (hfuel : 2 ≤ fuel) :
    ∃ r, storaged_linux_block_teardown env
        (mounted_and_locked_daemon mount_points disk_conf fs_conf enc_conf child_conf)
        (sda_object disk_conf) st fuel = some r ∧
      r.error = none ∧
      r.events =
        .walker (some "/block_devices/sda1") true :: removal_events fs_conf
        ++ .walker (some "/block_devices/sda2") true ::
            (removal_events child_conf ++ removal_events enc_conf)
        ++ .walker (some "/block_devices/sda") false :: removal_events disk_conf := by
  obtain ⟨f, rfl⟩ : ∃ f, fuel = f + 2 := ⟨fuel - 2, by omega⟩
  have hp0 : walk_block_partitions
      (mounted_and_locked_daemon mount_points disk_conf fs_conf enc_conf child_conf)
      (some (sda_object disk_conf))
      = [sda1_object mount_points fs_conf, sda2_object enc_conf child_conf] := by
    simp [walk_block_partitions, mounted_and_locked_daemon, sda_object, sda1_object,
      sda2_object, get_partitions]
  have hp1 : walk_block_partitions
      (mounted_and_locked_daemon mount_points disk_conf fs_conf enc_conf child_conf)
      (some (sda1_object mount_points fs_conf)) = [] := by
    simp [walk_block_partitions, sda1_object]
  have hp2 : walk_block_partitions
      (mounted_and_locked_daemon mount_points disk_conf fs_conf enc_conf child_conf)
      (some (sda2_object enc_conf child_conf)) = [] := by
    simp [walk_block_partitions, sda2_object]
  have hc0 : ∀ o, get_cleartext_block
      (mounted_and_locked_daemon mount_points disk_conf fs_conf enc_conf child_conf)
      (some o) = none := by
    intro o
    simp [get_cleartext_block, mounted_and_locked_daemon, sda_object, sda1_object,
      sda2_object, g_strcmp0_eq]
  have hw1 := teardown_block_walker_plain env hf hc
    (mounted_and_locked_daemon mount_points disk_conf fs_conf enc_conf child_conf)
    (sda1_object mount_points fs_conf) _ true st rfl rfl
  have hw2 := teardown_block_walker_locked env hf hc
    (mounted_and_locked_daemon mount_points disk_conf fs_conf enc_conf child_conf)
    (sda2_object enc_conf child_conf) _ _ true
    (teardown_block_walker env
      (mounted_and_locked_daemon mount_points disk_conf fs_conf enc_conf child_conf)
      (some (sda1_object mount_points fs_conf)) true st).state rfl rfl (hc0 _)
  have hw0 := teardown_block_walker_plain env hf hc
    (mounted_and_locked_daemon mount_points disk_conf fs_conf enc_conf child_conf)
    (sda_object disk_conf) _ false
    (teardown_block_walker env
      (mounted_and_locked_daemon mount_points disk_conf fs_conf enc_conf child_conf)
      (some (sda2_object enc_conf child_conf)) true
      (teardown_block_walker env
        (mounted_and_locked_daemon mount_points disk_conf fs_conf enc_conf child_conf)
        (some (sda1_object mount_points fs_conf)) true st).state).state rfl rfl
  have hleaf : ∀ (o : DaemonObject) (s : ω),
      walk_block_partitions
        (mounted_and_locked_daemon mount_points disk_conf fs_conf enc_conf child_conf)
        (some o) = [] →
      walk_block (mounted_and_locked_daemon mount_points disk_conf fs_conf enc_conf child_conf)
        (teardown_block_walker env) (f + 1) (some o) s
        = some ⟨(teardown_block_walker env
            (mounted_and_locked_daemon mount_points disk_conf fs_conf enc_conf child_conf)
            (some o) true s).error,
          (teardown_block_walker env
            (mounted_and_locked_daemon mount_points disk_conf fs_conf enc_conf child_conf)
            (some o) true s).state,
          (teardown_block_walker env
            (mounted_and_locked_daemon mount_points disk_conf fs_conf enc_conf child_conf)
            (some o) true s).events⟩ := by
    intro o s hp
    simp [walk_block, hp, hc0, walk_block_children]
  have hl1 := hleaf (sda1_object mount_points fs_conf) st hp1
  have hl2 := hleaf (sda2_object enc_conf child_conf) (teardown_block_walker env
      (mounted_and_locked_daemon mount_points disk_conf fs_conf enc_conf child_conf)
      (some (sda1_object mount_points fs_conf)) true st).state hp2
  have hres : storaged_linux_block_teardown env
      (mounted_and_locked_daemon mount_points disk_conf fs_conf enc_conf child_conf)
      (sda_object disk_conf) st (f + 2)
      = some ⟨(teardown_block_walker env
      (mounted_and_locked_daemon mount_points disk_conf fs_conf enc_conf child_conf)
      (some (sda_object disk_conf)) false (teardown_block_walker env
      (mounted_and_locked_daemon mount_points disk_conf fs_conf enc_conf child_conf)
      (some (sda2_object enc_conf child_conf)) true (teardown_block_walker env
      (mounted_and_locked_daemon mount_points disk_conf fs_conf enc_conf child_conf)
      (some (sda1_object mount_points fs_conf)) true st).state).state).error, (teardown_block_walker env
      (mounted_and_locked_daemon mount_points disk_conf fs_conf enc_conf child_conf)
      (some (sda_object disk_conf)) false (teardown_block_walker env
      (mounted_and_locked_daemon mount_points disk_conf fs_conf enc_conf child_conf)
      (some (sda2_object enc_conf child_conf)) true (teardown_block_walker env
      (mounted_and_locked_daemon mount_points disk_conf fs_conf enc_conf child_conf)
      (some (sda1_object mount_points fs_conf)) true st).state).state).state,
          (teardown_block_walker env
      (mounted_and_locked_daemon mount_points disk_conf fs_conf enc_conf child_conf)
      (some (sda1_object mount_points fs_conf)) true st).events ++ (teardown_block_walker env
      (mounted_and_locked_daemon mount_points disk_conf fs_conf enc_conf child_conf)
      (some (sda2_object enc_conf child_conf)) true (teardown_block_walker env
      (mounted_and_locked_daemon mount_points disk_conf fs_conf enc_conf child_conf)
      (some (sda1_object mount_points fs_conf)) true st).state).events ++ (teardown_block_walker env
      (mounted_and_locked_daemon mount_points disk_conf fs_conf enc_conf child_conf)
      (some (sda_object disk_conf)) false (teardown_block_walker env
      (mounted_and_locked_daemon mount_points disk_conf fs_conf enc_conf child_conf)
      (some (sda2_object enc_conf child_conf)) true (teardown_block_walker env
      (mounted_and_locked_daemon mount_points disk_conf fs_conf enc_conf child_conf)
      (some (sda1_object mount_points fs_conf)) true st).state).state).events⟩ := by
    rw [storaged_linux_block_teardown, walk_block]
    simp only [hp0, walk_block_children, hl1, hl2, hw1.1, hw2.1, hc0, Option.map_some',
      List.isEmpty_cons, Bool.false_and, List.append_nil]
  refine ⟨_, hres, hw0.1, ?_⟩
  simp only [hw0.2, hw1.2, hw2.2]
  simp only [sda_object, sda1_object, sda2_object, List.append_assoc, List.cons_append]

/-- Witness of C6 (amended): the disk of the counterexample. -/
theorem teardown_mounted_and_locked_witness :
    ∃ r, storaged_linux_block_teardown teardown_env_ok
        (mounted_and_locked_daemon ["/mnt"] [] [("fstab", [("dir", "/mnt")])] []
          [("crypttab", [("name", "luks-x")])])
        (sda_object []) () 2 = some r ∧
      r.error = none ∧
      r.events =
        .walker (some "/block_devices/sda1") true ::
          removal_events [("fstab", [("dir", "/mnt")])]
        ++ .walker (some "/block_devices/sda2") true ::
            (removal_events [("crypttab", [("name", "luks-x")])] ++ removal_events [])
        ++ .walker (some "/block_devices/sda") false :: removal_events [] :=
  teardown_mounted_and_locked teardown_env_ok (fun _ _ => ⟨(), rfl⟩) (fun _ _ => ⟨(), rfl⟩)
    ["/mnt"] [] [("fstab", [("dir", "/mnt")])] [] [("crypttab", [("name", "luks-x")])] () 2
    (Nat.le_refl _)

/-! ### The Format workflow -/

/-- C7: Format of an already-empty device with a supported type and no option
set performs, when every step succeeds, exactly the steps authorization, wipe,
wait for empty, creation of the type (by the creation command, or by the
partition table primitive for dos and gpt), wait for the type, success reply;
between them only the inhibit, the uevent triggers and the release of the
inhibit occur, and no teardown, erase, encryption, ownership, partition type
or configuration step. -/
theorem format_plain_workflow (env : FormatEnv) (type : String) (fs_info : FSInfo)
    (command_create_fs : String)
    (hdup : env.dup_object = none)
    (hpart : ∀ p, env.partition = some p → p.offset ≠ 0)
    (huid : ∃ ids, env.get_caller_uid = .ok ids)
    (hfs : env.get_fs_info type = some fs_info)
    (hcmd : fs_info.command_create_fs = some command_create_fs)
    (hauth : env.check_authorization (format_action_id env {}) = true)
    (hempty : env.was_partitioned = false)
    (hspawn : ∀ command_line, env.launch_spawned_job command_line none = none)
    (hwait : ∀ t, env.wait_for_filesystem .original t = none)
    (htable : env.bd_part_create_table type = none) :
    let wipe : FormatEvent := .spawned_job .original "format-erase"
      ("wipefs -a " ++ env.escape_and_quote (env.block.device.getD "")) none
    let create : FormatEvent :=
      if env.HAVE_LIBBLOCKDEV_PART && (type = "dos" || type = "gpt") then
        .part_create_table .original type
      else
        .spawned_job .original "format-mkfs"
          (subst_str
            (subst_str command_create_fs "$DEVICE"
              (env.escape_and_quote (env.block.device.getD "")))
            "$LABEL" (env.escape_and_quote "")) none
    storaged_linux_block_handle_format env type {}
        = [.check_authorization (format_action_id env {}), .inhibit_system, wipe,
            .trigger_uevent .original, .wait_for_object .original (.filesystem "empty") 15,
            create, .trigger_uevent .original,
            .wait_for_object .original (.filesystem type) 30, .complete,
            .uninhibit_system] ∧
      (storaged_linux_block_handle_format env type {}).filter (fun e => !e.isHousekeeping)
        = [.check_authorization (format_action_id env {}), wipe,
            .wait_for_object .original (.filesystem "empty") 15, create,
            .wait_for_object .original (.filesystem type) 30, .complete] ∧
      ∀ e ∈ storaged_linux_block_handle_format env type {}, e.isOptionalStep = false := by
  intro wipe create
  obtain ⟨ids, hids⟩ := huid
  have hoff : ∀ p, env.partition = some p → (p.offset = 0) = False := by
    intro p hp
    exact eq_false (hpart p hp)
  have hA : ∃ ctx, format_authorize env type {} ⟨true, []⟩
      = .next ctx ⟨true, [.check_authorization (format_action_id env {})]⟩
      ∧ ctx.partition_type = none ∧ ctx.command_create_fs = command_create_fs := by
    cases hp : env.partition with
    | none =>
      refine ⟨⟨none, none, fs_info, command_create_fs⟩, ?_, rfl, rfl⟩
      simp [format_authorize, check_authorization_sync, Bind.bind, FormatM.bind, Pure.pure,
        emit, hdup, hp, hids, hfs, hcmd, hauth]
    | some p =>
      cases ht : env.find_partition_table_object with
      | none =>
        refine ⟨⟨none, none, fs_info, command_create_fs⟩, ?_, rfl, rfl⟩
        simp [format_authorize, check_authorization_sync, Bind.bind, FormatM.bind, Pure.pure,
          emit, hdup, hp, ht, hoff p hp, hids, hfs, hcmd, hauth]
      | some t =>
        refine ⟨⟨some p, none, fs_info, command_create_fs⟩, ?_, rfl, rfl⟩
        cases t <;>
        simp [format_authorize, check_authorization_sync, Bind.bind, FormatM.bind, Pure.pure,
          emit, hdup, hp, ht, hoff p hp, hids, hfs, hcmd, hauth]
  obtain ⟨ctx, hctx, hpt, hcc⟩ := hA
  have hW : ∀ ev, format_wipe env {} ⟨true, ev⟩
      = .next () ⟨true, ev ++ [.inhibit_system, wipe, .trigger_uevent .original,
          .wait_for_object .original (.filesystem "empty") 15]⟩ := by
    intro ev
    simp [format_wipe, Bind.bind, FormatM.bind, Pure.pure, emit, hspawn, hempty, hwait, wipe]
  have hC : ∀ ev, format_create env type {} ctx .original env.block ⟨true, ev⟩
      = .next () ⟨true, ev ++ [create, .trigger_uevent .original,
          .wait_for_object .original (.filesystem type) 30]⟩ := by
    intro ev
    by_cases hb : (env.HAVE_LIBBLOCKDEV_PART && (decide (type = "dos") || decide (type = "gpt")))
        = true
    · simp [format_create, Bind.bind, FormatM.bind, Pure.pure, emit, hspawn, hwait, htable,
        create, hb]
    · simp [format_create, Bind.bind, FormatM.bind, Pure.pure, emit, hspawn, hwait, htable,
        create, hb, hcc]
  have hP : ∀ st, format_set_partition_type env ctx st = .next () st := by
    intro st
    simp [format_set_partition_type, hpt, Pure.pure]
  have hrun : storaged_linux_block_handle_format env type {}
      = [.check_authorization (format_action_id env {}), .inhibit_system, wipe,
          .trigger_uevent .original, .wait_for_object .original (.filesystem "empty") 15,
          create, .trigger_uevent .original,
          .wait_for_object .original (.filesystem type) 30, .complete,
          .uninhibit_system] := by
    simp [storaged_linux_block_handle_format, format_body, Bind.bind, FormatM.bind, Pure.pure,
      hctx, hW, hC, hP, complete_if_invocation]
  refine ⟨hrun, ?_, ?_⟩
  · rw [hrun]
    by_cases hb : (env.HAVE_LIBBLOCKDEV_PART && (decide (type = "dos") || decide (type = "gpt")))
        = true
    · simp [create, wipe, hb, FormatEvent.isHousekeeping]
    · simp [create, wipe, hb, FormatEvent.isHousekeeping]
  · rw [hrun]
    by_cases hb : (env.HAVE_LIBBLOCKDEV_PART && (decide (type = "dos") || decide (type = "gpt")))
        = true
    · simp [create, wipe, hb, FormatEvent.isOptionalStep]
    · simp [create, wipe, hb, FormatEvent.isOptionalStep]

/-- Witness of C7: Format of the empty disk /dev/sdb with type ext4 and no option. -/
theorem format_plain_workflow_witness :
    storaged_linux_block_handle_format format_env_ok "ext4" {}
      = [.check_authorization (format_action_id format_env_ok {}), .inhibit_system,
          .spawned_job .original "format-erase"
            ("wipefs -a " ++ format_env_ok.escape_and_quote
              (format_env_ok.block.device.getD "")) none,
          .trigger_uevent .original, .wait_for_object .original (.filesystem "empty") 15,
          (if format_env_ok.HAVE_LIBBLOCKDEV_PART && ("ext4" = "dos" || "ext4" = "gpt") then
            .part_create_table .original "ext4"
           else
            .spawned_job .original "format-mkfs"
              (subst_str
                (subst_str "mkfs.ext4 -F -L $LABEL $DEVICE" "$DEVICE"
                  (format_env_ok.escape_and_quote (format_env_ok.block.device.getD "")))
                "$LABEL" (format_env_ok.escape_and_quote "")) none),
          .trigger_uevent .original,
          .wait_for_object .original (.filesystem "ext4") 30, .complete,
          .uninhibit_system] :=
  (format_plain_workflow format_env_ok "ext4"
    ⟨"ext4", some "mkfs.ext4 -F -L $LABEL $DEVICE", true⟩ "mkfs.ext4 -F -L $LABEL $DEVICE"
    rfl (fun p hp => by simp [format_env_ok] at hp) ⟨(1000, 1000), rfl⟩ rfl rfl rfl rfl
    (fun _ => rfl) (fun _ => rfl) rfl).1

/-! ### The identity of a drive (`check_for_vpd`) -/

/-- C12 (the code at the failing input): for a drive whose vendor is blank,
whose model is empty and whose serial is absent, the object path computed by
storaged_linux_drive_object_constructed is the bare directory
/org/storaged/Storaged/drives/ with an empty name, whatever
storaged_safe_append_to_object_path does: the fallback name drive is used
only when all three fields are NULL. -/
theorem constructed_path_empty_name (safe_append : String → String → String) :
    storaged_linux_drive_object_constructed_path safe_append (some " ") (some "") none
      = "/org/storaged/Storaged/drives/" := by
  have h1 : strip_and_replace_with_uscore (some " ") = some "" := by decide
  have h2 : strip_and_replace_with_uscore (some "") = some "" := by decide
  have h3 : strip_and_replace_with_uscore none = none := rfl
  simp [storaged_linux_drive_object_constructed_path, h1, h2, h3, str_nonempty]

/-! ### The order of a walk over the dependents of a block -/

/-- Sequencing is associative. -/
theorem format_bind_assoc {α β γ : Type} (m : FormatM α) (f : α → FormatM β)
    (g : β → FormatM γ) : (m >>= f) >>= g = m >>= fun a => f a >>= g := by
  funext st
  simp only [Bind.bind, FormatM.bind]
  cases m st <;> rfl

/-- A value that is passed on at once. -/
theorem format_pure_bind {α β : Type} (a : α) (f : α → FormatM β) :
    (pure a : FormatM α) >>= f = f a := rfl

/-- Sequencing after a choice is the choice between the sequences. -/
theorem format_ite_bind {α β : Type} (c : Prop) [Decidable c] (a b : FormatM α)
    (f : α → FormatM β) :
    (if c then a else b) >>= f = if c then a >>= f else b >>= f := by
  split <;> rfl

/-- The body of Format is its pieces in sequence. -/
theorem format_body_eq (env : FormatEnv) (type : String) (options : FormatOptions) :
    format_body env type options =
      (format_authorize env type options >>= fun ctx =>
        format_wipe env options >>= fun _ => format_after_wipe env type options ctx) := by
  unfold format_body format_after_wipe format_finish format_after_erase format_erase_original
    format_choose_to_mkfs format_erase_cleartext format_take_ownership_if_requested
    format_add_config_items_if_given
  rcases options with ⟨own, pass, erase, nb, upt, ci, td, lab⟩
  cases pass <;> cases erase <;> cases ci <;>
    simp only [format_bind_assoc, format_pure_bind, format_ite_bind]

theorem only_mono {α : Type} {P Q : FormatEvent → Prop} {m : FormatM α}
    (h : ∀ e, P e → Q e) (hm : Only P m) : Only Q m := by
  intro st
  obtain ⟨l, hl, hp⟩ := hm st
  exact ⟨l, hl, fun e he => h e (hp e he)⟩

theorem only_pure {α : Type} (P : FormatEvent → Prop) (a : α) : Only P (pure a : FormatM α) :=
  fun st => ⟨[], by simp [Pure.pure, FormatStep.state], by simp⟩

theorem only_bind {α β : Type} {P : FormatEvent → Prop} {m : FormatM α} {f : α → FormatM β}
    (hm : Only P m) (hf : ∀ a, Only P (f a)) : Only P (m >>= f) := by
  intro st
  obtain ⟨l1, h1, hp1⟩ := hm st
  simp only [Bind.bind, FormatM.bind]
  cases hr : m st with
  | next a st1 =>
    rw [hr] at h1
    obtain ⟨l2, h2, hp2⟩ := hf a st1
    refine ⟨l1 ++ l2, ?_, ?_⟩
    · simp only [FormatStep.state] at h1
      rw [h2, h1, List.append_assoc]
    · intro e he
      rcases List.mem_append.1 he with h | h
      · exact hp1 e h
      · exact hp2 e h
  | out st1 =>
    rw [hr] at h1
    exact ⟨l1, h1, hp1⟩
  | abort st1 =>
    rw [hr] at h1
    exact ⟨l1, h1, hp1⟩

theorem only_emit {P : FormatEvent → Prop} {e : FormatEvent} (h : P e) : Only P (emit e) :=
  fun st => ⟨[e], rfl, by simpa using h⟩

theorem only_goto_out {α : Type} (P : FormatEvent → Prop) : Only P (goto_out : FormatM α) :=
  fun st => ⟨[], by simp [goto_out, FormatStep.state], by simp⟩

theorem only_bind_goto_out {α β : Type} (P : FormatEvent → Prop) (f : α → FormatM β) :
    Only P ((goto_out : FormatM α) >>= f) :=
  fun st => ⟨[], by simp [Bind.bind, FormatM.bind, goto_out, FormatStep.state], by simp⟩

theorem only_ite {α : Type} {P : FormatEvent → Prop} {c : Prop} [Decidable c]
    {a b : FormatM α} (ha : Only P a) (hb : Only P b) : Only P (if c then a else b) := by
  split
  · exact ha
  · exact hb

theorem only_assert_fail {α : Type} {P : FormatEvent → Prop} (h : P .assertion_failed) :
    Only P (assert_fail : FormatM α) :=
  fun st => ⟨[.assertion_failed], rfl, by simpa using h⟩

theorem only_return_error {P : FormatEvent → Prop} {c : StoragedError} {msg : String}
    (h : ∀ b, P (.return_error c msg b)) : Only P (return_error c msg) :=
  fun st => ⟨[.return_error c msg st.invocation], rfl, by simpa using h _⟩

theorem only_return_error_if_invocation {P : FormatEvent → Prop} {c : StoragedError}
    {msg : String} (h : ∀ b, P (.return_error c msg b)) :
    Only P (return_error_if_invocation c msg) := by
  intro st
  cases hi : st.invocation with
  | true =>
    exact ⟨[.return_error c msg true],
      by simp [return_error_if_invocation, hi, FormatStep.state], by simpa using h _⟩
  | false =>
    exact ⟨[], by simp [return_error_if_invocation, hi, FormatStep.state], by simp⟩

theorem only_complete_early {P : FormatEvent → Prop} (h : P .complete) :
    Only P complete_early :=
  fun st => ⟨[.complete], rfl, by simpa using h⟩

theorem only_complete_if_invocation {P : FormatEvent → Prop} (h : P .complete) :
    Only P complete_if_invocation := by
  intro st
  cases hi : st.invocation with
  | true =>
    exact ⟨[.complete], by simp [complete_if_invocation, hi, FormatStep.state], by simpa using h⟩
  | false =>
    exact ⟨[], by simp [complete_if_invocation, hi, FormatStep.state], by simp⟩

theorem check_authorization_sync_only (env : FormatEnv) (a : String)
    {P : FormatEvent → Prop} (h1 : P (.check_authorization a))
    (h2 : ∀ c msg b, P (.return_error c msg b)) : Only P (check_authorization_sync env a) := by
  unfold check_authorization_sync
  repeat' (first
    | exact only_pure _ _
    | exact only_goto_out _
    | exact only_emit h1
    | exact only_return_error (fun _ => h2 _ _ _)
    | refine only_bind ?_ (fun _ => ?_)
    | refine only_ite ?_ ?_)

set_option maxRecDepth 8000 in
theorem format_authorize_only (env : FormatEnv) (type : String) (options : FormatOptions) :
    Only (fun e => in_authorize env options e = true) (format_authorize env type options) := by
  unfold format_authorize
  dsimp only
  repeat' (first
    | exact only_pure _ _
    | exact only_goto_out _
    | exact only_bind_goto_out _ _
    | exact check_authorization_sync_only _ _ (by simp [in_authorize])
        (fun _ _ _ => by simp [in_authorize])
    | exact only_return_error (fun _ => by simp [in_authorize])
    | refine only_bind ?_ (fun _ => ?_)
    | refine only_ite ?_ ?_
    | split)

set_option maxRecDepth 8000 in
theorem format_wipe_only (env : FormatEnv) (options : FormatOptions) :
    Only (fun e => in_wipe env e = true) (format_wipe env options) := by
  unfold format_wipe
  dsimp only
  repeat' (first
    | exact only_pure _ _
    | exact only_goto_out _
    | exact only_bind_goto_out _ _
    | exact only_emit (by simp [in_wipe])
    | exact only_complete_early (by simp [in_wipe])
    | exact only_return_error (fun _ => by simp [in_wipe])
    | exact only_return_error_if_invocation (fun _ => by simp [in_wipe])
    | refine only_bind ?_ (fun _ => ?_)
    | refine only_ite ?_ ?_
    | split)

theorem format_erase_only (env : FormatEnv) (target : FormatTarget)
    (erase_type message : String) :
    Only (fun e => in_erase target erase_type e = true)
      (format_erase env target erase_type message) := by
  unfold format_erase
  repeat' (first
    | exact only_pure _ _
    | exact only_goto_out _
    | exact only_bind_goto_out _ _
    | exact only_emit (by simp [in_erase])
    | exact only_return_error_if_invocation (fun _ => by simp [in_erase])
    | refine only_bind ?_ (fun _ => ?_)
    | refine only_ite ?_ ?_
    | split)

set_option maxRecDepth 8000 in
theorem format_encrypt_only (env : FormatEnv) (passphrase : String) :
    Only (fun e => in_encrypt env passphrase e = true) (format_encrypt env passphrase) := by
  unfold format_encrypt
  dsimp only
  repeat' (first
    | exact only_pure _ _
    | exact only_goto_out _
    | exact only_bind_goto_out _ _
    | exact only_assert_fail (by simp [in_encrypt])
    | exact only_emit (by simp [in_encrypt, luks_format_command, luks_open_command, *])
    | exact only_return_error_if_invocation (fun _ => by simp [in_encrypt])
    | refine only_bind ?_ (fun _ => ?_)
    | refine only_ite ?_ ?_
    | split)

set_option maxRecDepth 8000 in
theorem format_create_only (env : FormatEnv) (type : String) (options : FormatOptions)
    (ctx : FormatContext) (target : FormatTarget) (block_to_mkfs : StoragedBlock) :
    Only (fun e => in_create type target e = true)
      (format_create env type options ctx target block_to_mkfs) := by
  unfold format_create
  dsimp only
  repeat' (first
    | exact only_pure _ _
    | exact only_goto_out _
    | exact only_bind_goto_out _ _
    | exact only_emit (by simp [in_create])
    | exact only_return_error (fun _ => by simp [in_create])
    | exact only_return_error_if_invocation (fun _ => by simp [in_create])
    | refine only_bind ?_ (fun _ => ?_)
    | refine only_ite ?_ ?_
    | split)

set_option maxRecDepth 8000 in
theorem format_take_ownership_only (env : FormatEnv) (target : FormatTarget) :
    Only (fun e => in_take_ownership target e = true) (format_take_ownership env target) := by
  unfold format_take_ownership
  dsimp only
  repeat' (first
    | exact only_pure _ _
    | exact only_goto_out _
    | exact only_bind_goto_out _ _
    | exact only_emit (by simp [in_take_ownership])
    | exact only_return_error_if_invocation (fun _ => by simp [in_take_ownership])
    | refine only_bind ?_ (fun _ => ?_)
    | refine only_ite ?_ ?_)

theorem format_set_partition_type_only (env : FormatEnv) (ctx : FormatContext) :
    Only (fun e => in_set_partition_type e = true) (format_set_partition_type env ctx) := by
  unfold format_set_partition_type
  repeat' (first
    | exact only_pure _ _
    | exact only_goto_out _
    | exact only_bind_goto_out _ _
    | exact only_emit (by simp [in_set_partition_type])
    | exact only_return_error (fun _ => by simp [in_set_partition_type])
    | refine only_bind ?_ (fun _ => ?_)
    | refine only_ite ?_ ?_
    | split)

theorem format_add_config_items_only (env : FormatEnv) (target : FormatTarget)
    (items : List ConfigurationItem) :
    Only (fun e => in_config target e = true) (format_add_config_items env target items) := by
  induction items with
  | nil => exact only_pure _ _
  | cons item rest ih =>
    obtain ⟨item_type, details⟩ := item
    unfold format_add_config_items
    dsimp only
    repeat' (first
      | exact ih
      | exact only_pure _ _
      | exact only_goto_out _
      | exact only_bind_goto_out _ _
      | exact only_emit (by simp [in_config])
      | exact only_return_error (fun _ => by simp [in_config])
      | refine only_bind ?_ (fun _ => ?_)
      | refine only_ite ?_ ?_
      | split)

theorem format_erase_original_only (env : FormatEnv) (type : String)
    (options : FormatOptions) :
    Only (fun e => in_after_wipe env type options e = true)
      (format_erase_original env options) := by
  unfold format_erase_original
  split
  · rename_i erase_type h1 h2
    refine only_mono (fun e h => ?_) (format_erase_only env _ _ _)
    simp only [in_after_wipe, h1, h2]
    simp [h]
  · exact only_pure _ _

theorem format_choose_to_mkfs_only (env : FormatEnv) (type : String)
    (options : FormatOptions) :
    Only (fun e => in_after_wipe env type options e = true)
      (format_choose_to_mkfs env options) := by
  unfold format_choose_to_mkfs
  split
  · rename_i passphrase h1
    refine only_bind (only_mono (fun e h => ?_) (format_encrypt_only env _)) (fun _ => only_pure _ _)
    simp only [in_after_wipe, h1]
    simp [h]
  · exact only_pure _ _

theorem format_erase_cleartext_only (env : FormatEnv) (type : String)
    (options : FormatOptions) (target : FormatTarget) :
    Only (fun e => in_finish type options target e = true)
      (format_erase_cleartext env options target) := by
  unfold format_erase_cleartext
  split
  · rename_i erase_type p h1 h2
    refine only_mono (fun e h => ?_) (format_erase_only env _ _ _)
    simp only [in_finish, h1, h2]
    simp [h]
  · exact only_pure _ _

theorem format_after_erase_only (env : FormatEnv) (type : String) (options : FormatOptions)
    (ctx : FormatContext) (to_mkfs : FormatTarget × StoragedBlock) :
    Only (fun e => in_after_erase type to_mkfs.1 e = true)
      (format_after_erase env type options ctx to_mkfs) := by
  unfold format_after_erase format_take_ownership_if_requested
    format_add_config_items_if_given
  repeat' (first
    | exact only_pure _ _
    | exact only_mono (fun e h => by simp [in_after_erase, h])
        (format_create_only env type options ctx _ _)
    | exact only_mono (fun e h => by simp [in_after_erase, h])
        (format_take_ownership_only env _)
    | exact only_mono (fun e h => by simp [in_after_erase, h])
        (format_set_partition_type_only env ctx)
    | exact only_mono (fun e h => by simp [in_after_erase, h])
        (format_add_config_items_only env _ _)
    | exact only_complete_if_invocation (by simp [in_after_erase])
    | refine only_bind ?_ (fun _ => ?_)
    | refine only_ite ?_ ?_
    | split)

theorem format_finish_only (env : FormatEnv) (type : String) (options : FormatOptions)
    (ctx : FormatContext) (to_mkfs : FormatTarget × StoragedBlock) :
    Only (fun e => in_finish type options to_mkfs.1 e = true)
      (format_finish env type options ctx to_mkfs) := by
  unfold format_finish
  exact only_bind (format_erase_cleartext_only env type options _)
    (fun _ => only_mono (fun e h => by simp [in_finish, h])
      (format_after_erase_only env type options ctx to_mkfs))

/-- What the choice of `object_to_mkfs` returns is the cleartext object when a
passphrase was given and the original object otherwise. -/
theorem format_choose_to_mkfs_target (env : FormatEnv) (options : FormatOptions)
    (st s : FormatState) (to_mkfs : FormatTarget × StoragedBlock)
    (h : format_choose_to_mkfs env options st = .next to_mkfs s) :
    to_mkfs.1 = format_target options := by
  cases hp : options.encrypt_passphrase with
  | some passphrase =>
    simp only [format_choose_to_mkfs, hp, Bind.bind, FormatM.bind] at h
    cases hr : format_encrypt env passphrase st with
    | next cb s1 =>
      rw [hr] at h
      simp only [Pure.pure, FormatStep.next.injEq] at h
      rw [← h.1]
      simp [format_target, hp]
    | out s1 => rw [hr] at h; cases h
    | abort s1 => rw [hr] at h; cases h
  | none =>
    simp only [format_choose_to_mkfs, hp, Pure.pure, FormatStep.next.injEq] at h
    rw [← h.1]
    simp [format_target, hp]

theorem format_after_wipe_only (env : FormatEnv) (type : String) (options : FormatOptions)
    (ctx : FormatContext) :
    Only (fun e => in_after_wipe env type options e = true)
      (format_after_wipe env type options ctx) := by
  unfold format_after_wipe
  refine only_bind (format_erase_original_only env type options) (fun _ => ?_)
  intro st
  obtain ⟨l1, h1, hp1⟩ := format_choose_to_mkfs_only env type options st
  simp only [Bind.bind, FormatM.bind]
  cases hr : format_choose_to_mkfs env options st with
  | next to_mkfs st1 =>
    rw [hr] at h1
    obtain ⟨l2, h2, hp2⟩ := format_finish_only env type options ctx to_mkfs st1
    have ht := format_choose_to_mkfs_target env options st st1 to_mkfs hr
    refine ⟨l1 ++ l2, ?_, ?_⟩
    · simp only [FormatStep.state] at h1
      rw [h2, h1, List.append_assoc]
    · intro e he
      rcases List.mem_append.1 he with h | h
      · exact hp1 e h
      · have := hp2 e h
        rw [ht] at this
        simp [in_after_wipe, this]
  | out st1 =>
    rw [hr] at h1
    exact ⟨l1, h1, hp1⟩
  | abort st1 =>
    rw [hr] at h1
    exact ⟨l1, h1, hp1⟩

theorem format_body_only (env : FormatEnv) (type : String) (options : FormatOptions) :
    Only (fun e => in_format env type options e = true) (format_body env type options) := by
  rw [format_body_eq]
  refine only_bind (only_mono (fun e h => by simp [in_format, h])
    (format_authorize_only env type options)) (fun ctx => ?_)
  refine only_bind (only_mono (fun e h => by simp [in_format, h])
    (format_wipe_only env options)) (fun _ => ?_)
  exact only_mono (fun e h => by simp [in_format, h]) (format_after_wipe_only env type options ctx)

/-- The effects of a run of Format come from the body, followed by the release of
the inhibit cookie unless an assertion failed. -/
theorem format_run_eq (env : FormatEnv) (type : String) (options : FormatOptions) :
    storaged_linux_block_handle_format env type options =
      (format_body env type options ⟨true, []⟩).state.events
        ++ (match format_body env type options ⟨true, []⟩ with
            | .abort _ => []
            | _ => [.uninhibit_system]) := by
  unfold storaged_linux_block_handle_format
  cases format_body env type options ⟨true, []⟩ <;> simp [FormatStep.state]

/-- Every effect of a run of Format is an effect of the body or the release of the
inhibit cookie. -/
theorem format_run_only (env : FormatEnv) (type : String) (options : FormatOptions)
    (e : FormatEvent) (he : e ∈ storaged_linux_block_handle_format env type options) :
    in_format env type options e = true ∨ e = .uninhibit_system := by
  rw [format_run_eq] at he
  obtain ⟨l, hl, hp⟩ := format_body_only env type options ⟨true, []⟩
  rw [hl] at he
  rcases List.mem_append.1 he with h | h
  · left
    exact hp e (by simpa using h)
  · right
    split at h
    · cases h
    · simpa using h

/-- What a piece that is followed by pieces with effects in `P` has appended
stays, and only effects in `P` are appended after it. -/
theorem bind_events_extend {α β : Type} (P : FormatEvent → Prop) (m : FormatM α)
    {f : α → FormatM β} (hf : ∀ a, Only P (f a)) (st : FormatState) :
    ∃ l, ((m >>= f) st).state.events = (m st).state.events ++ l ∧ ∀ e ∈ l, P e := by
  simp only [Bind.bind, FormatM.bind]
  cases hr : m st with
  | next a st1 =>
    obtain ⟨l, hl, hp⟩ := hf a st1
    exact ⟨l, by simpa [FormatStep.state] using hl, hp⟩
  | out st1 => exact ⟨[], (List.append_nil _).symm, by simp⟩
  | abort st1 => exact ⟨[], (List.append_nil _).symm, by simp⟩

/-- A piece that jumps to `out` ends the body there. -/
theorem bind_out {α β : Type} (m : FormatM α) (f : α → FormatM β) (st s : FormatState)
    (h : m st = .out s) : (m >>= f) st = .out s := by
  simp only [Bind.bind, FormatM.bind, h]

/-- The authorization part jumps to `out` when the type is not supported or an
authorization check that is made is denied. -/
theorem format_authorize_out (env : FormatEnv) (type : String) (options : FormatOptions)
    (st : FormatState)
    (hfail : env.get_fs_info type = none
      ∨ (∃ fs_info, env.get_fs_info type = some fs_info ∧ fs_info.command_create_fs = none)
      ∨ env.check_authorization (format_action_id env options) = false
      ∨ ((options.config_items.isSome = true ∨ options.tear_down = true)
        ∧ env.check_authorization "org.storaged.Storaged.modify-system-configuration" = false)) :
    ∃ s, format_authorize env type options st = .out s := by
  have key : (match format_authorize env type options st with
      | .out _ => True
      | _ => False) := by
    have hpart : (∃ p, env.partition = some p ∧ p.offset = 0)
        ∨ ∀ p, env.partition = some p → (p.offset = 0) = False := by
      cases hp : env.partition with
      | none => right; intro p h; cases h
      | some p =>
        by_cases ho : p.offset = 0
        · left; exact ⟨p, rfl, ho⟩
        · right; intro q h; cases h; exact eq_false ho
    cases hd : env.dup_object with
    | some e =>
      simp [format_authorize, Bind.bind, FormatM.bind, Pure.pure, goto_out, return_error, hd]
    | none =>
      rcases hpart with ⟨p, hp, ho⟩ | hpart
      · simp [format_authorize, Bind.bind, FormatM.bind, Pure.pure, goto_out, return_error, hd,
          hp, ho]
      · cases hu : env.get_caller_uid with
        | error e =>
          cases hp : env.partition <;>
          simp [format_authorize, Bind.bind, FormatM.bind, Pure.pure, goto_out, return_error,
            hd, hp, hpart, hu]
        | ok ids =>
          cases hf : env.get_fs_info type with
          | none =>
            cases hp : env.partition <;>
            simp [format_authorize, Bind.bind, FormatM.bind, Pure.pure, goto_out, return_error,
              hd, hp, hpart, hu, hf]
          | some fs_info =>
            cases hc : fs_info.command_create_fs with
            | none =>
              cases hp : env.partition <;>
              simp [format_authorize, Bind.bind, FormatM.bind, Pure.pure, goto_out,
                return_error, hd, hp, hpart, hu, hf, hc]
            | some command_create_fs =>
              cases ha : env.check_authorization (format_action_id env options) with
              | false =>
                cases hp : env.partition <;>
                simp [format_authorize, check_authorization_sync, Bind.bind, FormatM.bind,
                  Pure.pure, goto_out, return_error, emit, hd, hp, hpart, hu, hf, hc, ha]
              | true =>
                rcases hfail with h | ⟨fi, h1, h2⟩ | h | ⟨h1, h2⟩
                · rw [hf] at h; cases h
                · rw [hf] at h1; cases h1; rw [hc] at h2; cases h2
                · rw [ha] at h; cases h
                · have h1' : (options.config_items.isSome || options.tear_down) = true := by
                    rcases h1 with h | h <;> simp [h]
                  cases hp : env.partition <;>
                  simp [format_authorize, check_authorization_sync, Bind.bind, FormatM.bind,
                    Pure.pure, goto_out, return_error, emit, hd, hp, hpart, hu, hf, hc, ha,
                    h1', h2]
  cases hr : format_authorize env type options st with
  | next ctx s => rw [hr] at key; exact key.elim
  | out s => exact ⟨s, rfl⟩
  | abort s => rw [hr] at key; exact key.elim

/-! ### Format: validation and authorization come before every step on the device -/

/-- C14: when the requested type is not supported (no filesystem info, or no
creation command), or an authorization check that Format makes is denied,
the run consists of authorization checks, error replies and the release of the
inhibit cookie only: no inhibit, teardown, wipe, erase, encryption or creation
step is run and no success reply is sent. When the type is not supported and the
lookups of the object and of the caller succeed, the run is exactly one
NotSupported error reply followed by the release of the inhibit cookie. -/
theorem format_rejects_before_any_step (env : FormatEnv) (type : String)
    (options : FormatOptions)
    (hfail : env.get_fs_info type = none
      ∨ (∃ fs_info, env.get_fs_info type = some fs_info ∧ fs_info.command_create_fs = none)
      ∨ env.check_authorization (format_action_id env options) = false
      ∨ ((options.config_items.isSome = true ∨ options.tear_down = true)
        ∧ env.check_authorization "org.storaged.Storaged.modify-system-configuration" = false)) :
    (∀ e ∈ storaged_linux_block_handle_format env type options,
      (∃ a, e = .check_authorization a) ∨ (∃ c msg b, e = .return_error c msg b)
        ∨ e = .uninhibit_system)
    ∧ .teardown ∉ storaged_linux_block_handle_format env type options
    ∧ (∀ t op c i, .spawned_job t op c i ∉ storaged_linux_block_handle_format env type options)
    ∧ (∀ t y, .erase_device t y ∉ storaged_linux_block_handle_format env type options)
    ∧ (∀ t y, .part_create_table t y ∉ storaged_linux_block_handle_format env type options)
    ∧ .complete ∉ storaged_linux_block_handle_format env type options
    ∧ (env.dup_object = none → (∃ ids, env.get_caller_uid = .ok ids) →
        (env.get_fs_info type = none
          ∨ ∃ fs_info, env.get_fs_info type = some fs_info ∧ fs_info.command_create_fs = none) →
        ∃ msg, storaged_linux_block_handle_format env type options
          = [.return_error .NOT_SUPPORTED msg true, .uninhibit_system]) := by
  have hall : ∀ e ∈ storaged_linux_block_handle_format env type options,
      (∃ a, e = .check_authorization a) ∨ (∃ c msg b, e = .return_error c msg b)
        ∨ e = .uninhibit_system := by
    obtain ⟨s, hs⟩ := format_authorize_out env type options ⟨true, []⟩ hfail
    obtain ⟨l, hl, hp⟩ := format_authorize_only env type options ⟨true, []⟩
    rw [hs] at hl
    simp only [FormatStep.state, List.nil_append] at hl
    have hb : format_body env type options ⟨true, []⟩ = .out s := by
      rw [format_body_eq]
      exact bind_out _ _ _ _ hs
    intro e he
    simp only [storaged_linux_block_handle_format, hb, hl, List.mem_append,
      List.mem_singleton] at he
    rcases he with he | he
    · have := hp e he
      cases e <;> simp [in_authorize] at this ⊢
    · exact Or.inr (Or.inr he)
  refine ⟨hall, ?_, ?_, ?_, ?_, ?_, ?_⟩
  · intro h
    rcases hall _ h with ⟨a, h⟩ | ⟨c, msg, b, h⟩ | h <;> cases h
  · intro t op c i h
    rcases hall _ h with ⟨a, h⟩ | ⟨c, msg, b, h⟩ | h <;> cases h
  · intro t y h
    rcases hall _ h with ⟨a, h⟩ | ⟨c, msg, b, h⟩ | h <;> cases h
  · intro t y h
    rcases hall _ h with ⟨a, h⟩ | ⟨c, msg, b, h⟩ | h <;> cases h
  · intro h
    rcases hall _ h with ⟨a, h⟩ | ⟨c, msg, b, h⟩ | h <;> cases h
  · intro hd ⟨ids, hu⟩ hun
    have hpart : (∃ p, env.partition = some p ∧ p.offset = 0)
        ∨ ∀ p, env.partition = some p → (p.offset = 0) = False := by
      cases hp : env.partition with
      | none => right; intro p h; cases h
      | some p =>
        by_cases ho : p.offset = 0
        · left; exact ⟨p, rfl, ho⟩
        · right; intro q h; cases h; exact eq_false ho
    rcases hpart with ⟨p, hp, ho⟩ | hpart
    · refine ⟨"This partition cannot be modified because it contains a partition table; please reinitialize layout of the whole device.", ?_⟩
      simp [storaged_linux_block_handle_format, format_body, format_authorize, Bind.bind,
        FormatM.bind, Pure.pure, goto_out, return_error, hd, hp, ho]
    · refine ⟨"Creation of file system type " ++ type ++ " is not supported", ?_⟩
      rcases hun with hf | ⟨fs_info, hf, hc⟩
      · cases hp : env.partition <;>
        simp [storaged_linux_block_handle_format, format_body, format_authorize, Bind.bind,
          FormatM.bind, Pure.pure, goto_out, return_error, hd, hp, hpart, hu, hf]
      · cases hp : env.partition <;>
        simp [storaged_linux_block_handle_format, format_body, format_authorize, Bind.bind,
          FormatM.bind, Pure.pure, goto_out, return_error, hd, hp, hpart, hu, hf, hc]

/-- Witness of C14: Format of /dev/sdb with the type ntfs, for which there is no
filesystem info. -/
theorem format_rejects_before_any_step_witness :
    format_env_ok.get_fs_info "ntfs" = none
    ∧ .complete ∉ storaged_linux_block_handle_format format_env_ok "ntfs" {}
    ∧ ∃ msg, storaged_linux_block_handle_format format_env_ok "ntfs" {}
      = [.return_error .NOT_SUPPORTED msg true, .uninhibit_system] :=
  ⟨by decide,
    (format_rejects_before_any_step format_env_ok "ntfs" {} (Or.inl (by decide))).2.2.2.2.2.1,
    (format_rejects_before_any_step format_env_ok "ntfs" {} (Or.inl (by decide))).2.2.2.2.2.2
      rfl ⟨_, rfl⟩ (Or.inl (by decide))⟩

/-! ### Format: the authorization action -/

/-- An authorization check among the effects of the body is a check of the chosen
action id or of the system configuration action. -/
theorem in_format_check_authorization (env : FormatEnv) (type : String)
    (options : FormatOptions) (a : String)
    (h : in_format env type options (.check_authorization a) = true) :
    a = format_action_id env options
      ∨ a = "org.storaged.Storaged.modify-system-configuration" := by
  cases he : options.erase <;> cases hp : options.encrypt_passphrase <;>
    simpa [in_format, in_authorize, in_wipe, in_after_wipe, in_finish, in_after_erase,
      in_erase, in_encrypt, in_create, in_take_ownership, in_set_partition_type, in_config, he, hp] using h

/-- When the lookups succeed and the type is supported, the first effect of the
authorization part is the check of the chosen action id. -/
theorem format_authorize_head (env : FormatEnv) (type : String) (options : FormatOptions)
    (fs_info : FSInfo) (command_create_fs : String)
    (hdup : env.dup_object = none)
    (hpart : ∀ p, env.partition = some p → p.offset ≠ 0)
    (huid : ∃ ids, env.get_caller_uid = .ok ids)
    (hfs : env.get_fs_info type = some fs_info)
    (hcmd : fs_info.command_create_fs = some command_create_fs) :
    (format_authorize env type options ⟨true, []⟩).state.events.head?
      = some (.check_authorization (format_action_id env options)) := by
  obtain ⟨ids, hids⟩ := huid
  have hoff : ∀ p, env.partition = some p → (p.offset = 0) = False := by
    intro p hp
    exact eq_false (hpart p hp)
  cases ha : env.check_authorization (format_action_id env options) <;>
  cases hc : (options.config_items.isSome || options.tear_down) <;>
  cases ha2 : env.check_authorization "org.storaged.Storaged.modify-system-configuration" <;>
  cases hp : env.partition <;>
  simp [format_authorize, check_authorization_sync, Bind.bind, FormatM.bind, Pure.pure,
    emit, goto_out, return_error, FormatStep.state, hdup, hp, hoff, hids, hfs, hcmd, ha, hc, ha2]

/-- C15, counterexample: a block that is flagged system and is not on the seat of
the caller, but was set up by the caller, is formatted under the plain
modify-device action; and for a block that is flagged system and is not on the
seat of the caller the action is modify-device-system, not
modify-device-other-seat. -/
theorem format_action_id_not_always_escalated :
    (storaged_linux_block_handle_format
        { format_env_ok with
          setup_by_user := true
          on_user_seat := false
          block := { device := some "/dev/sdb", hint_system := true } } "gpt" {}).head?
      = some (.check_authorization "org.storaged.Storaged.modify-device")
    ∧ (storaged_linux_block_handle_format
        { format_env_ok with
          setup_by_user := false
          on_user_seat := false
          block := { device := some "/dev/sdb", hint_system := true } } "gpt" {}).head?
      = some (.check_authorization "org.storaged.Storaged.modify-device-system") := by
  constructor <;> decide

/-- C15, amended: the action id of Format is the secure-erase action for the erase
modes ata-secure-erase and ata-secure-erase-enhanced; otherwise it is
modify-device when the device was set up by the caller, and for a device that
was not set up by the caller modify-device-system when the block is flagged
system, else modify-device-other-seat when the device is not on the seat of the
caller, else modify-device. Every authorization check of a run is a check of
this id or of the system configuration action, and when the lookups succeed
and the type is supported the check of this id is the first effect of the run. -/
theorem format_action_id_selection (env : FormatEnv) (type : String)
    (options : FormatOptions) (fs_info : FSInfo) (command_create_fs : String)
    (hdup : env.dup_object = none)
    (hpart : ∀ p, env.partition = some p → p.offset ≠ 0)
    (huid : ∃ ids, env.get_caller_uid = .ok ids)
    (hfs : env.get_fs_info type = some fs_info)
    (hcmd : fs_info.command_create_fs = some command_create_fs) :
    (storaged_linux_block_handle_format env type options).head?
      = some (.check_authorization (format_action_id env options))
    ∧ (∀ a, .check_authorization a ∈ storaged_linux_block_handle_format env type options →
        a = format_action_id env options
          ∨ a = "org.storaged.Storaged.modify-system-configuration")
    ∧ ((options.erase = some "ata-secure-erase"
          ∨ options.erase = some "ata-secure-erase-enhanced") →
        format_action_id env options = "org.storaged.Storaged.ata-secure-erase")
    ∧ (¬ (options.erase = some "ata-secure-erase"
          ∨ options.erase = some "ata-secure-erase-enhanced") →
        (env.setup_by_user = true →
          format_action_id env options = "org.storaged.Storaged.modify-device")
        ∧ (env.setup_by_user = false → env.block.hint_system = true →
          format_action_id env options = "org.storaged.Storaged.modify-device-system")
        ∧ (env.setup_by_user = false → env.block.hint_system = false →
            env.on_user_seat = false →
          format_action_id env options = "org.storaged.Storaged.modify-device-other-seat")
        ∧ (env.setup_by_user = false → env.block.hint_system = false →
            env.on_user_seat = true →
          format_action_id env options = "org.storaged.Storaged.modify-device")) := by
  refine ⟨?_, ?_, ?_, ?_⟩
  · have hh := format_authorize_head env type options fs_info command_create_fs hdup hpart huid
      hfs hcmd
    rw [format_run_eq, format_body_eq]
    obtain ⟨l, hl, -⟩ := bind_events_extend (fun e => in_format env type options e = true)
      (format_authorize env type options)
      (fun ctx => only_bind (only_mono (fun e h => by simp [in_format, h])
          (format_wipe_only env options))
        (fun _ => only_mono (fun e h => by simp [in_format, h])
          (format_after_wipe_only env type options ctx))) ⟨true, []⟩
    rw [hl]
    cases hev : (format_authorize env type options ⟨true, []⟩).state.events with
    | nil => rw [hev] at hh; cases hh
    | cons e rest =>
      rw [hev] at hh
      simpa using hh
  · intro a ha
    rcases format_run_only env type options _ ha with h | h
    · exact in_format_check_authorization env type options a h
    · cases h
  · intro h
    rcases h with h | h <;> simp [format_action_id, g_strcmp0_eq, h]
  · intro h
    have h1 : options.erase ≠ some "ata-secure-erase" := fun h' => h (Or.inl h')
    have h2 : options.erase ≠ some "ata-secure-erase-enhanced" := fun h' => h (Or.inr h')
    refine ⟨?_, ?_, ?_, ?_⟩ <;> intros <;> simp [format_action_id, g_strcmp0_eq, *]

/-- Witness of C15: Format of /dev/sdb with the type gpt and no option. -/
theorem format_action_id_selection_witness :
    (storaged_linux_block_handle_format format_env_ok "gpt" {}).head?
      = some (.check_authorization (format_action_id format_env_ok {})) :=
  (format_action_id_selection format_env_ok "gpt" {}
    ⟨"gpt", some "parted --script $DEVICE mktable gpt", false⟩
    "parted --script $DEVICE mktable gpt" rfl (fun p h => by cases h) ⟨_, rfl⟩ (by decide) rfl).1

/-! ### Format: the ownership step -/

/-- C19, counterexample: when chown fails after the mount, the error reply is sent
before the unmount and the removal of the mount point, not after them; and when
the unmount fails as well, the removal of the mount point is not attempted. -/
theorem format_take_ownership_replies_before_cleanup :
    storaged_linux_block_handle_format { format_env_ok with chown := false } "ext4"
        { take_ownership := true }
      = [.check_authorization "org.storaged.Storaged.modify-device", .inhibit_system,
          .spawned_job .original "format-erase" "wipefs -a \"/dev/sdb\"" none,
          .trigger_uevent .original, .wait_for_object .original (.filesystem "empty") 15,
          .spawned_job .original "format-mkfs"
            (subst_str (subst_str "mkfs.ext4 -F -L $LABEL $DEVICE" "$DEVICE" "\"/dev/sdb\"")
              "$LABEL" "\"\"") none,
          .trigger_uevent .original, .wait_for_object .original (.filesystem "ext4") 30,
          .mkdtemp, .mount .original, .chown, .return_error .FAILED "Cannot chown" true,
          .umount, .rmdir, .uninhibit_system]
    ∧ storaged_linux_block_handle_format
        { format_env_ok with chown := false, umount := false } "ext4" { take_ownership := true }
      = [.check_authorization "org.storaged.Storaged.modify-device", .inhibit_system,
          .spawned_job .original "format-erase" "wipefs -a \"/dev/sdb\"" none,
          .trigger_uevent .original, .wait_for_object .original (.filesystem "empty") 15,
          .spawned_job .original "format-mkfs"
            (subst_str (subst_str "mkfs.ext4 -F -L $LABEL $DEVICE" "$DEVICE" "\"/dev/sdb\"")
              "$LABEL" "\"\"") none,
          .trigger_uevent .original, .wait_for_object .original (.filesystem "ext4") 30,
          .mkdtemp, .mount .original, .chown, .return_error .FAILED "Cannot chown" true,
          .umount, .uninhibit_system] :=
  ⟨rfl, rfl⟩

/-- C19, amended: in the ownership step, once the temporary mount point has been
mounted, a failing chown or chmod is followed first by the error reply of the
step (when the invocation is still pending), then by an unmount attempt, and
then, only when the unmount succeeded, by an attempt to remove the mount point;
the step then jumps to the end of Format. -/
theorem format_take_ownership_compensation (env : FormatEnv) (target : FormatTarget)
    (st : FormatState) (hmkdtemp : env.mkdtemp = true) (hmount : env.mount = true)
    (hfail : env.chown = false ∨ env.chmod = false) :
    format_take_ownership env target st
      = .out ⟨st.invocation,
          st.events ++ [.mkdtemp, .mount target, .chown]
            ++ (if env.chown then [.chmod] else [])
            ++ (if st.invocation then
                [.return_error .FAILED (if env.chown then "Cannot chmod" else "Cannot chown")
                  true]
              else [])
            ++ [.umount]
            ++ (if env.umount then [.rmdir] else [])⟩ := by
  obtain ⟨inv, ev⟩ := st
  cases hc : env.chown <;> cases hm : env.chmod <;> cases hu : env.umount <;> cases inv <;>
    first
    | (exfalso; rcases hfail with h | h <;> simp_all; done)
    | simp [format_take_ownership, Bind.bind, FormatM.bind, Pure.pure, emit, goto_out,
        return_error_if_invocation, hmkdtemp, hmount, hc, hm, hu]

/-- Witness of C19: chmod fails on the cleartext target and the unmount succeeds. -/
theorem format_take_ownership_compensation_witness :
    format_take_ownership { format_env_ok with chmod := false } .cleartext ⟨true, []⟩
      = .out ⟨true, [.mkdtemp, .mount .cleartext, .chown, .chmod,
          .return_error .FAILED "Cannot chmod" true, .umount, .rmdir]⟩ :=
  format_take_ownership_compensation { format_env_ok with chmod := false } .cleartext ⟨true, []⟩
    rfl rfl (Or.inr rfl)

/-! ### Format: what each piece does when it goes through -/

/-- The wipe part: when it goes through, its effects are the wipe steps and the
invocation is given up exactly under no-block; it never fails an assertion. -/
theorem format_wipe_result (env : FormatEnv) (options : FormatOptions) (st : FormatState) :
    match format_wipe env options st with
    | .next _ s =>
      s = ⟨st.invocation && !options.no_block, st.events ++ format_wipe_steps env options⟩
        ∧ (options.tear_down = true → env.block_teardown = none)
        ∧ env.launch_spawned_job
            ("wipefs -a " ++ env.escape_and_quote (env.block.device.getD "")) none = none
        ∧ env.wait_for_filesystem .original "empty" = none
    | .out s =>
      s.invocation = st.invocation
        ∧ ∃ l, s.events = st.events ++ l ∧ (st.invocation = true → error_reply_shape l = true)
    | .abort _ => False := by
  obtain ⟨inv, ev⟩ := st
  cases htd : options.tear_down <;> cases hbt : env.block_teardown <;>
  cases hl : env.launch_spawned_job
      ("wipefs -a " ++ env.escape_and_quote (env.block.device.getD "")) none <;>
  cases hwp : env.was_partitioned <;>
  cases hw : env.wait_for_filesystem .original "empty" <;>
  cases hnb : options.no_block <;> cases inv <;>
  simp [format_wipe, format_wipe_steps, Bind.bind, FormatM.bind, Pure.pure, emit, goto_out,
    return_error, return_error_if_invocation, complete_early, error_reply_shape,
    FormatEvent.isReply, FormatEvent.isCleanup, htd, hbt, hl, hwp, hw, hnb]

/-- One erase: the call is made; when it fails, the error reply follows it (when
the invocation is pending) and nothing else. -/
theorem format_erase_result (env : FormatEnv) (target : FormatTarget)
    (erase_type message : String) (st : FormatState) :
    match format_erase env target erase_type message st with
    | .next _ s =>
      s = ⟨st.invocation, st.events ++ [.erase_device target erase_type]⟩
        ∧ env.erase_device target erase_type = none
    | .out s =>
      ∃ e, env.erase_device target erase_type = some e
        ∧ s = ⟨st.invocation, st.events ++ .erase_device target erase_type ::
            (if st.invocation then [.return_error e.code (message ++ e.message) true]
              else [])⟩
    | .abort _ => False := by
  obtain ⟨inv, ev⟩ := st
  cases he : env.erase_device target erase_type <;> cases inv <;>
  simp [format_erase, Bind.bind, FormatM.bind, Pure.pure, emit, goto_out,
    return_error_if_invocation, he]

/-- The encryption part: when it goes through, its effects are the encryption
steps, the last of which records the opened mapping, and its result is the
block of the cleartext object; when it does not go through, the opened mapping
is not recorded. -/
theorem format_encrypt_result (env : FormatEnv) (passphrase : String) (st : FormatState) :
    match format_encrypt env passphrase st with
    | .next cleartext_block s =>
      ∃ mapped_name, make_block_luksname env.luks_id_uuid = some mapped_name
        ∧ s = ⟨st.invocation, st.events ++ format_encrypt_steps env passphrase mapped_name⟩
        ∧ env.wait_for_luks_cleartext = .ok ⟨some cleartext_block⟩
        ∧ env.launch_spawned_job (luks_format_command env) (some passphrase) = none
        ∧ env.wait_for_luks_uuid = none
        ∧ env.launch_spawned_job (luks_open_command env mapped_name) (some passphrase) = none
    | .out s =>
      s.invocation = st.invocation
        ∧ ∃ l, s.events = st.events ++ l ∧ .add_unlocked_luks ∉ l
          ∧ (st.invocation = true → error_reply_shape l = true)
    | .abort s =>
      make_block_luksname env.luks_id_uuid = none
        ∧ s = ⟨st.invocation, st.events ++
            [.spawned_job .original "format-mkfs" (luks_format_command env) (some passphrase),
              .wait_for_object .original .luks_uuid 30, .assertion_failed]⟩ := by
  obtain ⟨inv, ev⟩ := st
  cases h1 : env.launch_spawned_job (luks_format_command env) (some passphrase) with
  | some error_message =>
    simp only [luks_format_command] at h1
    cases inv <;>
    simp [format_encrypt, Bind.bind, FormatM.bind, Pure.pure, emit, goto_out,
      return_error_if_invocation, error_reply_shape, FormatEvent.isReply, h1]
  | none =>
    simp only [luks_format_command] at h1
    cases h2 : env.wait_for_luks_uuid with
    | some e =>
      cases inv <;>
      simp [format_encrypt, Bind.bind, FormatM.bind, Pure.pure, emit, goto_out,
        return_error_if_invocation, error_reply_shape, FormatEvent.isReply, h1, h2]
    | none =>
      cases h3 : make_block_luksname env.luks_id_uuid with
      | none =>
        simp [format_encrypt, luks_format_command, Bind.bind, FormatM.bind, Pure.pure, emit,
          assert_fail, h1, h2, h3]
      | some mapped_name =>
        cases h4 : env.launch_spawned_job (luks_open_command env mapped_name)
            (some passphrase) with
        | some error_message =>
          simp only [luks_open_command] at h4
          cases inv <;>
          simp [format_encrypt, Bind.bind, FormatM.bind, Pure.pure, emit, goto_out,
            return_error_if_invocation, error_reply_shape, FormatEvent.isReply, h1, h2, h3, h4]
        | none =>
          simp only [luks_open_command] at h4
          cases h5 : env.wait_for_luks_cleartext with
          | error e =>
            cases inv <;>
            simp [format_encrypt, Bind.bind, FormatM.bind, Pure.pure, emit, goto_out,
              return_error_if_invocation, error_reply_shape, FormatEvent.isReply, h1, h2, h3,
              h4, h5]
          | ok cleartext_object =>
            obtain ⟨block⟩ := cleartext_object
            cases block with
            | none =>
              cases inv <;>
              simp [format_encrypt, Bind.bind, FormatM.bind, Pure.pure, emit, goto_out,
                return_error_if_invocation, error_reply_shape, FormatEvent.isReply, h1, h2,
                h3, h4, h5]
            | some cleartext_block =>
              simp [format_encrypt, format_encrypt_steps, luks_format_command,
                luks_open_command, Bind.bind, FormatM.bind, Pure.pure, emit, h1, h2, h3, h4,
                h5]

/-- The authorization part: when it goes through, its effects are the
authorization checks, all of them granted, and the type is supported; it never
fails an assertion. -/
theorem format_authorize_result (env : FormatEnv) (type : String) (options : FormatOptions)
    (st : FormatState) :
    match format_authorize env type options st with
    | .next ctx s =>
      s = ⟨st.invocation, st.events ++ format_authorize_steps env options⟩
        ∧ env.get_fs_info type = some ctx.fs_info
        ∧ ctx.fs_info.command_create_fs = some ctx.command_create_fs
        ∧ env.check_authorization (format_action_id env options) = true
        ∧ ((options.config_items.isSome || options.tear_down) = true →
          env.check_authorization "org.storaged.Storaged.modify-system-configuration" = true)
    | .out s =>
      s.invocation = st.invocation
        ∧ ∃ l, s.events = st.events ++ l ∧ (st.invocation = true → error_reply_shape l = true)
    | .abort _ => False := by
  obtain ⟨inv, ev⟩ := st
  have hpart : (∃ p, env.partition = some p ∧ p.offset = 0)
      ∨ ∀ p, env.partition = some p → (p.offset = 0) = False := by
    cases hp : env.partition with
    | none => right; intro p h; cases h
    | some p =>
      by_cases ho : p.offset = 0
      · left; exact ⟨p, rfl, ho⟩
      · right; intro q h; cases h; exact eq_false ho
  cases hd : env.dup_object with
  | some e =>
    cases inv <;>
    simp [format_authorize, Bind.bind, FormatM.bind, Pure.pure, goto_out, return_error,
      error_reply_shape, FormatEvent.isReply, hd]
  | none =>
    rcases hpart with ⟨p, hp, ho⟩ | hpart
    · cases inv <;>
      simp [format_authorize, Bind.bind, FormatM.bind, Pure.pure, goto_out, return_error,
        error_reply_shape, FormatEvent.isReply, hd, hp, ho]
    · cases hu : env.get_caller_uid with
      | error e =>
        cases hp : env.partition <;> cases inv <;>
        simp [format_authorize, Bind.bind, FormatM.bind, Pure.pure, goto_out, return_error,
          error_reply_shape, FormatEvent.isReply, hd, hp, hpart, hu]
      | ok ids =>
        cases hf : env.get_fs_info type with
        | none =>
          cases hp : env.partition <;> cases inv <;>
          simp [format_authorize, Bind.bind, FormatM.bind, Pure.pure, goto_out, return_error,
            error_reply_shape, FormatEvent.isReply, hd, hp, hpart, hu, hf]
        | some fs_info =>
          cases hc : fs_info.command_create_fs with
          | none =>
            cases hp : env.partition <;> cases inv <;>
            simp [format_authorize, Bind.bind, FormatM.bind, Pure.pure, goto_out,
              return_error, error_reply_shape, FormatEvent.isReply, hd, hp, hpart, hu, hf, hc]
          | some command_create_fs =>
            cases ha : env.check_authorization (format_action_id env options) <;>
            cases h2 : (options.config_items.isSome || options.tear_down) <;>
            cases ha2 : env.check_authorization
              "org.storaged.Storaged.modify-system-configuration" <;>
            cases hp : env.partition <;> cases inv <;>
            simp [format_authorize, format_authorize_steps, check_authorization_sync,
              Bind.bind, FormatM.bind, Pure.pure, goto_out, return_error, emit,
              error_reply_shape, FormatEvent.isReply, hd, hp, hpart, hu, hf, hc, ha, h2, ha2]

/-! ### Format: the shape of a run -/

/-- From the second erase on: the erase call, when it is due, comes first, and
what follows are effects of the creation and the later parts. -/
theorem format_finish_events (env : FormatEnv) (type : String) (options : FormatOptions)
    (ctx : FormatContext) (to_mkfs : FormatTarget × StoragedBlock) (st : FormatState) :
    ∃ l, (format_finish env type options ctx to_mkfs st).state.events
        = st.events ++ format_erase_cleartext_steps options to_mkfs.1 ++ l
      ∧ ∀ e ∈ l, in_after_erase type to_mkfs.1 e = true := by
  have hplain : format_erase_cleartext env options to_mkfs.1 = pure () →
      format_erase_cleartext_steps options to_mkfs.1 = [] →
      ∃ l, (format_finish env type options ctx to_mkfs st).state.events
          = st.events ++ format_erase_cleartext_steps options to_mkfs.1 ++ l
        ∧ ∀ e ∈ l, in_after_erase type to_mkfs.1 e = true := by
    intro h1 h2
    obtain ⟨l, hl, hp⟩ := format_after_erase_only env type options ctx to_mkfs st
    refine ⟨l, ?_, hp⟩
    simp only [format_finish, h1, h2, format_pure_bind, List.append_nil]
    exact hl
  cases he : options.erase with
  | none =>
    exact hplain (by simp [format_erase_cleartext, he])
      (by simp [format_erase_cleartext_steps, he])
  | some erase_type =>
    cases hp : options.encrypt_passphrase with
    | none =>
      exact hplain (by simp [format_erase_cleartext, he, hp])
        (by simp [format_erase_cleartext_steps, he, hp])
    | some passphrase =>
      have hr := format_erase_result env to_mkfs.1 erase_type
        "Error erasing cleartext device: " st
      have hsteps : format_erase_cleartext_steps options to_mkfs.1
          = [.erase_device to_mkfs.1 erase_type] := by
        simp [format_erase_cleartext_steps, he, hp]
      have hcl : format_erase_cleartext env options to_mkfs.1
          = format_erase env to_mkfs.1 erase_type "Error erasing cleartext device: " := by
        simp [format_erase_cleartext, he, hp]
      simp only [format_finish, hcl, hsteps, Bind.bind, FormatM.bind]
      cases hres : format_erase env to_mkfs.1 erase_type "Error erasing cleartext device: " st with
      | next u s =>
        rw [hres] at hr
        obtain ⟨hs, -⟩ := hr
        subst hs
        obtain ⟨l, hl, hp⟩ := format_after_erase_only env type options ctx to_mkfs _
        exact ⟨l, hl, hp⟩
      | out s =>
        rw [hres] at hr
        obtain ⟨e, -, hs⟩ := hr
        refine ⟨if st.invocation then
          [.return_error e.code ("Error erasing cleartext device: " ++ e.message) true]
          else [], ?_, ?_⟩
        · simp [FormatStep.state, hs]
        · intro x hx
          split at hx
          · simp only [List.mem_singleton] at hx
            simp [hx, in_after_erase, in_create]
          · cases hx
      | abort s =>
        rw [hres] at hr
        exact hr.elim

/-- After the wipe, without a passphrase: the erase call on the original device,
when it is due, comes first, and what follows are effects of the creation and
the later parts on the original object. -/
theorem format_after_wipe_events_plain (env : FormatEnv) (type : String)
    (options : FormatOptions) (ctx : FormatContext) (st : FormatState)
    (hp : options.encrypt_passphrase = none) :
    ∃ l, (format_after_wipe env type options ctx st).state.events
        = st.events ++ format_erase_original_steps options ++ l
      ∧ ∀ e ∈ l, in_after_erase type .original e = true := by
  have hchoose : format_choose_to_mkfs env options = pure (FormatTarget.original, env.block) := by
    simp [format_choose_to_mkfs, hp]
  have hfin : ∀ s, ∃ l, (format_finish env type options ctx (FormatTarget.original, env.block)
        s).state.events = s.events ++ l
      ∧ ∀ e ∈ l, in_after_erase type .original e = true := by
    intro s
    obtain ⟨l, hl, hq⟩ := format_finish_events env type options ctx
      (FormatTarget.original, env.block) s
    refine ⟨l, ?_, hq⟩
    rw [hl]
    simp [format_erase_cleartext_steps, hp]
  cases he : options.erase with
  | none =>
    obtain ⟨l, hl, hq⟩ := hfin st
    refine ⟨l, ?_, hq⟩
    have h1 : format_erase_original env options = pure () := by
      simp [format_erase_original, he]
    simp only [format_after_wipe, h1, hchoose, format_pure_bind, hl]
    simp [format_erase_original_steps, he]
  | some erase_type =>
    have hr := format_erase_result env .original erase_type "Error erasing device: " st
    have hsteps : format_erase_original_steps options
        = [.erase_device .original erase_type] := by
      simp [format_erase_original_steps, he, hp]
    have hor : format_erase_original env options
        = format_erase env .original erase_type "Error erasing device: " := by
      simp [format_erase_original, he, hp]
    simp only [format_after_wipe, hor, hchoose, hsteps, format_pure_bind, Bind.bind,
      FormatM.bind]
    cases hres : format_erase env .original erase_type "Error erasing device: " st with
    | next u s =>
      rw [hres] at hr
      obtain ⟨hs, -⟩ := hr
      subst hs
      obtain ⟨l, hl, hq⟩ := hfin _
      exact ⟨l, hl, hq⟩
    | out s =>
      rw [hres] at hr
      obtain ⟨e, -, hs⟩ := hr
      refine ⟨if st.invocation then
        [.return_error e.code ("Error erasing device: " ++ e.message) true] else [], ?_, ?_⟩
      · simp [FormatStep.state, hs]
      · intro x hx
        split at hx
        · simp only [List.mem_singleton] at hx
          simp [hx, in_after_erase, in_create]
        · cases hx
    | abort s =>
      rw [hres] at hr
      exact hr.elim

/-- After the wipe, with a passphrase: either the encryption part does not go
through, and then the opened mapping is not recorded and nothing but effects of
the encryption part occur; or its steps are followed by the erase call on the
cleartext object, when it is due, and then by effects of the creation and the
later parts on the cleartext object. -/
theorem format_after_wipe_events_encrypted (env : FormatEnv) (type : String)
    (options : FormatOptions) (ctx : FormatContext) (st : FormatState) (passphrase : String)
    (hp : options.encrypt_passphrase = some passphrase) :
    (∃ l, (format_after_wipe env type options ctx st).state.events = st.events ++ l
        ∧ (∀ e ∈ l, in_encrypt env passphrase e = true) ∧ .add_unlocked_luks ∉ l)
    ∨ (∃ mapped_name l, make_block_luksname env.luks_id_uuid = some mapped_name
        ∧ (format_after_wipe env type options ctx st).state.events
          = st.events ++ format_encrypt_steps env passphrase mapped_name
            ++ format_erase_cleartext_steps options .cleartext ++ l
        ∧ ∀ e ∈ l, in_after_erase type .cleartext e = true) := by
  have h1 : format_erase_original env options = pure () := by
    cases he : options.erase <;> simp [format_erase_original, he, hp]
  have h2 : format_choose_to_mkfs env options
      = (format_encrypt env passphrase >>= fun cleartext_block =>
          pure (FormatTarget.cleartext, cleartext_block)) := by
    simp [format_choose_to_mkfs, hp]
  have hr := format_encrypt_result env passphrase st
  obtain ⟨l0, hl0, hq0⟩ := format_encrypt_only env passphrase st
  simp only [format_after_wipe, h1, h2, format_pure_bind, format_bind_assoc, Bind.bind,
    FormatM.bind]
  cases hres : format_encrypt env passphrase st with
  | next cleartext_block s =>
    rw [hres] at hr
    obtain ⟨mapped_name, hn, hs, -⟩ := hr
    subst hs
    right
    obtain ⟨l, hl, hq⟩ := format_finish_events env type options ctx
      (FormatTarget.cleartext, cleartext_block) _
    exact ⟨mapped_name, l, hn, hl, hq⟩
  | out s =>
    rw [hres] at hr hl0
    obtain ⟨-, l, hl, hn, -⟩ := hr
    left
    simp only [FormatStep.state] at hl0 ⊢
    have : l = l0 := List.append_cancel_left (hl.symm.trans hl0)
    subst this
    exact ⟨l, hl, hq0, hn⟩
  | abort s =>
    rw [hres] at hr hl0
    obtain ⟨-, hs⟩ := hr
    left
    simp only [FormatStep.state] at hl0 ⊢
    refine ⟨l0, hl0, hq0, ?_⟩
    rw [hs] at hl0
    have : l0 = _ := (List.append_cancel_left hl0).symm
    rw [this]
    simp

/-- A run of Format is the effects of the body followed at most by the release of
the inhibit cookie. -/
theorem format_run_tail (env : FormatEnv) (type : String) (options : FormatOptions) :
    ∃ tail, storaged_linux_block_handle_format env type options
        = (format_body env type options ⟨true, []⟩).state.events ++ tail
      ∧ ∀ e ∈ tail, e = .uninhibit_system := by
  refine ⟨_, format_run_eq env type options, ?_⟩
  intro e he
  split at he
  · cases he
  · simpa using he

/-- The shape of a run of Format. Either it stops in the authorization or wipe
part; or, without a passphrase, the authorization and wipe steps are followed
by the erase call on the original device, when it is due, and then by effects
of the creation and the later parts on the original object; or, with a
passphrase, the encryption part fails and the opened mapping is never recorded;
or the authorization, wipe and encryption steps are followed by the erase call
on the cleartext object, when it is due, and then by effects of the creation and
the later parts on the cleartext object. -/
theorem format_run_shape (env : FormatEnv) (type : String) (options : FormatOptions) :
    (∀ e ∈ storaged_linux_block_handle_format env type options,
      in_authorize env options e = true ∨ in_wipe env e = true ∨ e = .uninhibit_system)
    ∨ (options.encrypt_passphrase = none
      ∧ ∃ l, storaged_linux_block_handle_format env type options
          = format_authorize_steps env options ++ format_wipe_steps env options
            ++ format_erase_original_steps options ++ l
        ∧ ∀ e ∈ l, in_after_erase type .original e = true ∨ e = .uninhibit_system)
    ∨ (∃ passphrase, options.encrypt_passphrase = some passphrase
      ∧ ∃ l, storaged_linux_block_handle_format env type options
          = format_authorize_steps env options ++ format_wipe_steps env options ++ l
        ∧ (∀ e ∈ l, in_encrypt env passphrase e = true ∨ e = .uninhibit_system)
        ∧ .add_unlocked_luks ∉ l)
    ∨ (∃ passphrase mapped_name, options.encrypt_passphrase = some passphrase
      ∧ make_block_luksname env.luks_id_uuid = some mapped_name
      ∧ ∃ l, storaged_linux_block_handle_format env type options
          = format_authorize_steps env options ++ format_wipe_steps env options
            ++ format_encrypt_steps env passphrase mapped_name
            ++ format_erase_cleartext_steps options .cleartext ++ l
        ∧ ∀ e ∈ l, in_after_erase type .cleartext e = true ∨ e = .uninhibit_system) := by
  obtain ⟨tail, hrun, htail⟩ := format_run_tail env type options
  have hA := format_authorize_result env type options ⟨true, []⟩
  obtain ⟨lA, hlA, hqA⟩ := format_authorize_only env type options ⟨true, []⟩
  rw [format_body_eq] at hrun
  simp only [Bind.bind, FormatM.bind] at hrun
  cases hres : format_authorize env type options ⟨true, []⟩ with
  | abort s => rw [hres] at hA; exact hA.elim
  | out s =>
    left
    rw [hres] at hlA hrun
    simp only [FormatStep.state, List.nil_append] at hlA hrun
    intro e he
    rw [hrun, hlA] at he
    rcases List.mem_append.1 he with h | h
    · exact Or.inl (hqA e h)
    · exact Or.inr (Or.inr (htail e h))
  | next ctx s1 =>
    rw [hres] at hA hlA hrun
    obtain ⟨hs1, -⟩ := hA
    simp only [FormatStep.state, List.nil_append] at hlA hs1
    subst hs1
    simp only at hlA hrun
    have hW := format_wipe_result env options ⟨true, format_authorize_steps env options⟩
    obtain ⟨lW, hlW, hqW⟩ := format_wipe_only env options
      ⟨true, format_authorize_steps env options⟩
    cases hresW : format_wipe env options ⟨true, format_authorize_steps env options⟩ with
    | abort s => rw [hresW] at hW; exact hW.elim
    | out s =>
      left
      rw [hresW] at hlW hrun
      simp only [FormatStep.state] at hlW hrun
      intro e he
      rw [hrun, hlW] at he
      rcases List.mem_append.1 he with h | h
      · rcases List.mem_append.1 h with h | h
        · exact Or.inl (hqA e (hlA ▸ h))
        · exact Or.inr (Or.inl (hqW e h))
      · exact Or.inr (Or.inr (htail e h))
    | next u s2 =>
      rw [hresW] at hW hrun
      obtain ⟨hs2, -⟩ := hW
      subst hs2
      simp only at hrun
      right
      cases hp : options.encrypt_passphrase with
      | none =>
        left
        obtain ⟨l, hl, hq⟩ := format_after_wipe_events_plain env type options ctx
          ⟨true && !options.no_block,
            format_authorize_steps env options ++ format_wipe_steps env options⟩ hp
        refine ⟨rfl, l ++ tail, ?_, ?_⟩
        · rw [hrun, hl]
          simp
        · intro e he
          rcases List.mem_append.1 he with h | h
          · exact Or.inl (hq e h)
          · exact Or.inr (htail e h)
      | some passphrase =>
        right
        rcases format_after_wipe_events_encrypted env type options ctx
          ⟨true && !options.no_block,
            format_authorize_steps env options ++ format_wipe_steps env options⟩
          passphrase hp with ⟨l, hl, hq, hn⟩ | ⟨mapped_name, l, hm, hl, hq⟩
        · left
          refine ⟨passphrase, rfl, l ++ tail, ?_, ?_, ?_⟩
          · rw [hrun, hl]
            simp
          · intro e he
            rcases List.mem_append.1 he with h | h
            · exact Or.inl (hq e h)
            · exact Or.inr (htail e h)
          · intro he
            rcases List.mem_append.1 he with h | h
            · exact hn h
            · cases htail _ h
        · right
          refine ⟨passphrase, mapped_name, rfl, hm, l ++ tail, ?_, ?_⟩
          · rw [hrun, hl]
            simp
          · intro e he
            rcases List.mem_append.1 he with h | h
            · exact Or.inl (hq e h)
            · exact Or.inr (htail e h)

/-! ### Format: the erase call -/

theorem in_authorize_facts (env : FormatEnv) (options : FormatOptions) (e : FormatEvent)
    (h : in_authorize env options e = true) :
    e.isEraseDevice = false ∧ e ≠ .add_unlocked_luks := by
  cases e <;> simp [in_authorize, FormatEvent.isEraseDevice] at h ⊢

theorem in_wipe_facts (env : FormatEnv) (e : FormatEvent) (h : in_wipe env e = true) :
    e.isEraseDevice = false ∧ e ≠ .add_unlocked_luks := by
  cases e <;> simp [in_wipe, FormatEvent.isEraseDevice] at h ⊢

theorem in_encrypt_facts (env : FormatEnv) (passphrase : String) (e : FormatEvent)
    (h : in_encrypt env passphrase e = true) : e.isEraseDevice = false := by
  cases e <;> simp [in_encrypt, FormatEvent.isEraseDevice] at h ⊢

theorem in_after_erase_facts (type : String) (target : FormatTarget) (e : FormatEvent)
    (h : in_after_erase type target e = true) :
    e.isEraseDevice = false ∧ e ≠ .add_unlocked_luks := by
  cases e <;>
    simp [in_after_erase, in_create, in_take_ownership, in_set_partition_type, in_config,
      FormatEvent.isEraseDevice] at h ⊢

theorem format_authorize_steps_facts (env : FormatEnv) (options : FormatOptions)
    (e : FormatEvent) (h : e ∈ format_authorize_steps env options) :
    e.isEraseDevice = false ∧ e ≠ .add_unlocked_luks := by
  have hall : (format_authorize_steps env options).all
      (fun e => !e.isEraseDevice && decide (e ≠ .add_unlocked_luks)) = true := by
    cases h1 : (options.config_items.isSome || options.tear_down) <;>
      simp [format_authorize_steps, FormatEvent.isEraseDevice, h1]
  simpa using List.all_eq_true.1 hall e h

theorem format_wipe_steps_facts (env : FormatEnv) (options : FormatOptions)
    (e : FormatEvent) (h : e ∈ format_wipe_steps env options) :
    e.isEraseDevice = false ∧ e ≠ .add_unlocked_luks := by
  have hall : (format_wipe_steps env options).all
      (fun e => !e.isEraseDevice && decide (e ≠ .add_unlocked_luks)) = true := by
    cases h1 : options.tear_down <;> cases h2 : env.was_partitioned <;>
    cases h3 : options.no_block <;>
      simp [format_wipe_steps, FormatEvent.isEraseDevice, h1, h2, h3]
  simpa using List.all_eq_true.1 hall e h

theorem format_encrypt_steps_facts (env : FormatEnv) (passphrase mapped_name : String)
    (e : FormatEvent) (h : e ∈ format_encrypt_steps env passphrase mapped_name) :
    e.isEraseDevice = false := by
  simp only [format_encrypt_steps, List.mem_cons, List.mem_singleton, List.not_mem_nil,
    or_false] at h
  rcases h with h | h | h | h | h <;> subst h <;> simp [FormatEvent.isEraseDevice]

theorem countP_eq_zero_of_facts (l : List FormatEvent)
    (h : ∀ e ∈ l, e.isEraseDevice = false) : l.countP FormatEvent.isEraseDevice = 0 := by
  rw [List.countP_eq_zero]
  intro e he
  simp [h e he]

/-- C16: in one run of Format `erase_device` is called at most once. A call is made
with the requested erase mode, on the original device only when no passphrase
was given and then directly after the steps of the wipe, on the cleartext
device only when a passphrase was given and then directly after the steps of
the encryption part, the last of which records the opened mapping. When an
erase mode is requested and no passphrase is given, the call on the original
device is made unless the run stops in the authorization or wipe part; when an
erase mode is requested and the opened mapping has been recorded, the call on
the cleartext device is made; without a requested erase mode no call is made. -/
theorem format_erase_at_most_once (env : FormatEnv) (type : String)
    (options : FormatOptions) :
    (storaged_linux_block_handle_format env type options).countP FormatEvent.isEraseDevice ≤ 1
    ∧ (∀ t y, .erase_device t y ∈ storaged_linux_block_handle_format env type options →
        options.erase = some y
          ∧ ((t = .original ∧ options.encrypt_passphrase = none)
            ∨ (t = .cleartext ∧ options.encrypt_passphrase.isSome = true)))
    ∧ (∀ y, .erase_device .original y ∈ storaged_linux_block_handle_format env type options →
        ∃ post, storaged_linux_block_handle_format env type options
          = format_authorize_steps env options ++ format_wipe_steps env options
            ++ .erase_device .original y :: post)
    ∧ (∀ y, .erase_device .cleartext y ∈ storaged_linux_block_handle_format env type options →
        ∃ passphrase mapped_name post, options.encrypt_passphrase = some passphrase
          ∧ storaged_linux_block_handle_format env type options
            = format_authorize_steps env options ++ format_wipe_steps env options
              ++ format_encrypt_steps env passphrase mapped_name
              ++ .erase_device .cleartext y :: post)
    ∧ (∀ y, options.erase = some y → options.encrypt_passphrase = none →
        .erase_device .original y ∈ storaged_linux_block_handle_format env type options
          ∨ ∀ e ∈ storaged_linux_block_handle_format env type options,
              in_authorize env options e = true ∨ in_wipe env e = true
                ∨ e = .uninhibit_system)
    ∧ (∀ y, options.erase = some y →
        .add_unlocked_luks ∈ storaged_linux_block_handle_format env type options →
        .erase_device .cleartext y ∈ storaged_linux_block_handle_format env type options)
    ∧ (options.erase = none →
        ∀ t y, .erase_device t y ∉ storaged_linux_block_handle_format env type options) := by
  have hA := format_authorize_steps_facts env options
  have hW := format_wipe_steps_facts env options
  have hkey : (storaged_linux_block_handle_format env type options).countP
        FormatEvent.isEraseDevice ≤ 1
      ∧ (∀ t y, .erase_device t y ∈ storaged_linux_block_handle_format env type options →
        options.erase = some y
          ∧ ((t = .original ∧ options.encrypt_passphrase = none
              ∧ ∃ post, storaged_linux_block_handle_format env type options
                = format_authorize_steps env options ++ format_wipe_steps env options
                  ++ .erase_device .original y :: post)
            ∨ (t = .cleartext
              ∧ ∃ passphrase mapped_name post, options.encrypt_passphrase = some passphrase
                ∧ storaged_linux_block_handle_format env type options
                  = format_authorize_steps env options ++ format_wipe_steps env options
                    ++ format_encrypt_steps env passphrase mapped_name
                    ++ .erase_device .cleartext y :: post)))
      ∧ (∀ y, options.erase = some y → options.encrypt_passphrase = none →
        .erase_device .original y ∈ storaged_linux_block_handle_format env type options
          ∨ ∀ e ∈ storaged_linux_block_handle_format env type options,
              in_authorize env options e = true ∨ in_wipe env e = true
                ∨ e = .uninhibit_system)
      ∧ (∀ y, options.erase = some y →
        .add_unlocked_luks ∈ storaged_linux_block_handle_format env type options →
        .erase_device .cleartext y ∈ storaged_linux_block_handle_format env type options) := by
    rcases format_run_shape env type options with h | ⟨hp, l, hrun, hl⟩
      | ⟨passphrase, hp, l, hrun, hl, hn⟩ | ⟨passphrase, mapped_name, hp, hm, l, hrun, hl⟩
    · -- the run stops in the authorization or wipe part
      have hfacts : ∀ e ∈ storaged_linux_block_handle_format env type options,
          e.isEraseDevice = false ∧ e ≠ .add_unlocked_luks := by
        intro e he
        rcases h e he with h1 | h1 | h1
        · exact in_authorize_facts env options e h1
        · exact in_wipe_facts env e h1
        · subst h1; simp [FormatEvent.isEraseDevice]
      refine ⟨?_, ?_, ?_, ?_⟩
      · rw [countP_eq_zero_of_facts _ (fun e he => (hfacts e he).1)]
        exact Nat.zero_le _
      · intro t y hmem
        have := (hfacts _ hmem).1
        simp [FormatEvent.isEraseDevice] at this
      · intro y _ _
        exact Or.inr h
      · intro y _ hmem
        exact absurd rfl (hfacts _ hmem).2
    · -- no passphrase
      have hlf : ∀ e ∈ l, e.isEraseDevice = false ∧ e ≠ .add_unlocked_luks := by
        intro e he
        rcases hl e he with h1 | h1
        · exact in_after_erase_facts type .original e h1
        · subst h1; simp [FormatEvent.isEraseDevice]
      cases he : options.erase with
      | none =>
        have hE : format_erase_original_steps options = [] := by
          simp [format_erase_original_steps, he]
        rw [hE, List.append_nil] at hrun
        have hfacts : ∀ e ∈ storaged_linux_block_handle_format env type options,
            e.isEraseDevice = false ∧ e ≠ .add_unlocked_luks := by
          intro e hmem
          rw [hrun] at hmem
          rcases List.mem_append.1 hmem with h1 | h1
          · rcases List.mem_append.1 h1 with h2 | h2
            · exact hA e h2
            · exact hW e h2
          · exact hlf e h1
        refine ⟨?_, ?_, ?_, ?_⟩
        · rw [countP_eq_zero_of_facts _ (fun e he => (hfacts e he).1)]
          exact Nat.zero_le _
        · intro t y hmem
          have := (hfacts _ hmem).1
          simp [FormatEvent.isEraseDevice] at this
        · intro y hy
          cases hy
        · intro y _ hmem
          exact absurd rfl (hfacts _ hmem).2
      | some erase_type =>
        have hE : format_erase_original_steps options
            = [.erase_device .original erase_type] := by
          simp [format_erase_original_steps, he, hp]
        rw [hE] at hrun
        have hmemiff : ∀ e ∈ storaged_linux_block_handle_format env type options,
            e = .erase_device .original erase_type
              ∨ (e.isEraseDevice = false ∧ e ≠ .add_unlocked_luks) := by
          intro e hmem
          rw [hrun] at hmem
          rcases List.mem_append.1 hmem with h1 | h1
          · rcases List.mem_append.1 h1 with h2 | h2
            · rcases List.mem_append.1 h2 with h3 | h3
              · exact Or.inr (hA e h3)
              · exact Or.inr (hW e h3)
            · exact Or.inl (by simpa using h2)
          · exact Or.inr (hlf e h1)
        refine ⟨?_, ?_, ?_, ?_⟩
        · rw [hrun]
          simp only [List.countP_append, List.countP_cons, List.countP_nil]
          rw [countP_eq_zero_of_facts _ (fun e he => (hA e he).1),
            countP_eq_zero_of_facts _ (fun e he => (hW e he).1),
            countP_eq_zero_of_facts _ (fun e he => (hlf e he).1)]
          simp [FormatEvent.isEraseDevice]
        · intro t y hmem
          rcases hmemiff _ hmem with h1 | h1
          · cases h1
            exact ⟨rfl, Or.inl ⟨rfl, hp, l, by rw [hrun]; simp⟩⟩
          · have := h1.1
            simp [FormatEvent.isEraseDevice] at this
        · intro y hy _
          cases hy
          left
          rw [hrun]
          simp
        · intro y _ hmem
          rcases hmemiff _ hmem with h1 | h1
          · cases h1
          · exact absurd rfl h1.2
    · -- the encryption part fails
      have hfacts : ∀ e ∈ storaged_linux_block_handle_format env type options,
          e.isEraseDevice = false ∧ e ≠ .add_unlocked_luks := by
        intro e hmem
        rw [hrun] at hmem
        rcases List.mem_append.1 hmem with h1 | h1
        · rcases List.mem_append.1 h1 with h2 | h2
          · exact hA e h2
          · exact hW e h2
        · refine ⟨?_, fun h => hn (h ▸ h1)⟩
          rcases hl e h1 with h2 | h2
          · exact in_encrypt_facts env passphrase e h2
          · subst h2; simp [FormatEvent.isEraseDevice]
      refine ⟨?_, ?_, ?_, ?_⟩
      · rw [countP_eq_zero_of_facts _ (fun e he => (hfacts e he).1)]
        exact Nat.zero_le _
      · intro t y hmem
        have := (hfacts _ hmem).1
        simp [FormatEvent.isEraseDevice] at this
      · intro y _ hnone
        rw [hp] at hnone
        cases hnone
      · intro y _ hmem
        exact absurd rfl (hfacts _ hmem).2
    · -- the encryption part goes through
      have hlf : ∀ e ∈ l, e.isEraseDevice = false := by
        intro e he
        rcases hl e he with h1 | h1
        · exact (in_after_erase_facts type .cleartext e h1).1
        · subst h1; simp [FormatEvent.isEraseDevice]
      have hS := format_encrypt_steps_facts env passphrase mapped_name
      cases he : options.erase with
      | none =>
        have hE : format_erase_cleartext_steps options .cleartext = [] := by
          simp [format_erase_cleartext_steps, he]
        rw [hE, List.append_nil] at hrun
        have hfacts : ∀ e ∈ storaged_linux_block_handle_format env type options,
            e.isEraseDevice = false := by
          intro e hmem
          rw [hrun] at hmem
          rcases List.mem_append.1 hmem with h1 | h1
          · rcases List.mem_append.1 h1 with h2 | h2
            · rcases List.mem_append.1 h2 with h3 | h3
              · exact (hA e h3).1
              · exact (hW e h3).1
            · exact hS e h2
          · exact hlf e h1
        refine ⟨?_, ?_, ?_, ?_⟩
        · rw [countP_eq_zero_of_facts _ hfacts]
          exact Nat.zero_le _
        · intro t y hmem
          have := hfacts _ hmem
          simp [FormatEvent.isEraseDevice] at this
        · intro y hy
          cases hy
        · intro y hy
          cases hy
      | some erase_type =>
        have hE : format_erase_cleartext_steps options .cleartext
            = [.erase_device .cleartext erase_type] := by
          simp [format_erase_cleartext_steps, he, hp]
        rw [hE] at hrun
        have hmemiff : ∀ e ∈ storaged_linux_block_handle_format env type options,
            e = .erase_device .cleartext erase_type ∨ e.isEraseDevice = false := by
          intro e hmem
          rw [hrun] at hmem
          rcases List.mem_append.1 hmem with h1 | h1
          · rcases List.mem_append.1 h1 with h2 | h2
            · rcases List.mem_append.1 h2 with h3 | h3
              · rcases List.mem_append.1 h3 with h4 | h4
                · exact Or.inr (hA e h4).1
                · exact Or.inr (hW e h4).1
              · exact Or.inr (hS e h3)
            · exact Or.inl (by simpa using h2)
          · exact Or.inr (hlf e h1)
        refine ⟨?_, ?_, ?_, ?_⟩
        · rw [hrun]
          simp only [List.countP_append, List.countP_cons, List.countP_nil]
          rw [countP_eq_zero_of_facts _ (fun e he => (hA e he).1),
            countP_eq_zero_of_facts _ (fun e he => (hW e he).1),
            countP_eq_zero_of_facts _ hS, countP_eq_zero_of_facts _ hlf]
          simp [FormatEvent.isEraseDevice]
        · intro t y hmem
          rcases hmemiff _ hmem with h1 | h1
          · cases h1
            exact ⟨rfl, Or.inr ⟨rfl, passphrase, mapped_name, l, hp, by rw [hrun]; simp⟩⟩
          · simp [FormatEvent.isEraseDevice] at h1
        · intro y _ hnone
          rw [hp] at hnone
          cases hnone
        · intro y hy _
          cases hy
          rw [hrun]
          simp
  obtain ⟨h1, h2, h3, h4⟩ := hkey
  refine ⟨h1, ?_, ?_, ?_, h3, h4, ?_⟩
  · intro t y hmem
    obtain ⟨he, h⟩ := h2 t y hmem
    refine ⟨he, ?_⟩
    rcases h with ⟨ht, hp, -⟩ | ⟨ht, p, n, post, hp, -⟩
    · exact Or.inl ⟨ht, hp⟩
    · exact Or.inr ⟨ht, by simp [hp]⟩
  · intro y hmem
    obtain ⟨-, h⟩ := h2 _ y hmem
    rcases h with ⟨-, -, h⟩ | ⟨ht, -⟩
    · exact h
    · cases ht
  · intro y hmem
    obtain ⟨-, h⟩ := h2 _ y hmem
    rcases h with ⟨ht, -⟩ | ⟨-, h⟩
    · cases ht
    · exact h
  · intro hnone t y hmem
    have := (h2 t y hmem).1
    rw [hnone] at this
    cases this

/-! ### Format: the object of the steps after the encryption -/

/-- With a passphrase and the type gpt, the partition table primitive is called
for the original block, while the uevent trigger and the wait that follow it
are made on the cleartext object. -/
theorem format_part_create_table_on_original :
    storaged_linux_block_handle_format format_env_ok "gpt"
        { encrypt_passphrase := some "secret" }
      = [.check_authorization "org.storaged.Storaged.modify-device",
          .inhibit_system,
          .spawned_job .original "format-erase" "wipefs -a \"/dev/sdb\"" none,
          .trigger_uevent .original, .wait_for_object .original (.filesystem "empty") 15,
          .spawned_job .original "format-mkfs" "cryptsetup luksFormat \"\"/dev/sdb\"\""
            (some "secret"),
          .wait_for_object .original .luks_uuid 30,
          .spawned_job .original "format-mkfs"
            "cryptsetup luksOpen \"\"/dev/sdb\"\" luks-1234" (some "secret"),
          .wait_for_object .original .luks_cleartext 30,
          .add_unlocked_luks,
          .part_create_table .original "gpt",
          .trigger_uevent .cleartext, .wait_for_object .cleartext (.filesystem "gpt") 30,
          .complete, .uninhibit_system] := by
  decide

theorem follows_pure {α : Type} (g : FormatEvent → FormatEvent) (a : α) :
    Follows g (pure a : FormatM α) (pure a) :=
  fun _ => rfl

theorem follows_bind {α β : Type} {g : FormatEvent → FormatEvent} {m1 m2 : FormatM α}
    {f1 f2 : α → FormatM β} (hm : Follows g m1 m2) (hf : ∀ a, Follows g (f1 a) (f2 a)) :
    Follows g (m1 >>= f1) (m2 >>= f2) := by
  intro st
  simp only [Bind.bind, FormatM.bind, hm st]
  cases m1 st with
  | next a s => exact hf a s
  | out s => rfl
  | abort s => rfl

theorem follows_emit {g : FormatEvent → FormatEvent} {e : FormatEvent} (h : g e = e) :
    Follows g (emit e) (emit e) := by
  intro st
  simp [emit, FormatStep.map_events, FormatState.map_events, h]

theorem follows_goto_out {α : Type} (g : FormatEvent → FormatEvent) :
    Follows g (goto_out : FormatM α) goto_out :=
  fun _ => rfl

theorem follows_bind_goto_out {α β : Type} (g : FormatEvent → FormatEvent)
    (f1 f2 : α → FormatM β) :
    Follows g ((goto_out : FormatM α) >>= f1) ((goto_out : FormatM α) >>= f2) :=
  fun _ => rfl

theorem follows_ite {α : Type} {g : FormatEvent → FormatEvent} {c : Prop} [Decidable c]
    {a1 b1 a2 b2 : FormatM α} (ha : Follows g a1 a2) (hb : Follows g b1 b2) :
    Follows g (if c then a1 else b1) (if c then a2 else b2) := by
  split
  · exact ha
  · exact hb

theorem follows_return_error (p : String) (c : StoragedError) (msg : String) :
    Follows (FormatEvent.with_input p) (return_error c msg) (return_error c msg) := by
  intro st
  simp [return_error, FormatStep.map_events, FormatState.map_events, FormatEvent.with_input]

theorem follows_return_error_if_invocation (p : String) (c : StoragedError) (msg : String) :
    Follows (FormatEvent.with_input p) (return_error_if_invocation c msg)
      (return_error_if_invocation c msg) := by
  intro st
  cases hi : st.invocation <;>
    simp [return_error_if_invocation, FormatStep.map_events, FormatState.map_events,
      FormatEvent.with_input, hi]

theorem follows_complete_early (p : String) :
    Follows (FormatEvent.with_input p) complete_early complete_early := by
  intro st
  simp [complete_early, FormatStep.map_events, FormatState.map_events, FormatEvent.with_input]

theorem follows_complete_if_invocation (p : String) :
    Follows (FormatEvent.with_input p) complete_if_invocation complete_if_invocation := by
  intro st
  cases hi : st.invocation <;>
    simp [complete_if_invocation, FormatStep.map_events, FormatState.map_events,
      FormatEvent.with_input, hi]

theorem check_authorization_sync_follows (env : FormatEnv) (a p : String) :
    Follows (FormatEvent.with_input p) (check_authorization_sync env a)
      (check_authorization_sync env a) := by
  unfold check_authorization_sync
  repeat' (first
    | exact follows_pure _ _
    | exact follows_goto_out _
    | exact follows_emit rfl
    | exact follows_return_error _ _ _
    | refine follows_bind ?_ (fun _ => ?_)
    | refine follows_ite ?_ ?_)

set_option maxRecDepth 8000 in
theorem format_authorize_follows (env : FormatEnv) (type p : String)
    (options : FormatOptions) :
    Follows (FormatEvent.with_input p) (format_authorize env type options)
      (format_authorize env type options) := by
  unfold format_authorize
  dsimp only
  repeat' (first
    | exact follows_pure _ _
    | exact follows_goto_out _
    | exact follows_bind_goto_out _ _ _
    | exact check_authorization_sync_follows _ _ _
    | exact follows_return_error _ _ _
    | refine follows_bind ?_ (fun _ => ?_)
    | refine follows_ite ?_ ?_
    | split)

set_option maxRecDepth 8000 in
theorem format_wipe_follows (env : FormatEnv) (p : String) (options : FormatOptions) :
    Follows (FormatEvent.with_input p) (format_wipe env options) (format_wipe env options) := by
  unfold format_wipe
  dsimp only
  repeat' (first
    | exact follows_pure _ _
    | exact follows_goto_out _
    | exact follows_bind_goto_out _ _ _
    | exact follows_emit rfl
    | exact follows_complete_early _
    | exact follows_return_error _ _ _
    | exact follows_return_error_if_invocation _ _ _
    | refine follows_bind ?_ (fun _ => ?_)
    | refine follows_ite ?_ ?_
    | split)

theorem format_erase_follows (env : FormatEnv) (p : String) (target : FormatTarget)
    (erase_type message : String) :
    Follows (FormatEvent.with_input p) (format_erase env target erase_type message)
      (format_erase env target erase_type message) := by
  unfold format_erase
  repeat' (first
    | exact follows_pure _ _
    | exact follows_goto_out _
    | exact follows_bind_goto_out _ _ _
    | exact follows_emit rfl
    | exact follows_return_error_if_invocation _ _ _
    | refine follows_bind ?_ (fun _ => ?_)
    | refine follows_ite ?_ ?_
    | split)

set_option maxRecDepth 8000 in
theorem format_create_follows (env : FormatEnv) (type p : String) (options : FormatOptions)
    (ctx : FormatContext) (target : FormatTarget) (block_to_mkfs : StoragedBlock) :
    Follows (FormatEvent.with_input p)
      (format_create env type options ctx target block_to_mkfs)
      (format_create env type options ctx target block_to_mkfs) := by
  unfold format_create
  dsimp only
  repeat' (first
    | exact follows_pure _ _
    | exact follows_goto_out _
    | exact follows_bind_goto_out _ _ _
    | exact follows_emit rfl
    | exact follows_return_error _ _ _
    | exact follows_return_error_if_invocation _ _ _
    | refine follows_bind ?_ (fun _ => ?_)
    | refine follows_ite ?_ ?_
    | split)

set_option maxRecDepth 8000 in
theorem format_take_ownership_follows (env : FormatEnv) (p : String)
    (target : FormatTarget) :
    Follows (FormatEvent.with_input p) (format_take_ownership env target)
      (format_take_ownership env target) := by
  unfold format_take_ownership
  dsimp only
  repeat' (first
    | exact follows_pure _ _
    | exact follows_goto_out _
    | exact follows_bind_goto_out _ _ _
    | exact follows_emit rfl
    | exact follows_return_error_if_invocation _ _ _
    | refine follows_bind ?_ (fun _ => ?_)
    | refine follows_ite ?_ ?_)

theorem format_set_partition_type_follows (env : FormatEnv) (p : String)
    (ctx : FormatContext) :
    Follows (FormatEvent.with_input p) (format_set_partition_type env ctx)
      (format_set_partition_type env ctx) := by
  unfold format_set_partition_type
  repeat' (first
    | exact follows_pure _ _
    | exact follows_goto_out _
    | exact follows_bind_goto_out _ _ _
    | exact follows_emit rfl
    | exact follows_return_error _ _ _
    | refine follows_bind ?_ (fun _ => ?_)
    | refine follows_ite ?_ ?_
    | split)

theorem format_add_config_items_follows (env : FormatEnv) (p : String)
    (target : FormatTarget) (items : List ConfigurationItem) :
    Follows (FormatEvent.with_input p) (format_add_config_items env target items)
      (format_add_config_items env target items) := by
  induction items with
  | nil => exact follows_pure _ _
  | cons item rest ih =>
    obtain ⟨item_type, details⟩ := item
    unfold format_add_config_items
    dsimp only
    repeat' (first
      | exact ih
      | exact follows_pure _ _
      | exact follows_goto_out _
      | exact follows_bind_goto_out _ _ _
      | exact follows_emit rfl
      | exact follows_return_error _ _ _
      | refine follows_bind ?_ (fun _ => ?_)
      | refine follows_ite ?_ ?_
      | split)

theorem format_after_erase_follows (env : FormatEnv) (type p : String)
    (options : FormatOptions) (ctx : FormatContext) (to_mkfs : FormatTarget × StoragedBlock) :
    Follows (FormatEvent.with_input p) (format_after_erase env type options ctx to_mkfs)
      (format_after_erase env type options ctx to_mkfs) := by
  unfold format_after_erase format_take_ownership_if_requested
    format_add_config_items_if_given
  repeat' (first
    | exact follows_pure _ _
    | exact format_create_follows env type p options ctx _ _
    | exact format_take_ownership_follows env p _
    | exact format_set_partition_type_follows env p ctx
    | exact format_add_config_items_follows env p _ _
    | exact follows_complete_if_invocation _
    | refine follows_bind ?_ (fun _ => ?_)
    | refine follows_ite ?_ ?_
    | split)

theorem format_finish_follows (env : FormatEnv) (type p : String)
    (options : FormatOptions) (ctx : FormatContext) (to_mkfs : FormatTarget × StoragedBlock) :
    Follows (FormatEvent.with_input p) (format_finish env type options ctx to_mkfs)
      (format_finish env type options ctx to_mkfs) := by
  unfold format_finish format_erase_cleartext
  repeat' (first
    | exact follows_pure _ _
    | exact format_erase_follows env p _ _ _
    | exact format_after_erase_follows env type p options ctx to_mkfs
    | refine follows_bind ?_ (fun _ => ?_)
    | split)

/-- The encryption part with another passphrase does the same, up to the input
string of its jobs, when the results of the jobs are the same. -/
theorem format_encrypt_follows (env : FormatEnv) (p1 p2 : String)
    (h : ∀ c, env.launch_spawned_job c (some p1) = env.launch_spawned_job c (some p2)) :
    Follows (FormatEvent.with_input p2) (format_encrypt env p1) (format_encrypt env p2) := by
  intro st
  obtain ⟨inv, ev⟩ := st
  cases h1 : env.launch_spawned_job (luks_format_command env) (some p2) with
  | some error_message =>
    have h1' := (h _).trans h1
    simp only [luks_format_command] at h1 h1'
    cases inv <;>
    simp [format_encrypt, Bind.bind, FormatM.bind, Pure.pure, emit, goto_out,
      return_error_if_invocation, FormatStep.map_events, FormatState.map_events,
      FormatEvent.with_input, h1, h1']
  | none =>
    have h1' := (h _).trans h1
    simp only [luks_format_command] at h1 h1'
    cases h2 : env.wait_for_luks_uuid with
    | some e =>
      cases inv <;>
      simp [format_encrypt, Bind.bind, FormatM.bind, Pure.pure, emit, goto_out,
        return_error_if_invocation, FormatStep.map_events, FormatState.map_events,
        FormatEvent.with_input, h1, h1', h2]
    | none =>
      cases h3 : make_block_luksname env.luks_id_uuid with
      | none =>
        simp [format_encrypt, Bind.bind, FormatM.bind, Pure.pure, emit, assert_fail,
          FormatStep.map_events, FormatState.map_events, FormatEvent.with_input, h1, h1', h2,
          h3]
      | some mapped_name =>
        cases h4 : env.launch_spawned_job (luks_open_command env mapped_name) (some p2) with
        | some error_message =>
          have h4' := (h _).trans h4
          simp only [luks_open_command] at h4 h4'
          cases inv <;>
          simp [format_encrypt, Bind.bind, FormatM.bind, Pure.pure, emit, goto_out,
            return_error_if_invocation, FormatStep.map_events, FormatState.map_events,
            FormatEvent.with_input, h1, h1', h2, h3, h4, h4']
        | none =>
          have h4' := (h _).trans h4
          simp only [luks_open_command] at h4 h4'
          cases h5 : env.wait_for_luks_cleartext with
          | error e =>
            cases inv <;>
            simp [format_encrypt, Bind.bind, FormatM.bind, Pure.pure, emit, goto_out,
              return_error_if_invocation, FormatStep.map_events, FormatState.map_events,
              FormatEvent.with_input, h1, h1', h2, h3, h4, h4', h5]
          | ok cleartext_object =>
            obtain ⟨block⟩ := cleartext_object
            cases block with
            | none =>
              cases inv <;>
              simp [format_encrypt, Bind.bind, FormatM.bind, Pure.pure, emit, goto_out,
                return_error_if_invocation, FormatStep.map_events, FormatState.map_events,
                FormatEvent.with_input, h1, h1', h2, h3, h4, h4', h5]
            | some cleartext_block =>
              simp [format_encrypt, Bind.bind, FormatM.bind, Pure.pure, emit,
                FormatStep.map_events, FormatState.map_events, FormatEvent.with_input, h1,
                h1', h2, h3, h4, h4', h5]

/-- The body of Format with another passphrase does the same, up to the input
string of the jobs, when the results of the jobs are the same. -/
theorem format_body_follows (env : FormatEnv) (type : String) (options : FormatOptions)
    (p1 p2 : String)
    (h : ∀ c, env.launch_spawned_job c (some p1) = env.launch_spawned_job c (some p2)) :
    Follows (FormatEvent.with_input p2)
      (format_body env type { options with encrypt_passphrase := some p1 })
      (format_body env type { options with encrypt_passphrase := some p2 }) := by
  rw [format_body_eq, format_body_eq]
  have hA : format_authorize env type { options with encrypt_passphrase := some p2 }
      = format_authorize env type { options with encrypt_passphrase := some p1 } := rfl
  have hW : format_wipe env { options with encrypt_passphrase := some p2 }
      = format_wipe env { options with encrypt_passphrase := some p1 } := rfl
  rw [hA, hW]
  refine follows_bind (format_authorize_follows env type p2 _) (fun ctx => ?_)
  refine follows_bind (format_wipe_follows env p2 _) (fun _ => ?_)
  have hE : ∀ p, format_erase_original env { options with encrypt_passphrase := some p }
      = pure () := by
    intro p
    cases he : options.erase <;> simp [format_erase_original, he]
  have hF : ∀ to_mkfs,
      format_finish env type { options with encrypt_passphrase := some p2 } ctx to_mkfs
        = format_finish env type { options with encrypt_passphrase := some p1 } ctx
          to_mkfs := by
    intro to_mkfs
    cases he : options.erase <;>
      simp [format_finish, format_erase_cleartext, format_after_erase,
        format_take_ownership_if_requested, format_add_config_items_if_given, format_create,
        he]
  simp only [format_after_wipe, hE, format_pure_bind, format_choose_to_mkfs, hF,
    format_bind_assoc]
  refine follows_bind (format_encrypt_follows env p1 p2 h) (fun cb => ?_)
  exact format_finish_follows env type p2 _ ctx _

theorem with_input_command_line (p : String) (e : FormatEvent) :
    (e.with_input p).command_line = e.command_line := by
  cases e with
  | spawned_job t op c i => cases i <;> rfl
  | _ => rfl

/-- C18: two runs of Format that differ only in the value of the passphrase, with
jobs whose results do not depend on the input string, have the same effects up
to the input string of the jobs; in particular they spawn the same command
lines in the same order. In every run with a passphrase, a job either has no
input string, or has the passphrase as its input string and then its command
line is the encryption-format command, built from the device alone, or the
encryption-open command, built from the device and the mapped name. -/
theorem format_command_lines_independent_of_passphrase (env : FormatEnv) (type : String)
    (options : FormatOptions) (p1 p2 : String) :
    ((∀ c, env.launch_spawned_job c (some p1) = env.launch_spawned_job c (some p2)) →
      storaged_linux_block_handle_format env type { options with encrypt_passphrase := some p2 }
          = (storaged_linux_block_handle_format env type
              { options with encrypt_passphrase := some p1 }).map (FormatEvent.with_input p2)
        ∧ (storaged_linux_block_handle_format env type
              { options with encrypt_passphrase := some p2 }).filterMap
                FormatEvent.command_line
          = (storaged_linux_block_handle_format env type
              { options with encrypt_passphrase := some p1 }).filterMap
                FormatEvent.command_line)
    ∧ ∀ t op c i, .spawned_job t op c i
          ∈ storaged_linux_block_handle_format env type
              { options with encrypt_passphrase := some p1 } →
        i = none
          ∨ (i = some p1
            ∧ (c = luks_format_command env
              ∨ ∃ mapped_name, make_block_luksname env.luks_id_uuid = some mapped_name
                  ∧ c = luks_open_command env mapped_name)) := by
  constructor
  · intro h
    have hmap : storaged_linux_block_handle_format env type
          { options with encrypt_passphrase := some p2 }
        = (storaged_linux_block_handle_format env type
            { options with encrypt_passphrase := some p1 }).map
              (FormatEvent.with_input p2) := by
      have hb := format_body_follows env type options p1 p2 h ⟨true, []⟩
      simp only [FormatState.map_events, List.map_nil] at hb
      simp only [storaged_linux_block_handle_format, hb]
      cases format_body env type { options with encrypt_passphrase := some p1 } ⟨true, []⟩ <;>
        simp [FormatStep.map_events, FormatState.map_events, FormatEvent.with_input]
    refine ⟨hmap, ?_⟩
    rw [hmap, List.filterMap_map]
    congr 1
    funext e
    exact with_input_command_line p2 e
  · intro t op c i hmem
    rcases format_run_only env type _ _ hmem with h1 | h1
    · cases he : options.erase <;> cases i <;>
        simp [in_format, in_authorize, in_wipe, in_after_wipe, in_finish, in_after_erase,
          in_erase, in_encrypt, in_create, in_take_ownership, in_set_partition_type,
          in_config, format_target, he] at h1 ⊢
      all_goals
        obtain ⟨⟨-, hp⟩, hc⟩ := h1
        refine ⟨hp, ?_⟩
        rcases hc with hc | hc
        · exact Or.inl hc
        · right
          cases hn : make_block_luksname env.luks_id_uuid with
          | none => simp [hn] at hc
          | some mapped_name =>
            rw [hn] at hc
            exact ⟨mapped_name, rfl, by simpa using hc⟩
    · cases h1

/-- Witness of C18: two runs on /dev/sdb with the type gpt and the passphrases
"secret" and "other". -/
theorem format_command_lines_independent_of_passphrase_witness :
    (storaged_linux_block_handle_format format_env_ok "gpt"
        { encrypt_passphrase := some "other" }).filterMap FormatEvent.command_line
      = (storaged_linux_block_handle_format format_env_ok "gpt"
          { encrypt_passphrase := some "secret" }).filterMap FormatEvent.command_line :=
  ((format_command_lines_independent_of_passphrase format_env_ok "gpt" {} "secret" "other").1
    (fun _ => rfl)).2

/-! ### Opening the device -/

/-- An open handler calls open(2) with the flags it was given and no others, and
does so when the object is found and the authorization is granted. -/
theorem handle_open_flags (env : OpenEnv) (open_flags : Nat) :
    (∀ d f, .open_ d f ∈ handle_open env open_flags → d = env.block.device ∧ f = open_flags)
    ∧ (env.dup_object = none →
        env.check_authorization
          (if env.block.hint_system then "org.storaged.Storaged.open-device-system"
            else "org.storaged.Storaged.open-device") = true →
        .open_ env.block.device open_flags ∈ handle_open env open_flags) := by
  unfold handle_open
  constructor
  · intro d f h
    cases hd : env.dup_object with
    | some e => simp [hd] at h
    | none =>
      cases hh : env.block.hint_system <;>
      cases ha : env.check_authorization "org.storaged.Storaged.open-device-system" <;>
      cases ha2 : env.check_authorization "org.storaged.Storaged.open-device" <;>
      cases ho : env.open_ env.block.device open_flags <;>
      simp [hd, hh, ha, ha2, ho] at h <;> exact h
  · intro hd ha
    simp only [hd, ha]
    cases env.open_ env.block.device open_flags <;> simp

/-- C21, counterexample: OpenForBenchmark without the writable option (or with it
set to false) opens the device without O_EXCL. -/
theorem handle_open_for_benchmark_not_exclusive :
    handle_open_for_benchmark open_env_ok none
      = [.check_authorization "org.storaged.Storaged.open-device",
          .open_ (some "/dev/sdb") (O_RDONLY ||| O_DIRECT ||| O_SYNC ||| O_CLOEXEC),
          .complete 7]
    ∧ (O_RDONLY ||| O_DIRECT ||| O_SYNC ||| O_CLOEXEC) &&& O_EXCL = 0
    ∧ handle_open_for_benchmark open_env_ok (some false)
      = handle_open_for_benchmark open_env_ok none := by
  decide

/-- C21, amended: OpenForBackup opens the device read-only with O_EXCL and
OpenForRestore write-only with O_EXCL, for every value of the options;
OpenForBenchmark opens it read-write with O_EXCL when the writable option is
true, and read-only without O_EXCL when the option is false or absent. The
open(2) call is made with these flags when the object is found and the
authorization is granted, and with no other flags. -/
theorem handle_open_modes (env : OpenEnv) (writable : Option Bool)
    (hd : env.dup_object = none)
    (ha : env.check_authorization
      (if env.block.hint_system then "org.storaged.Storaged.open-device-system"
        else "org.storaged.Storaged.open-device") = true) :
    (∃ f, .open_ env.block.device f ∈ handle_open_for_backup env
      ∧ (∀ d g, .open_ d g ∈ handle_open_for_backup env → g = f)
      ∧ f &&& O_EXCL = O_EXCL ∧ f &&& O_ACCMODE = O_RDONLY)
    ∧ (∃ f, .open_ env.block.device f ∈ handle_open_for_restore env
      ∧ (∀ d g, .open_ d g ∈ handle_open_for_restore env → g = f)
      ∧ f &&& O_EXCL = O_EXCL ∧ f &&& O_ACCMODE = O_WRONLY)
    ∧ (∃ f, .open_ env.block.device f ∈ handle_open_for_benchmark env writable
      ∧ (∀ d g, .open_ d g ∈ handle_open_for_benchmark env writable → g = f)
      ∧ (writable = some true → f &&& O_EXCL = O_EXCL ∧ f &&& O_ACCMODE = O_RDWR)
      ∧ (writable ≠ some true → f &&& O_EXCL = 0 ∧ f &&& O_ACCMODE = O_RDONLY)) := by
  refine ⟨⟨_, (handle_open_flags env _).2 hd ha,
      fun d g h => ((handle_open_flags env _).1 d g h).2, by decide, by decide⟩,
    ⟨_, (handle_open_flags env _).2 hd ha,
      fun d g h => ((handle_open_flags env _).1 d g h).2, by decide, by decide⟩, ?_⟩
  refine ⟨_, (handle_open_flags env _).2 hd ha,
      fun d g h => ((handle_open_flags env _).1 d g h).2, ?_, ?_⟩
  · intro hw
    subst hw
    decide
  · intro hw
    have : writable.getD false = false := by
      cases writable with
      | none => rfl
      | some b => cases b <;> simp_all
    simp only [this]
    decide

/-- Witness of C21: the three handlers on /dev/sdb, with the writable option set. -/
theorem handle_open_modes_witness :
    ∃ f, .open_ (some "/dev/sdb") f ∈ handle_open_for_benchmark open_env_ok (some true)
      ∧ (∀ d g, .open_ d g ∈ handle_open_for_benchmark open_env_ok (some true) → g = f)
      ∧ ((some true : Option Bool) = some true →
          f &&& O_EXCL = O_EXCL ∧ f &&& O_ACCMODE = O_RDWR)
      ∧ ((some true : Option Bool) ≠ some true →
          f &&& O_EXCL = 0 ∧ f &&& O_ACCMODE = O_RDONLY) :=
  (handle_open_modes open_env_ok (some true) rfl rfl).2.2

/-! ### The busy check of a drive -/

theorem is_block_unlocked_iff (objects : List DaemonObject) (p : String) :
    is_block_unlocked objects p = true
      ↔ ∃ o2 ∈ objects, ∃ b2, o2.block = some b2 ∧ b2.crypto_backing_device = some p := by
  induction objects with
  | nil => simp [is_block_unlocked]
  | cons o rest ih =>
    unfold is_block_unlocked
    cases hb : o.block with
    | none =>
      simp only [ih, List.mem_cons, exists_eq_or_imp, hb]
      simp
    | some b =>
      by_cases hc : b.crypto_backing_device = some p
      · simp [g_strcmp0_eq, hc, hb]
      · simp [g_strcmp0_eq, hc, hb, ih]

theorem is_not_in_use_loop_spec (drive_object_path : String) (objects l : List DaemonObject) :
    ((∃ o ∈ l, is_busy_member drive_object_path objects o) →
      (is_not_in_use_loop drive_object_path objects l).1 = false
        ∧ ∃ e, (is_not_in_use_loop drive_object_path objects l).2 = some e
          ∧ e.code = .DEVICE_BUSY)
    ∧ ((¬ ∃ o ∈ l, is_busy_member drive_object_path objects o) →
      is_not_in_use_loop drive_object_path objects l = (true, none)) := by
  induction l with
  | nil => simp [is_not_in_use_loop]
  | cons o rest ih =>
    by_cases hbusy : is_busy_member drive_object_path objects o
    · have hres : (is_not_in_use_loop drive_object_path objects (o :: rest)).1 = false
          ∧ ∃ e, (is_not_in_use_loop drive_object_path objects (o :: rest)).2 = some e
            ∧ e.code = .DEVICE_BUSY := by
        obtain ⟨h1, ⟨b, hb, hd⟩, h3⟩ := hbusy
        unfold is_not_in_use_loop
        simp only [h1, hb, Option.bind, hd, g_strcmp0_eq]
        cases hf : o.filesystem with
        | some filesystem =>
          by_cases hm : filesystem.mount_points = []
          · rcases h3 with ⟨fs, hfs, hne⟩ | h3
            · rw [hf] at hfs; cases hfs; exact absurd hm hne
            · have hu := (is_block_unlocked_iff objects o.object_path).2 h3
              simp [hm, hu]
          · have : filesystem.mount_points.length > 0 := List.length_pos.2 hm
            simp [this]
        | none =>
          rcases h3 with ⟨fs, hfs, hne⟩ | h3
          · rw [hf] at hfs; cases hfs
          · have hu := (is_block_unlocked_iff objects o.object_path).2 h3
            simp [hu]
      exact ⟨fun _ => hres, fun hn => absurd ⟨o, List.mem_cons_self _ _, hbusy⟩ hn⟩
    · have hskip : is_not_in_use_loop drive_object_path objects (o :: rest)
          = is_not_in_use_loop drive_object_path objects rest := by
        unfold is_busy_member at hbusy
        rw [is_not_in_use_loop]
        cases h1 : o.is_linux_block_object with
        | false => simp
        | true =>
          cases hb : o.block with
          | none => simp [g_strcmp0_eq]
          | some b =>
            by_cases hd : b.drive = some drive_object_path
            · have h3 : ¬ ((∃ filesystem, o.filesystem = some filesystem
                    ∧ filesystem.mount_points ≠ [])
                  ∨ ∃ o2 ∈ objects, ∃ b2, o2.block = some b2
                      ∧ b2.crypto_backing_device = some o.object_path) := by
                intro h
                exact hbusy ⟨h1, ⟨b, hb, hd⟩, h⟩
              have hu : is_block_unlocked objects o.object_path = false := by
                cases hx : is_block_unlocked objects o.object_path with
                | false => rfl
                | true =>
                  exact absurd (Or.inr ((is_block_unlocked_iff objects o.object_path).1 hx)) h3
              cases hf : o.filesystem with
              | none => simp [g_strcmp0_eq, hd, hu]
              | some filesystem =>
                have hm : filesystem.mount_points = [] := by
                  by_contra hne
                  exact h3 (Or.inl ⟨filesystem, hf, hne⟩)
                simp [g_strcmp0_eq, hd, hu, hm]
            · simp [g_strcmp0_eq, hd]
      rw [hskip]
      constructor
      · rintro ⟨x, hx, hxb⟩
        rcases List.mem_cons.1 hx with h | h
        · subst h; exact absurd hxb hbusy
        · exact ih.1 ⟨x, h, hxb⟩
      · intro hn
        exact ih.2 (fun ⟨x, hx, hxb⟩ => hn ⟨x, List.mem_cons_of_mem _ hx, hxb⟩)

/-- C22: storaged_linux_drive_object_is_not_in_use returns FALSE with the error
DeviceBusy exactly when some listed block object whose Drive property is the
object path of this drive has at least one mount point or is the crypto backing
device of the block of some listed object; otherwise it returns TRUE and sets
no error. -/
theorem is_not_in_use_iff_no_busy_member (drive_object_path : String)
    (objects : List DaemonObject) :
    ((∃ o ∈ objects, is_busy_member drive_object_path objects o)
      ↔ (storaged_linux_drive_object_is_not_in_use drive_object_path objects).1 = false
        ∧ ∃ e, (storaged_linux_drive_object_is_not_in_use drive_object_path objects).2 = some e
          ∧ e.code = .DEVICE_BUSY)
    ∧ ((¬ ∃ o ∈ objects, is_busy_member drive_object_path objects o)
      ↔ storaged_linux_drive_object_is_not_in_use drive_object_path objects = (true, none)) := by
  have h := is_not_in_use_loop_spec drive_object_path objects objects
  unfold storaged_linux_drive_object_is_not_in_use
  constructor
  · constructor
    · exact h.1
    · intro hr
      by_contra hn
      rw [h.2 hn] at hr
      cases hr.1
  · constructor
    · exact h.2
    · intro hr hb
      have := (h.1 hb).1
      rw [hr] at this
      cases this

/-! ### Following a block device that is removed and added again -/

theorem update_to_current_block_object_loop_eq (data : FormatWaitData)
    (tracked : StoragedBlock) (objects : List ObjectPtr) :
    update_to_current_block_object_loop data tracked objects
      = match objects.find? (is_readded_object data tracked) with
        | some o => { data with object_ptr := some o, block_ptr := o.object.block }
        | none => data := by
  induction objects with
  | nil => rfl
  | cons o rest ih =>
    unfold update_to_current_block_object_loop
    by_cases ha : some o.address = data.object_ptr.map (fun p => p.address)
    · simp [ha, ih, List.find?, is_readded_object]
    · cases hb : o.object.block with
      | none => simp [ha, ih, List.find?, is_readded_object, hb]
      | some block =>
        by_cases hd : block.device = tracked.device
        · simp [ha, List.find?, is_readded_object, hb, hd, g_strcmp0_eq]
        · simp [ha, ih, List.find?, is_readded_object, hb, hd, g_strcmp0_eq]

theorem find_is_readded_object_device (data : FormatWaitData) (tracked : StoragedBlock)
    (objects : List ObjectPtr) (o : ObjectPtr)
    (h : objects.find? (is_readded_object data tracked) = some o) :
    o.object.block.map (fun b => b.device) = some tracked.device := by
  have hp := List.find?_some h
  unfold is_readded_object at hp
  cases hb : o.object.block with
  | none => simp [hb] at hp
  | some block =>
    simp [hb] at hp
    simp [hp.2]

/-- C24: update_to_current_block_object never changes the device path that is
tracked. When no block is tracked the data is left as it is; otherwise the
tracked object and block are replaced by the first listed object, other than
the tracked one, whose block has the device path of the tracked block, and
are left as they are when there is no such object. The predicate
wait_for_filesystem leaves the data as update_to_current_block_object gives
it. -/
theorem update_to_current_block_object_keeps_device (objects : List ObjectPtr)
    (data : FormatWaitData) :
    (update_to_current_block_object objects data).block_ptr.map (fun b => b.device)
        = data.block_ptr.map (fun b => b.device)
      ∧ (update_to_current_block_object objects data).type = data.type
      ∧ (data.block_ptr = none → update_to_current_block_object objects data = data)
      ∧ (∀ tracked, data.block_ptr = some tracked →
          update_to_current_block_object objects data
            = match objects.find? (is_readded_object data tracked) with
              | some o => { data with object_ptr := some o, block_ptr := o.object.block }
              | none => data)
      ∧ (wait_for_filesystem objects data).2 = update_to_current_block_object objects data := by
  have h4 : ∀ tracked, data.block_ptr = some tracked →
      update_to_current_block_object objects data
        = match objects.find? (is_readded_object data tracked) with
          | some o => { data with object_ptr := some o, block_ptr := o.object.block }
          | none => data := by
    intro tracked ht
    unfold update_to_current_block_object
    simp only [ht]
    exact update_to_current_block_object_loop_eq data tracked objects
  have h3 : data.block_ptr = none → update_to_current_block_object objects data = data := by
    intro hn
    unfold update_to_current_block_object
    simp only [hn]
  refine ⟨?_, ?_, h3, h4, ?_⟩
  · cases ht : data.block_ptr with
    | none => rw [h3 ht, ht]
    | some tracked =>
      rw [h4 tracked ht]
      cases hf : objects.find? (is_readded_object data tracked) with
      | none => simp [ht]
      | some o =>
        simp only [Option.map_some']
        exact find_is_readded_object_device data tracked objects o hf
  · cases ht : data.block_ptr with
    | none => rw [h3 ht]
    | some tracked =>
      rw [h4 tracked ht]
      cases hf : objects.find? (is_readded_object data tracked) <;> rfl
  · unfold wait_for_filesystem
    dsimp only
    split
    · rfl
    · split
      · rfl
      · split
        · rfl
        · split
          · split <;> rfl
          · rfl

/-! ### The member list of a drive keeps distinct sysfs paths -/

theorem find_link_for_sysfs_path_some (devices : List StoragedLinuxDevice) (p : String)
    (n : Nat) (h : find_link_for_sysfs_path devices p = some n) :
    (sysfs_paths devices)[n]? = some p := by
  induction devices generalizing n with
  | nil => simp [find_link_for_sysfs_path] at h
  | cons d rest ih =>
    unfold find_link_for_sysfs_path at h
    by_cases hd : d.udev_device.sysfs_path = p
    · simp [hd] at h
      subst h
      simp [sysfs_paths, hd]
    · simp [hd] at h
      obtain ⟨m, hm, hn⟩ := h
      subst hn
      have := ih m hm
      simpa [sysfs_paths] using this

theorem find_link_for_sysfs_path_none_not_mem (devices : List StoragedLinuxDevice)
    (p : String) (h : find_link_for_sysfs_path devices p = none) :
    p ∉ sysfs_paths devices := by
  induction devices with
  | nil => simp [sysfs_paths]
  | cons d rest ih =>
    unfold find_link_for_sysfs_path at h
    by_cases hd : d.udev_device.sysfs_path = p
    · simp [hd] at h
    · simp [hd] at h
      have := ih h
      simp only [sysfs_paths, List.map_cons, List.mem_cons, not_or] at this ⊢
      exact ⟨fun e => hd e.symm, this⟩

theorem uevent_update_devices_nodup (devices : List StoragedLinuxDevice)
    (action : Option String) (device : Option StoragedLinuxDevice)
    (h : (sysfs_paths devices).Nodup) :
    (sysfs_paths (uevent_update_devices devices action device)).Nodup := by
  unfold uevent_update_devices
  cases device with
  | none =>
    simp only
    split <;> exact h
  | some d =>
    simp only
    cases hl : find_link_for_sysfs_path devices d.udev_device.sysfs_path with
    | none =>
      have hn := find_link_for_sysfs_path_none_not_mem devices _ hl
      split
      · exact h
      · simp only [sysfs_paths, List.map_append, List.map_cons, List.map_nil]
        refine List.Nodup.append h (List.nodup_singleton _) ?_
        intro x hx hx2
        rw [List.mem_singleton] at hx2
        subst hx2
        exact hn hx
    | some n =>
      have hs := find_link_for_sysfs_path_some devices _ n hl
      split
      · exact h.sublist ((List.eraseIdx_sublist devices n).map _)
      · have : sysfs_paths (devices.set n d) = sysfs_paths devices := by
          simp only [sysfs_paths, List.map_set]
          apply List.ext_getElem?
          intro i
          by_cases hi : n = i
          · subst hi
            rw [List.getElem?_set_self']
            simp only [sysfs_paths] at hs
            rw [hs]
            simp
          · rw [List.getElem?_set_ne hi]
        simp only [this]
        exact h

theorem uevents_nodup {ε : Type} (env : DriveEnv ε)
    (calls : List (Option String × Option StoragedLinuxDevice))
    (object : StoragedLinuxDriveObject ε) (h : (sysfs_paths object.devices).Nodup) :
    (sysfs_paths (storaged_linux_drive_object_uevents env object calls).devices).Nodup := by
  induction calls generalizing object with
  | nil => exact h
  | cons c rest ih =>
    obtain ⟨action, device⟩ := c
    unfold storaged_linux_drive_object_uevents
    apply ih
    rw [uevent_devices]
    exact uevent_update_devices_nodup _ _ _ h

/-- C25: starting from a drive object that was constructed with one device (the
device property set on a fresh object, then the coldplug uevent of
constructed), every sequence of storaged_linux_drive_object_uevent calls, with
any actions and any devices, leaves a member list in which no two members
have the same sysfs path; construction itself succeeds. -/
theorem drive_members_distinct_sysfs_paths {ε : Type} (env : DriveEnv ε)
    (object0 : StoragedLinuxDriveObject ε) (device : StoragedLinuxDevice)
    (calls : List (Option String × Option StoragedLinuxDevice))
    (h0 : object0.devices = []) :
    ∃ object1 object2 events,
      storaged_linux_drive_object_set_property_device object0 device = some object1
        ∧ storaged_linux_drive_object_constructed_coldplug env object1 = some (object2, events)
        ∧ sysfs_paths object2.devices = [device.udev_device.sysfs_path]
        ∧ (sysfs_paths (storaged_linux_drive_object_uevents env object2 calls).devices).Nodup := by
  have h1 : storaged_linux_drive_object_set_property_device object0 device
      = some { object0 with
          parent_instance := { object0.parent_instance with
            data := { object0.parent_instance.data with devices := [device] } } } := by
    simp [storaged_linux_drive_object_set_property_device, h0]
  refine ⟨_, (storaged_linux_drive_object_uevent env
      { object0 with
        parent_instance := { object0.parent_instance with
          data := { object0.parent_instance.data with devices := [device] } } }
      (some "add") (some device)).1,
    (storaged_linux_drive_object_uevent env
      { object0 with
        parent_instance := { object0.parent_instance with
          data := { object0.parent_instance.data with devices := [device] } } }
      (some "add") (some device)).2, h1, ?_, ?_, ?_⟩
  · simp [storaged_linux_drive_object_constructed_coldplug, StoragedLinuxDriveObject.devices]
  · rw [uevent_devices]
    simp [StoragedLinuxDriveObject.devices, uevent_update_devices, find_link_for_sysfs_path,
      g_strcmp0_eq, sysfs_paths]
  · apply uevents_nodup
    rw [uevent_devices]
    apply uevent_update_devices_nodup
    simp [StoragedLinuxDriveObject.devices, sysfs_paths]

/-- C25 at a concrete drive: constructed with one disk, then an add of a second
disk, a change of the first and a remove of the second. -/
theorem drive_members_distinct_sysfs_paths_witness :
    (example_drive []).devices = []
      ∧ ∃ object1 object2 events,
        storaged_linux_drive_object_set_property_device (example_drive [])
            (example_device "/sys/a" "S1") = some object1
          ∧ storaged_linux_drive_object_constructed_coldplug example_env object1
              = some (object2, events)
          ∧ sysfs_paths object2.devices = [(example_device "/sys/a" "S1").udev_device.sysfs_path]
          ∧ (sysfs_paths (storaged_linux_drive_object_uevents example_env object2
              [(some "add", some (example_device "/sys/b" "S1")),
               (some "change", some (example_device "/sys/a" "S1")),
               (some "remove", some (example_device "/sys/b" "S1"))]).devices).Nodup :=
  ⟨rfl, drive_members_distinct_sysfs_paths example_env (example_drive [])
    (example_device "/sys/a" "S1") _ rfl⟩

/-! ### Escaping of fstab fields -/

theorem c_str_of_nul_free (s : List Nat) (h : ∀ c ∈ s, c ≠ 0) : c_str s = s := by
  induction s with
  | nil => rfl
  | cons c rest ih =>
    have hc : c ≠ 0 := h c (List.mem_cons_self _ _)
    simp [c_str, hc, ih (fun x hx => h x (List.mem_cons_of_mem _ hx))]

/-- The loop of unescape_fstab does not need more fuel than the source has bytes. -/
theorem unescape_fstab_loop_fuel (fuel : Nat) :
    ∀ (fuel2 : Nat) (source : List Nat), source.length ≤ fuel → source.length ≤ fuel2 →
      unescape_fstab_loop fuel source = unescape_fstab_loop fuel2 source := by
  induction fuel with
  | zero =>
    intro fuel2 source h1 _
    have : source = [] := List.length_eq_zero.1 (Nat.le_zero.1 h1)
    subst this
    cases fuel2 <;> rfl
  | succ n ih =>
    intro fuel2 source h1 h2
    cases fuel2 with
    | zero =>
      have : source = [] := List.length_eq_zero.1 (Nat.le_zero.1 h2)
      subst this
      rfl
    | succ m =>
      match source with
      | [] => rfl
      | [c] =>
        have e0 := ih m [] (by simp) (by simp)
        simp only [unescape_fstab_loop, e0]
      | [c, d1] =>
        simp only [List.length_cons, List.length_nil] at h1 h2
        have e0 := ih m [] (by simp) (by simp)
        have e1 := ih m [d1] (by simp; omega) (by simp; omega)
        simp only [unescape_fstab_loop, e0, e1]
      | [c, d1, d2] =>
        simp only [List.length_cons, List.length_nil] at h1 h2
        have e0 := ih m [] (by simp) (by simp)
        have e1 := ih m [d2] (by simp; omega) (by simp; omega)
        have e2 := ih m [d1, d2] (by simp; omega) (by simp; omega)
        simp only [unescape_fstab_loop, e0, e1, e2]
      | c :: d1 :: d2 :: d3 :: rest =>
        simp only [List.length_cons] at h1 h2
        have e0 := ih m rest (by omega) (by omega)
        have e1 := ih m (d3 :: rest) (by simp; omega) (by simp; omega)
        have e2 := ih m (d2 :: d3 :: rest) (by simp; omega) (by simp; omega)
        have e3 := ih m (d1 :: d2 :: d3 :: rest) (by simp; omega) (by simp; omega)
        simp only [unescape_fstab_loop, e0, e1, e2, e3]

theorem unescape_fstab_loop_escape_fstab (s : List Nat) (h : ∀ c ∈ s, c ≠ 0) :
    ∀ fuel, (escape_fstab s).length ≤ fuel → unescape_fstab_loop fuel (escape_fstab s) = s := by
  induction s with
  | nil =>
    intro fuel _
    cases fuel <;> rfl
  | cons c rest ih =>
    intro fuel hf
    have hc : c ≠ 0 := h c (List.mem_cons_self _ _)
    have ihr := ih (fun x hx => h x (List.mem_cons_of_mem _ hx))
    by_cases hs : c = 32 ∨ c = 9 ∨ c = 10 ∨ c = 92
    · have he : escape_fstab (c :: rest) = 92 :: (printf_03o c ++ escape_fstab rest) := by
        simp [escape_fstab, hc, hs]
      rw [he] at hf ⊢
      cases fuel with
      | zero => simp at hf
      | succ n =>
        have hn : (escape_fstab rest).length ≤ n := by
          simp [printf_03o] at hf
          omega
        rcases hs with h1 | h1 | h1 | h1 <;> subst h1 <;>
          simp [printf_03o, unescape_fstab_loop, is_octal_digit, octal_step, ihr n hn]
    · have h92 : c ≠ 92 := fun e => hs (Or.inr (Or.inr (Or.inr e)))
      have he : escape_fstab (c :: rest) = c :: escape_fstab rest := by
        simp [escape_fstab, hc, hs]
      rw [he] at hf ⊢
      cases fuel with
      | zero => simp at hf
      | succ n =>
        have hn : (escape_fstab rest).length ≤ n := by
          simp at hf
          omega
        simp [unescape_fstab_loop, hc, h92, ihr n hn]

/-- Unescaping an escaped string gives the string back (shared lemma). -/
theorem unescape_fstab_escape_fstab_aux (s : List Nat) (h : ∀ c ∈ s, c ≠ 0) :
    unescape_fstab (escape_fstab s) = s := by
  unfold unescape_fstab
  rw [unescape_fstab_loop_escape_fstab s h _ (le_refl _)]
  exact c_str_of_nul_free s h

/-- C26: for every byte string s without a NUL byte,
unescape_fstab (escape_fstab (s)) is s. -/
theorem unescape_fstab_escape_fstab (s : List Nat) (h : ∀ c ∈ s, c ≠ 0) :
    unescape_fstab (escape_fstab s) = s :=
  unescape_fstab_escape_fstab_aux s h

/-- C26 on the bytes of "a b\\c", a tab, a line feed and a byte above 127. -/
theorem unescape_fstab_escape_fstab_witness :
    (∀ c ∈ [97, 32, 98, 92, 99, 9, 10, 200], c ≠ 0)
      ∧ unescape_fstab (escape_fstab [97, 32, 98, 92, 99, 9, 10, 200])
          = [97, 32, 98, 92, 99, 9, 10, 200] :=
  ⟨by decide, unescape_fstab_escape_fstab _ (by decide)⟩

theorem escape_fstab_example :
    escape_fstab (bytes "a b") = bytes "a\\040b"
      ∧ unescape_fstab (bytes "a\\040b\\") = bytes "a b" := by decide

/-! ### The parent tag of a record -/

/-- C23 fails on the code: when the last option of the input is an x-parent
option, track_parents cuts the string at that option and leaves the comma
before it, so "rw,x-parent=old" with one ancestor "U" gives "rw,,x-parent=U",
which has an empty option; and an option that merely contains "x-parent=" is
cut in the middle, so "nox-parent=1,rw" gives "norw,x-parent=U". -/
theorem track_parents_leaves_empty_option :
    track_parents track_parents_env_example 3 (bytes "rw,x-parent=old")
        = some (bytes "rw,,x-parent=U")
      ∧ split_on 44 (bytes "rw,,x-parent=U") = [bytes "rw", [], bytes "x-parent=U"]
      ∧ track_parents track_parents_env_example 3 (bytes "nox-parent=1,rw")
        = some (bytes "norw,x-parent=U")
      ∧ track_parents track_parents_env_example 3 (bytes "rw,x-parent=old,ro")
        = some (bytes "rw,ro,x-parent=U") := by
  decide

/-! ### Format: the label check comes after the wipe -/

set_option maxRecDepth 100000 in
/-- The creation command of the example type "gpt" has no "$LABEL" in it. -/
theorem gpt_command_has_no_label :
    ("parted --script $DEVICE mktable gpt".splitOn "$LABEL").length ≤ 1 := by
  unfold String.splitOn
  repeat
    rw [String.splitOnAux]
    simp +decide only [ite_false, ite_true, reduceCtorEq, Bool.false_eq_true]

/-- C29 fails on the code: a Format request with a label, for a type whose
creation command has no "$LABEL", that passes the checks made before the
inhibit is not rejected before the destructive steps. The teardown (when
requested) and the wipe of the device are run first, and only then the call
jumps to the end: with the error NotSupported when the call blocks, and after
the success reply and with no error at all when no-block is set. -/
theorem format_label_rejected_after_wipe (env : FormatEnv) (type label command : String)
    (options : FormatOptions) (fs_info : FSInfo) (ids : Nat × Nat)
    (hl : options.label = some label)
    (hf : env.get_fs_info type = some fs_info)
    (hc : fs_info.command_create_fs = some command)
    (hs : (command.splitOn "$LABEL").length ≤ 1)
    (he : options.erase = none) (hp : options.encrypt_passphrase = none)
    (hd : env.dup_object = none) (hpart : env.partition = none)
    (hu : env.get_caller_uid = .ok ids)
    (ha : env.check_authorization (format_action_id env options) = true)
    (ha2 : env.check_authorization "org.storaged.Storaged.modify-system-configuration" = true)
    (hbt : env.block_teardown = none)
    (hj : env.launch_spawned_job
      ("wipefs -a " ++ env.escape_and_quote (env.block.device.getD "")) none = none)
    (hw : env.wait_for_filesystem .original "empty" = none) :
    storaged_linux_block_handle_format env type options
      = format_authorize_steps env options ++ format_wipe_steps env options
        ++ (if options.no_block then []
            else [.return_error .NOT_SUPPORTED
              ("File system type " ++ type ++ " does not support labels") true])
        ++ [.uninhibit_system]
      ∧ FormatEvent.spawned_job .original "format-erase"
          ("wipefs -a " ++ env.escape_and_quote (env.block.device.getD "")) none
          ∈ format_wipe_steps env options
      ∧ (options.tear_down = true → FormatEvent.teardown ∈ format_wipe_steps env options)
      ∧ (options.no_block = true → FormatEvent.complete ∈ format_wipe_steps env options) := by
  refine ⟨?_, ?_, ?_, ?_⟩
  · cases htd : options.tear_down <;> cases hwp : env.was_partitioned <;>
    cases hnb : options.no_block <;> cases hci : options.config_items <;>
    simp [storaged_linux_block_handle_format, format_body, format_authorize, format_wipe,
      format_create, format_authorize_steps, format_wipe_steps, check_authorization_sync,
      Bind.bind, FormatM.bind, Pure.pure, emit, goto_out, return_error,
      return_error_if_invocation, complete_early, hl, hf, hc, hs, he, hp, hd, hpart, hu, ha,
      ha2, hbt, hj, hw, htd, hwp, hnb, hci]
  · simp [format_wipe_steps]
  · intro h
    simp [format_wipe_steps, h]
  · intro h
    simp [format_wipe_steps, h]

/-- C29 at the example disk: Format of type "gpt" with the label "x". -/
theorem format_label_rejected_after_wipe_witness :
    storaged_linux_block_handle_format format_env_ok "gpt" { label := some "x" }
      = format_authorize_steps format_env_ok { label := some "x" }
        ++ format_wipe_steps format_env_ok { label := some "x" }
        ++ [.return_error .NOT_SUPPORTED
              ("File system type " ++ "gpt" ++ " does not support labels") true]
        ++ [.uninhibit_system] :=
  (format_label_rejected_after_wipe format_env_ok "gpt" "x"
    "parted --script $DEVICE mktable gpt" { label := some "x" }
    ⟨"gpt", some "parted --script $DEVICE mktable gpt", false⟩ (1000, 1000)
    rfl rfl rfl gpt_command_has_no_label rfl rfl rfl rfl rfl rfl rfl rfl rfl rfl).1

/-! ### Format: replies after the early completion -/

/-- C30 fails on the code: with no-block the success reply is sent after the wipe
and the invocation is cleared; when the creation of the partition table then
fails, the error is handed to the cleared invocation (the call of
g_dbus_method_invocation_take_error is not guarded), so the run holds two
replies and the second goes through an absent invocation. The same run without
no-block sends the one error reply through the pending invocation. -/
theorem format_no_block_error_through_absent_invocation :
    storaged_linux_block_handle_format
        { format_env_ok with
          bd_part_create_table := fun _ => some ⟨.FAILED, "Failed to create the table"⟩ }
        "gpt" { no_block := true }
      = [.check_authorization "org.storaged.Storaged.modify-device", .inhibit_system,
          .spawned_job .original "format-erase" "wipefs -a \"/dev/sdb\"" none,
          .trigger_uevent .original, .wait_for_object .original (.filesystem "empty") 15,
          .complete,
          .part_create_table .original "gpt",
          .return_error .FAILED "Failed to create the table" false,
          .uninhibit_system]
      ∧ storaged_linux_block_handle_format
        { format_env_ok with
          bd_part_create_table := fun _ => some ⟨.FAILED, "Failed to create the table"⟩ }
        "gpt" {}
      = [.check_authorization "org.storaged.Storaged.modify-device", .inhibit_system,
          .spawned_job .original "format-erase" "wipefs -a \"/dev/sdb\"" none,
          .trigger_uevent .original, .wait_for_object .original (.filesystem "empty") 15,
          .part_create_table .original "gpt",
          .return_error .FAILED "Failed to create the table" true,
          .uninhibit_system] := by
  decide

/-! ### The mount records file: reading back what was written -/

theorem c_str_nul_free (s : List Nat) : ∀ c ∈ c_str s, c ≠ 0 := by
  induction s with
  | nil => simp [c_str]
  | cons d rest ih =>
    intro c hc
    unfold c_str at hc
    by_cases hd : d = 0
    · simp [hd] at hc
    · simp only [hd, if_false, List.mem_cons] at hc
      rcases hc with h | h
      · rw [h]; exact hd
      · exact ih c h

theorem split_on_ne_nil (sep : Nat) (s : List Nat) : split_on sep s ≠ [] := by
  cases s with
  | nil => simp [split_on]
  | cons c rest =>
    unfold split_on
    by_cases h : c = sep
    · simp [h]
    · simp only [h, if_false]
      cases split_on sep rest <;> simp

theorem split_on_pieces (sep : Nat) (s : List Nat) :
    ∀ p ∈ split_on sep s, ∀ c ∈ p, c ≠ sep ∧ c ∈ s := by
  induction s with
  | nil => simp [split_on]
  | cons d rest ih =>
    intro p hp c hc
    unfold split_on at hp
    by_cases h : d = sep
    · simp only [h, if_true, List.mem_cons] at hp
      rcases hp with hp | hp
      · subst hp; simp at hc
      · exact ⟨(ih p hp c hc).1, List.mem_cons_of_mem _ (ih p hp c hc).2⟩
    · simp only [h, if_false] at hp
      cases hs : split_on sep rest with
      | nil =>
        rw [hs] at hp
        simp only [List.mem_singleton] at hp
        subst hp
        simp only [List.mem_singleton] at hc
        subst hc
        exact ⟨h, List.mem_cons_self _ _⟩
      | cons q qs =>
        rw [hs] at hp ih
        simp only [List.mem_cons] at hp
        rcases hp with hp | hp
        · subst hp
          rcases List.mem_cons.1 hc with hc | hc
          · subst hc; exact ⟨h, List.mem_cons_self _ _⟩
          · have := ih q (List.mem_cons_self _ _) c hc
            exact ⟨this.1, List.mem_cons_of_mem _ this.2⟩
        · have := ih p (List.mem_cons_of_mem _ hp) c hc
          exact ⟨this.1, List.mem_cons_of_mem _ this.2⟩

theorem split_on_append_sep (sep : Nat) (l rest : List Nat) (h : ∀ c ∈ l, c ≠ sep) :
    split_on sep (l ++ sep :: rest) = l :: split_on sep rest := by
  induction l with
  | nil => simp [split_on]
  | cons c tl ih =>
    have hc : c ≠ sep := h c (List.mem_cons_self _ _)
    have := ih (fun x hx => h x (List.mem_cons_of_mem _ hx))
    simp only [List.cons_append]
    rw [split_on]
    simp [hc, this]

theorem split_on_join_lines (L : List (List Nat)) (tail : List Nat)
    (h : ∀ l ∈ L, ∀ c ∈ l, c ≠ 10) :
    split_on 10 (join_lines L ++ tail) = L ++ split_on 10 tail := by
  induction L with
  | nil => simp [join_lines]
  | cons l rest ih =>
    have hl := h l (List.mem_cons_self _ _)
    have hrest := ih (fun x hx => h x (List.mem_cons_of_mem _ hx))
    simp only [join_lines, List.append_assoc, List.cons_append]
    rw [split_on_append_sep 10 l _ hl, hrest]

theorem visited_lines_append_empty (L : List (List Nat)) : visited_lines (L ++ [[]]) = L := by
  induction L with
  | nil => simp [visited_lines]
  | cons l rest ih =>
    simp only [List.cons_append]
    rw [visited_lines, ih]
    simp

theorem visited_lines_mem (ls : List (List Nat)) : ∀ l ∈ visited_lines ls, l ∈ ls := by
  induction ls with
  | nil => simp [visited_lines]
  | cons x rest ih =>
    intro l hl
    unfold visited_lines at hl
    split at hl
    · simp at hl
    · rcases List.mem_cons.1 hl with h | h
      · subst h; exact List.mem_cons_self _ _
      · exact List.mem_cons_of_mem _ (ih l h)

/-- The lines of a file hold no line feed and no NUL byte. -/
theorem file_lines_bytes (contents : List Nat) :
    ∀ l ∈ file_lines contents, ∀ c ∈ l, c ≠ 10 ∧ c ≠ 0 := by
  intro l hl c hc
  unfold file_lines at hl
  have hmem := visited_lines_mem _ l hl
  unfold g_strsplit_lines at hmem
  split at hmem
  · simp at hmem
  · have := split_on_pieces 10 _ l hmem c hc
    exact ⟨this.1, c_str_nul_free _ c this.2⟩

theorem join_lines_bytes (L : List (List Nat)) (h : ∀ l ∈ L, ∀ c ∈ l, c ≠ 0) :
    ∀ c ∈ join_lines L, c ≠ 0 := by
  induction L with
  | nil => simp [join_lines]
  | cons l rest ih =>
    intro c hc
    simp only [join_lines, List.mem_append, List.mem_cons] at hc
    rcases hc with hc | hc | hc
    · exact h l (List.mem_cons_self _ _) c hc
    · rw [hc]; decide
    · exact ih (fun x hx => h x (List.mem_cons_of_mem _ hx)) c hc

theorem add_remove_fstab_loop_none (ls : List (List Nat)) (removed : Bool) :
    add_remove_fstab_loop none removed ls = (join_lines (visited_lines ls), removed) := by
  induction ls with
  | nil => rfl
  | cons l rest ih =>
    unfold add_remove_fstab_loop visited_lines
    split
    · rfl
    · simp [ih, join_lines]

theorem file_lines_join_lines (L : List (List Nat)) (h : ∀ l ∈ L, ∀ c ∈ l, c ≠ 10 ∧ c ≠ 0) :
    file_lines (join_lines L) = L := by
  have hnul : c_str (join_lines L) = join_lines L :=
    c_str_of_nul_free _ (join_lines_bytes L (fun l hl c hc => (h l hl c hc).2))
  unfold file_lines g_strsplit_lines
  rw [hnul]
  cases L with
  | nil => simp [join_lines, visited_lines]
  | cons l rest =>
    have hne : (join_lines (l :: rest)).isEmpty = false := by
      simp [join_lines]
    rw [hne]
    simp only [Bool.false_eq_true, if_false]
    have := split_on_join_lines (l :: rest) [] (fun x hx c hc => (h x hx c hc).1)
    rw [List.append_nil] at this
    rw [this]
    exact visited_lines_append_empty _

/-- An escaped field holds no white space and no NUL byte. -/
theorem escape_fstab_bytes (s : List Nat)
    (h : ∀ c ∈ s, c ≠ 0 ∧ c ≠ 11 ∧ c ≠ 12 ∧ c ≠ 13) :
    ∀ c ∈ escape_fstab s, isspace c = false ∧ c ≠ 0 ∧ c ≠ 10 := by
  induction s with
  | nil => simp [escape_fstab]
  | cons d rest ih =>
    have hd := h d (List.mem_cons_self _ _)
    have ihr := ih (fun x hx => h x (List.mem_cons_of_mem _ hx))
    intro c hc
    unfold escape_fstab at hc
    simp only [hd.1, if_false] at hc
    by_cases hs : d = 32 ∨ d = 9 ∨ d = 10 ∨ d = 92
    · simp only [hs, if_true, List.mem_cons, List.mem_append] at hc
      rcases hc with hc | hc | hc
      · subst hc; decide
      · have hoct : 48 ≤ c ∧ c ≤ 55 := by
          simp only [printf_03o, List.mem_cons, List.mem_singleton, List.mem_nil_iff,
            or_false] at hc
          rcases hc with hc | hc | hc <;> subst hc <;> omega
        refine ⟨?_, by omega, by omega⟩
        simp only [isspace, Bool.or_eq_false_iff, Bool.and_eq_false_iff,
          decide_eq_false_iff_not]
        omega
      · exact ihr c hc
    · simp only [hs, if_false, List.mem_cons] at hc
      rcases hc with hc | hc
      · subst hc
        refine ⟨?_, hd.1, fun e => hs (Or.inr (Or.inr (Or.inl e)))⟩
        simp only [not_or] at hs
        simp only [isspace, Bool.or_eq_false_iff, Bool.and_eq_false_iff, decide_eq_false_iff_not]
        refine ⟨hs.1, ?_⟩
        have := hd.2.1
        have := hd.2.2.1
        have := hd.2.2.2
        have := hs.2.1
        have := hs.2.2.1
        omega
      · exact ihr c hc

theorem escape_fstab_ne_nil (s : List Nat) (hne : s ≠ []) (h : ∀ c ∈ s, c ≠ 0) :
    escape_fstab s ≠ [] := by
  cases s with
  | nil => exact absurd rfl hne
  | cons d rest =>
    have hd := h d (List.mem_cons_self _ _)
    unfold escape_fstab
    simp only [hd, if_false]
    split <;> simp

theorem scan_word_token (t : List Nat) :
    ∀ (w : Nat) (rest : List Nat), (∀ c ∈ t, isspace c = false) → t.length ≤ w →
      (rest = [] ∨ ∃ c r, rest = c :: r ∧ isspace c = true) →
      scan_word w (t ++ rest) = (t, rest) := by
  induction t with
  | nil =>
    intro w rest _ _ hrest
    cases w with
    | zero => rfl
    | succ n =>
      rcases hrest with h | ⟨c, r, h, hc⟩
      · subst h; rfl
      · subst h
        simp [scan_word, hc]
  | cons d tl ih =>
    intro w rest ht hw hrest
    cases w with
    | zero => simp at hw
    | succ n =>
      have hd := ht d (List.mem_cons_self _ _)
      have := ih n rest (fun x hx => ht x (List.mem_cons_of_mem _ hx))
        (by simpa using hw) hrest
      simp [scan_word, hd, this]

theorem scan_s_token (t : List Nat) (w : Nat) (rest : List Nat) (hne : t ≠ [])
    (ht : ∀ c ∈ t, isspace c = false) (hw : t.length ≤ w)
    (hrest : rest = [] ∨ ∃ c r, rest = c :: r ∧ isspace c = true) :
    scan_s w (t ++ rest) = some (t, rest) ∧ scan_s w (32 :: (t ++ rest)) = some (t, rest) := by
  have hword := scan_word_token t w rest ht hw hrest
  cases t with
  | nil => exact absurd rfl hne
  | cons d tl =>
    have hd := ht d (List.mem_cons_self _ _)
    simp only [List.cons_append] at hword ⊢
    have hskip : skip_space (d :: (tl ++ rest)) = d :: (tl ++ rest) := by
      simp [skip_space, hd]
    have hskip2 : skip_space (32 :: d :: (tl ++ rest)) = d :: (tl ++ rest) := by
      rw [skip_space]
      simp [isspace, hskip]
    constructor
    · unfold scan_s
      rw [hskip]
      simp only [hword]
    · unfold scan_s
      rw [hskip2]
      simp only [hword]

theorem decimal_digits (fuel : Nat) : ∀ n, ∀ c ∈ decimal fuel n, isdigit c = true := by
  induction fuel with
  | zero => intro n c hc; simp [decimal] at hc
  | succ f ih =>
    intro n c hc
    unfold decimal at hc
    split at hc
    · simp only [List.mem_singleton] at hc
      subst hc
      simp [isdigit]
      omega
    · rcases List.mem_append.1 hc with h | h
      · exact ih _ c h
      · simp only [List.mem_singleton] at h
        subst h
        simp [isdigit]
        omega

theorem decimal_ne_nil (fuel n : Nat) : decimal (fuel + 1) n ≠ [] := by
  unfold decimal
  split <;> simp

theorem decimal_value (fuel : Nat) :
    ∀ n, n < 10 ^ fuel → (decimal fuel n).foldl (fun a c => a * 10 + (c - 48)) 0 = n := by
  induction fuel with
  | zero =>
    intro n hn
    simp at hn
    subst hn
    rfl
  | succ f ih =>
    intro n hn
    unfold decimal
    split
    · simp
    · have h10 : n / 10 < 10 ^ f := by
        rw [pow_succ] at hn
        exact Nat.div_lt_of_lt_mul (by rw [Nat.mul_comm]; exact hn)
      rw [List.foldl_append, ih _ h10]
      simp only [List.foldl_cons, List.foldl_nil, Nat.add_sub_cancel_left]
      omega

theorem scan_digits_append (l : List Nat) :
    ∀ (acc : Nat) (rest : List Nat), (∀ c ∈ l, isdigit c = true) →
      (rest = [] ∨ ∃ c r, rest = c :: r ∧ isdigit c = false) →
      scan_digits acc (l ++ rest) = (l.foldl (fun a c => a * 10 + (c - 48)) acc, rest) := by
  induction l with
  | nil =>
    intro acc rest _ hrest
    rcases hrest with h | ⟨c, r, h, hc⟩
    · subst h; rfl
    · subst h
      simp [scan_digits, hc]
  | cons d tl ih =>
    intro acc rest hl hrest
    have hd := hl d (List.mem_cons_self _ _)
    have := ih (acc * 10 + (d - 48)) rest (fun x hx => hl x (List.mem_cons_of_mem _ hx)) hrest
    simp [scan_digits, hd, this]

theorem to_gint_of_int (v : Int) (h1 : -(2 : Int) ^ 31 ≤ v) (h2 : v < (2 : Int) ^ 31) :
    to_gint v = v := by
  unfold to_gint
  have e1 : min v ((2 : Int) ^ 63 - 1) = v := min_eq_left (by omega)
  have e2 : max (-(2 : Int) ^ 63) v = v := max_eq_right (by omega)
  rw [e1, e2, Int.emod_eq_of_lt (by omega) (by omega)]
  omega

/-- The directive %d reads back the number that printf ("%d") wrote for an int. -/
theorem scan_d_printf_d (v : Int) (rest : List Nat) (h1 : -(2 : Int) ^ 31 ≤ v)
    (h2 : v < (2 : Int) ^ 31)
    (hrest : rest = [] ∨ ∃ c r, rest = c :: r ∧ isdigit c = false) :
    scan_d (32 :: (printf_d v ++ rest)) = some (v, rest) := by
  have hskip : ∀ x, skip_space (32 :: x) = skip_space x := by
    intro x
    rw [skip_space]
    simp [isspace]
  unfold scan_d
  rw [hskip]
  unfold printf_d
  by_cases hneg : v < 0
  · simp only [hneg, if_true, List.cons_append]
    have hn : (-v).toNat < 10 ^ 10 := by
      have : (-v).toNat ≤ 2 ^ 31 := by omega
      omega
    have hdig := decimal_digits 10 (-v).toNat
    have hval := decimal_value 10 _ hn
    have hscan := scan_digits_append (decimal 10 (-v).toNat) 0 rest hdig hrest
    rw [hval] at hscan
    have hskip2 : skip_space (45 :: (decimal 10 (-v).toNat ++ rest))
        = 45 :: (decimal 10 (-v).toNat ++ rest) := by
      simp [skip_space, isspace]
    rw [hskip2]
    cases hdec : decimal 10 (-v).toNat with
    | nil => exact absurd hdec (decimal_ne_nil 9 _)
    | cons d tl =>
      rw [hdec] at hscan hdig
      have hd := hdig d (List.mem_cons_self _ _)
      simp only [List.cons_append] at hscan
      simp only [true_or, if_true, decide_True, List.cons_append, hd, hscan]
      have : (-(((-v).toNat : Nat) : Int)) = v := by omega
      rw [this, to_gint_of_int v h1 h2]
  · simp only [hneg, if_false]
    have hn : v.toNat < 10 ^ 10 := by
      have : v.toNat < 2 ^ 31 := by omega
      omega
    have hdig := decimal_digits 10 v.toNat
    have hval := decimal_value 10 _ hn
    have hscan := scan_digits_append (decimal 10 v.toNat) 0 rest hdig hrest
    rw [hval] at hscan
    cases hdec : decimal 10 v.toNat with
    | nil => exact absurd hdec (decimal_ne_nil 9 _)
    | cons d tl =>
      rw [hdec] at hscan hdig
      have hd := hdig d (List.mem_cons_self _ _)
      have hd2 : 48 ≤ d ∧ d ≤ 57 := by simpa [isdigit] using hd
      have hsp : isspace d = false := by
        simp [isspace]
        omega
      have h45 : d ≠ 45 := by omega
      have h43 : d ≠ 43 := by omega
      simp only [List.cons_append] at hscan ⊢
      have hskip3 : skip_space (d :: (tl ++ rest)) = d :: (tl ++ rest) := by
        simp [skip_space, hsp]
      rw [hskip3]
      simp only [h45, h43, or_self, if_false, decide_False, hd, if_true, hscan,
        Bool.false_eq_true]
      have : ((v.toNat : Nat) : Int) = v := by omega
      rw [this, to_gint_of_int v h1 h2]

theorem printf_d_bytes (v : Int) : ∀ c ∈ printf_d v, c ≠ 0 ∧ c ≠ 10 := by
  intro c hc
  unfold printf_d at hc
  split at hc
  · rcases List.mem_cons.1 hc with h | h
    · subst h; decide
    · have := decimal_digits 10 _ c h
      simp only [isdigit, Bool.and_eq_true, decide_eq_true_eq] at this
      omega
  · have := decimal_digits 10 _ c hc
    simp only [isdigit, Bool.and_eq_true, decide_eq_true_eq] at this
    omega

/-- The six conversions of sscanf read back the line printed for a record whose
text fields are carried unchanged and whose numbers are ints. -/
theorem sscanf_fstab_add_line_text (m : Mntent)
    (h1 : fstab_field_ok m.mnt_fsname) (h2 : fstab_field_ok m.mnt_dir)
    (h3 : fstab_field_ok m.mnt_type) (h4 : fstab_field_ok m.mnt_opts)
    (hq : -(2 : Int) ^ 31 ≤ m.mnt_freq ∧ m.mnt_freq < (2 : Int) ^ 31)
    (hp : -(2 : Int) ^ 31 ≤ m.mnt_passno ∧ m.mnt_passno < (2 : Int) ^ 31) :
    sscanf_fstab (fstab_add_line_text m)
      = some ⟨escape_fstab m.mnt_fsname, escape_fstab m.mnt_dir, escape_fstab m.mnt_type,
          escape_fstab m.mnt_opts, m.mnt_freq, m.mnt_passno⟩ := by
  have hsp : ∀ x : List Nat, (32 :: x = [] ∨ ∃ c r, 32 :: x = c :: r ∧ isspace c = true) :=
    fun x => Or.inr ⟨32, x, rfl, rfl⟩
  have tok : ∀ s : List Nat, fstab_field_ok s → ∀ x : List Nat,
      scan_s 511 (escape_fstab s ++ 32 :: x) = some (escape_fstab s, 32 :: x)
        ∧ scan_s 511 (32 :: (escape_fstab s ++ 32 :: x)) = some (escape_fstab s, 32 :: x) := by
    intro s hs x
    exact scan_s_token (escape_fstab s) 511 (32 :: x)
      (escape_fstab_ne_nil s hs.1 (fun c hc => (hs.2.1 c hc).1))
      (fun c hc => (escape_fstab_bytes s hs.2.1 c hc).1) hs.2.2 (hsp x)
  have hd1 := scan_d_printf_d m.mnt_freq (32 :: printf_d m.mnt_passno) hq.1 hq.2
    (Or.inr ⟨32, _, rfl, rfl⟩)
  have hd2 := scan_d_printf_d m.mnt_passno [] hp.1 hp.2 (Or.inl rfl)
  rw [List.append_nil] at hd2
  unfold sscanf_fstab fstab_add_line_text
  simp only [(tok _ h1 _).1, (tok _ h2 _).2, (tok _ h3 _).2, (tok _ h4 _).2, hd1, hd2]

/-- The line printed for a record is recognised as that record. -/
theorem fstab_line_matches_add_line_text (m : Mntent)
    (h1 : fstab_field_ok m.mnt_fsname) (h2 : fstab_field_ok m.mnt_dir)
    (h3 : fstab_field_ok m.mnt_type) (h4 : fstab_field_ok m.mnt_opts)
    (hq : -(2 : Int) ^ 31 ≤ m.mnt_freq ∧ m.mnt_freq < (2 : Int) ^ 31)
    (hp : -(2 : Int) ^ 31 ≤ m.mnt_passno ∧ m.mnt_passno < (2 : Int) ^ 31) :
    fstab_line_matches m (fstab_add_line_text m) = true := by
  unfold fstab_line_matches
  rw [sscanf_fstab_add_line_text m h1 h2 h3 h4 hq hp]
  simp [unescape_fstab_escape_fstab_aux _ (fun c hc => (h1.2.1 c hc).1),
    unescape_fstab_escape_fstab_aux _ (fun c hc => (h2.2.1 c hc).1),
    unescape_fstab_escape_fstab_aux _ (fun c hc => (h3.2.1 c hc).1),
    unescape_fstab_escape_fstab_aux _ (fun c hc => (h4.2.1 c hc).1)]

theorem fstab_add_line_text_bytes (m : Mntent)
    (h1 : fstab_field_ok m.mnt_fsname) (h2 : fstab_field_ok m.mnt_dir)
    (h3 : fstab_field_ok m.mnt_type) (h4 : fstab_field_ok m.mnt_opts) :
    ∀ c ∈ fstab_add_line_text m, c ≠ 0 ∧ c ≠ 10 := by
  have esc : ∀ s : List Nat, fstab_field_ok s → ∀ c ∈ escape_fstab s, c ≠ 0 ∧ c ≠ 10 :=
    fun s hs c hc => (escape_fstab_bytes s hs.2.1 c hc).2
  intro c hc
  simp only [fstab_add_line_text, List.mem_append, List.mem_cons] at hc
  rcases hc with hc | hc | hc | hc | hc | hc | hc | hc | hc | hc | hc
  · exact esc _ h1 c hc
  · subst hc; decide
  · exact esc _ h2 c hc
  · subst hc; decide
  · exact esc _ h3 c hc
  · subst hc; decide
  · exact esc _ h4 c hc
  · subst hc; decide
  · exact printf_d_bytes _ c hc
  · subst hc; decide
  · exact printf_d_bytes _ c hc

theorem add_remove_fstab_loop_remove_last (r : Mntent) (nl : List Nat) (L : List (List Nat))
    (hL : ∀ l ∈ L, fstab_line_matches r l = false) (hnl : fstab_line_matches r nl = true) :
    add_remove_fstab_loop (some r) false (L ++ [nl, []]) = (join_lines L, true) := by
  induction L with
  | nil =>
    simp [add_remove_fstab_loop, hnl, join_lines]
  | cons l rest ih =>
    have hl := hL l (List.mem_cons_self _ _)
    have ihr := ih (fun x hx => hL x (List.mem_cons_of_mem _ hx))
    simp only [List.cons_append]
    rw [add_remove_fstab_loop]
    simp [hl, ihr, join_lines]

/-- C27, counterexample: the file already has a line for the record, written
with other spacing, and a comment after it. Adding the record appends a line;
removing the record then deletes the first line that matches, which is the
old one, so the file ends with the lines in another order and with another
first line than before. -/
theorem fstab_add_then_remove_changes_lines :
    add_remove_fstab_entry
        (fstab_env_example (bytes "/dev/sda1   /mnt ext4 defaults 0 0\n# end\n")) 0
        none (some fstab_record_example)
      = some (.ok (bytes
          "/dev/sda1   /mnt ext4 defaults 0 0\n# end\n/dev/sda1 /mnt ext4 defaults 0 0\n"))
    ∧ add_remove_fstab_entry
        (fstab_env_example (bytes
          "/dev/sda1   /mnt ext4 defaults 0 0\n# end\n/dev/sda1 /mnt ext4 defaults 0 0\n")) 0
        (some fstab_record_example) none
      = some (.ok (bytes "# end\n/dev/sda1 /mnt ext4 defaults 0 0\n"))
    ∧ file_lines (bytes "# end\n/dev/sda1 /mnt ext4 defaults 0 0\n")
      ≠ file_lines (bytes "/dev/sda1   /mnt ext4 defaults 0 0\n# end\n") := by
  refine ⟨rfl, rfl, by decide⟩

/-- C27, amended: let the record have all its fields, with track-parents not
set, text fields that are not empty, hold no NUL, vertical tab, form feed or
carriage return and are at most 511 bytes long when escaped, and numbers that
are ints; let no line of the file F match the record, and let reading and
writing the file succeed. Then adding the record succeeds and writes the lines
of F followed by the line of the record, and removing the same record from
that file succeeds and leaves a file whose line sequence is that of F. -/
theorem fstab_add_then_remove (env : FstabEnv) (fuel : Nat) (F : List Nat)
    (fsname dir type opts : List Nat) (freq passno : Int) (track : Option Bool)
    (htrack : track ≠ some true)
    (h1 : fstab_field_ok fsname) (h2 : fstab_field_ok dir)
    (h3 : fstab_field_ok type) (h4 : fstab_field_ok opts)
    (hq : -(2 : Int) ^ 31 ≤ freq ∧ freq < (2 : Int) ^ 31)
    (hp : -(2 : Int) ^ 31 ≤ passno ∧ passno < (2 : Int) ^ 31)
    (hF : env.g_file_get_contents = .ok F)
    (hw : ∀ s, env.file_set_contents s = none)
    (hno : ∀ line ∈ file_lines F,
      fstab_line_matches ⟨fsname, dir, type, opts, freq, passno⟩ line = false) :
    add_remove_fstab_entry env fuel none
        (some ⟨some fsname, some dir, some type, some opts, some freq, some passno, track⟩)
      = some (.ok (join_lines (file_lines F)
          ++ fstab_add_line ⟨fsname, dir, type, opts, freq, passno⟩))
    ∧ ∃ F2,
      add_remove_fstab_entry
          { env with
            g_file_get_contents := .ok (join_lines (file_lines F)
              ++ fstab_add_line ⟨fsname, dir, type, opts, freq, passno⟩) }
          fuel
          (some ⟨some fsname, some dir, some type, some opts, some freq, some passno, track⟩)
          none
        = some (.ok F2)
      ∧ file_lines F2 = file_lines F := by
  have nul : ∀ s : List Nat, fstab_field_ok s → c_str s = s :=
    fun s hs => c_str_of_nul_free s (fun c hc => (hs.2.1 c hc).1)
  have hLb := file_lines_bytes F
  have hLnul : ∀ c ∈ join_lines (file_lines F), c ≠ 0 :=
    join_lines_bytes _ (fun l hl c hc => (hLb l hl c hc).2)
  have hnlb := fstab_add_line_text_bytes ⟨fsname, dir, type, opts, freq, passno⟩ h1 h2 h3 h4
  have hF1nul : ∀ c ∈ join_lines (file_lines F)
      ++ fstab_add_line ⟨fsname, dir, type, opts, freq, passno⟩, c ≠ 0 := by
    intro c hc
    simp only [fstab_add_line, List.mem_append, List.mem_singleton] at hc
    rcases hc with hc | hc | hc
    · exact hLnul c hc
    · exact (hnlb c hc).1
    · subst hc; decide
  have hF1 := c_str_of_nul_free _ hF1nul
  have hopts : opts.isEmpty = false := by
    cases opts with
    | nil => exact absurd rfl h4.1
    | cons a b => rfl
  have hsplit : g_strsplit_lines (join_lines (file_lines F)
      ++ fstab_add_line ⟨fsname, dir, type, opts, freq, passno⟩)
      = file_lines F ++ [fstab_add_line_text ⟨fsname, dir, type, opts, freq, passno⟩, []] := by
    unfold g_strsplit_lines
    rw [hF1]
    have hne : (join_lines (file_lines F)
        ++ fstab_add_line ⟨fsname, dir, type, opts, freq, passno⟩).isEmpty = false := by
      simp [fstab_add_line]
    rw [hne]
    simp only [Bool.false_eq_true, if_false]
    rw [split_on_join_lines _ _ (fun l hl c hc => (hLb l hl c hc).1)]
    unfold fstab_add_line
    have := split_on_append_sep 10 (fstab_add_line_text ⟨fsname, dir, type, opts, freq, passno⟩)
      [] (fun c hc => (hnlb c hc).2)
    rw [this]
    rfl
  constructor
  · simp only [add_remove_fstab_entry, Option.bind, Option.isSome, Bool.false_and,
      Bool.false_eq_true, if_false, fstab_lookup_add, nul _ h1, nul _ h2, nul _ h3, nul _ h4,
      hopts, htrack, add_remove_fstab_rewrite, hF, Option.isSome_none]
    rw [add_remove_fstab_loop_none]
    simp only [Bool.not_false, Bool.and_true, Bool.false_eq_true, if_false]
    have : c_str (join_lines (visited_lines (g_strsplit_lines F))
        ++ fstab_add_line ⟨fsname, dir, type, opts, freq, passno⟩)
        = join_lines (file_lines F)
          ++ fstab_add_line ⟨fsname, dir, type, opts, freq, passno⟩ := hF1
    rw [this, hw]
  · refine ⟨join_lines (file_lines F), ?_, file_lines_join_lines _ hLb⟩
    have hloop := add_remove_fstab_loop_remove_last ⟨fsname, dir, type, opts, freq, passno⟩
      (fstab_add_line_text ⟨fsname, dir, type, opts, freq, passno⟩) (file_lines F) hno
      (fstab_line_matches_add_line_text ⟨fsname, dir, type, opts, freq, passno⟩
        h1 h2 h3 h4 hq hp)
    simp only [add_remove_fstab_entry, Option.bind, fstab_lookup_remove, nul _ h1, nul _ h2,
      nul _ h3, nul _ h4, Option.isSome, Option.isNone, Bool.and_false, Bool.false_eq_true,
      if_false, add_remove_fstab_rewrite, hsplit, hloop, Bool.not_true, Bool.and_false,
      c_str_of_nul_free _ hLnul, hw]


/-- C27, amended, at a file with one comment line and the record /dev/sda1 on
/mnt. -/
theorem fstab_add_then_remove_witness :
    add_remove_fstab_entry (fstab_env_example (bytes "# end\n")) 0 none
        (some fstab_record_example)
      = some (.ok (bytes "# end\n/dev/sda1 /mnt ext4 defaults 0 0\n"))
    ∧ ∃ F2,
      add_remove_fstab_entry
          { fstab_env_example (bytes "# end\n") with
            g_file_get_contents := .ok (join_lines (file_lines (bytes "# end\n"))
              ++ fstab_add_line ⟨bytes "/dev/sda1", bytes "/mnt", bytes "ext4",
                  bytes "defaults", 0, 0⟩) }
          0 (some fstab_record_example) none
        = some (.ok F2)
      ∧ file_lines F2 = file_lines (bytes "# end\n") :=
  fstab_add_then_remove (fstab_env_example (bytes "# end\n")) 0 (bytes "# end\n")
    (bytes "/dev/sda1") (bytes "/mnt") (bytes "ext4") (bytes "defaults") 0 0 none
    (by decide) (by unfold fstab_field_ok; decide) (by unfold fstab_field_ok; decide)
    (by unfold fstab_field_ok; decide) (by unfold fstab_field_ok; decide)
    (by decide) (by decide) rfl (fun _ => rfl) (by decide)

/-! ### The unlock records file: the passphrase file -/

/-- C28 fails on the code: for an entry to add whose passphrase path lies in a
directory below /etc/luks-keys, the passphrase is written to the file of that
name directly in /etc/luks-keys, while the line for /etc/crypttab records the
path as given; the path recorded is not the path of the file written. -/
theorem crypttab_passphrase_path_differs_from_file :
    add_remove_crypttab_entry (crypttab_env_example (bytes "# unlock records\n")) 0 none
        (some { name := some (bytes "luks-1234"), device := some (bytes "UUID=1234"),
                passphrase_path := some (bytes "/etc/luks-keys/sub/key"),
                options := some (bytes "luks"),
                passphrase_contents := some (bytes "secret") })
      = some (none,
          [.mkdir_with_parents (bytes "/etc/luks-keys") 0o700,
           .file_set_contents (bytes "/etc/luks-keys/key") (bytes "secret") 0o600,
           .file_set_contents (bytes "/etc/crypttab")
             (bytes "# unlock records\nluks-1234 UUID=1234 /etc/luks-keys/sub/key luks\n")
             0o600]) := by
  rfl

end Storaged
